import Mathlib

/-!
# Falcor device / resource lifecycle: a shallow embedding

The first part of the definitions follows `Source/Falcor/Core/API/Device.cpp`; the
sections on typed buffers, pixel debugging and the render graph editor follow
`TypedBuffer.cpp`, `PixelDebug.cpp` and `RenderGraphEditor.cpp`.  The CPU side of
the device is deterministic and is written as total functions into `Except Fault`;
the asynchronous GPU and the platform backend show up as explicit inputs (how far the
GPU has progressed when the fence is polled, which handles the swap chain hands out,
whether platform initialisation succeeds).  Every externally visible effect is
appended to the device's `log`, in program order.

Counters (fence values, the frame counter) are natural numbers: they grow by one per
frame, so the end of their 64-bit range is out of reach of a run.  The one place where
the code subtracts unsigned values, the throttle of `present`, uses `wrapSub64`, which
wraps around like the C++ expression does.
-/

namespace Falcor

/-! ## Basic types -/

/-- Ways in which a call fails to return normally. -/
inductive Fault where
  /-- a failed `assert` in a build that checks assertions -/
  | assertion
  /-- use of a null shared pointer -/
  | nullDeref
  /-- an index past the end of an array or vector -/
  | outOfRange
  /-- a blocking fence wait on a value that is never signalled -/
  | hang
  /-- a read of a local that was never written -/
  | uninitialized
  /-- a C++ exception that leaves the function -/
  | exception
  deriving DecidableEq, Repr

/-- Build configuration: the two preprocessor switches `Device.cpp` depends on.
`asserts` says that `assert` is compiled in (it is declared in a header that is not
among the sources), `d3d12` stands for `FALCOR_D3D12`. -/
structure Build where
  asserts : Bool
  d3d12 : Bool
  deriving DecidableEq, Repr

/-- An API object handle (`ApiObjectHandle`, `ResourceHandle`, `CommandQueueHandle`);
`0` is the null handle. -/
abbrev ApiObjectHandle := Nat

/-- Dereference of a shared pointer. -/
def deref {α : Type} : Option α → Except Fault α
  | some a => .ok a
  | none => .error .nullDeref

/-- The `assert` of the code base: checked only in builds that compile it in. -/
def assertThat (cfg : Build) (c : Bool) : Except Fault Unit :=
  if cfg.asserts && !c then .error .assertion else .ok ()

inductive ResourceFormat where
  | Unknown
  | format (code : Nat)
  deriving DecidableEq, Repr

inductive ResourceState where
  | Undefined
  | RenderTarget
  | DepthStencil
  | Present
  | other (code : Nat)
  deriving DecidableEq, Repr

inductive BindFlags where
  | RenderTarget
  | DepthStencil
  deriving DecidableEq, Repr

/-- Modelled from the spec: a 2D texture as far as `Device.cpp` looks at it (the resource
classes are not among the sources).  Spec §3: each GPU resource carries a current usage
state; a fresh texture object starts in the `Undefined` state, as the comment in
`Device::resizeSwapChain` says. -/
structure Texture where
  width : Nat
  height : Nat
  format : ResourceFormat
  bindFlags : BindFlags
  mApiHandle : ApiObjectHandle
  mGlobalState : ResourceState
  mIsStateGlobal : Bool
  deriving DecidableEq, Repr

/-- Result of `new Texture(width, height, 1, 1, 1, 1, format, Texture2D, bindFlags)`. -/
def Texture.new (width height : Nat) (format : ResourceFormat) (flags : BindFlags) : Texture :=
  { width := width, height := height, format := format, bindFlags := flags,
    mApiHandle := 0, mGlobalState := .Undefined, mIsStateGlobal := true }

def Texture.setGlobalState (t : Texture) (s : ResourceState) : Texture :=
  { t with mGlobalState := s, mIsStateGlobal := true }

/-- Modelled from the spec: a framebuffer object (spec §3: it owns a colour texture and,
optionally, a depth-stencil texture): colour target 0 and the depth-stencil target. -/
structure Fbo where
  colorTarget0 : Option Texture
  depthStencil : Option Texture
  deriving DecidableEq, Repr

/-- Result of `Fbo::create()`: nothing attached. -/
def Fbo.create : Fbo := { colorTarget0 := none, depthStencil := none }

def Fbo.attachColorTarget (f : Fbo) (t : Option Texture) : Fbo := { f with colorTarget0 := t }

def Fbo.attachDepthStencilTarget (f : Fbo) (t : Option Texture) : Fbo := { f with depthStencil := t }

/-! ## The frame fence -/

/-- Modelled from the spec: `GpuFence` (its header and implementation are not among the
sources).  Spec §3 and §4.1: a CPU-submitted counter and the last GPU-completed
value; the GPU value is non-decreasing and never exceeds the highest submitted value.
`mCpuValue` is the value the next signal submits, so the highest value submitted so far
is `mCpuValue - 1`.  `id` is the identity of the fence object. -/
structure GpuFence where
  id : Nat
  mCpuValue : Nat
  gpuValue : Nat
  deriving DecidableEq, Repr

namespace GpuFence

/-- Modelled from the spec: `GpuFence::create`.  The first frame is stamped with fence
value 1 (spec §8, present scenario) and nothing has been signalled yet. -/
def create (id : Nat) : GpuFence := { id := id, mCpuValue := 1, gpuValue := 0 }

def getCpuValue (f : GpuFence) : Nat := f.mCpuValue

/-- Modelled from the spec: the highest value submitted to the queue so far ("the highest
CPU-submitted value" of spec §3); signals submit `mCpuValue` and then increment it. -/
def lastSignaled (f : GpuFence) : Nat := f.mCpuValue - 1

/-- Modelled from the spec: `GpuFence::gpuSignal`.  Submits the current CPU value onto
the queue and then increments it (spec §4.1 and §8: "present (fence becomes 2,
signals 1)").  Returns the submitted value. -/
def gpuSignal (f : GpuFence) : Nat × GpuFence :=
  (f.mCpuValue, { f with mCpuValue := f.mCpuValue + 1 })

/-- Modelled from the spec: progress of the asynchronous GPU between two looks at the
fence.  It completes `adv` further values; by spec §3 the GPU value never decreases and
never exceeds the highest submitted value. -/
def gpuAdvance (adv : Nat) (f : GpuFence) : GpuFence :=
  { f with gpuValue := max f.gpuValue (min (f.gpuValue + adv) f.lastSignaled) }

/-- Modelled from the spec: the fence once the GPU is idle (spec §4.5, "blocks until the
GPU is fully idle"): every submitted value is complete. -/
def gpuIdle (f : GpuFence) : GpuFence :=
  { f with gpuValue := max f.gpuValue f.lastSignaled }

/-- Modelled from the spec: `GpuFence::getGpuValue`.  Polls, without blocking, the latest
value the GPU has completed; `adv` is the progress the GPU has made since the fence was
last looked at. -/
def getGpuValue (adv : Nat) (f : GpuFence) : Nat × GpuFence :=
  ((f.gpuAdvance adv).gpuValue, f.gpuAdvance adv)

/-- Modelled from the spec: `GpuFence::syncCpu`.  Blocks until the GPU has completed at
least `v`; a wait on a value that was never submitted does not return. -/
def syncCpu (v : Nat) (f : GpuFence) : Except Fault GpuFence :=
  if v ≤ f.lastSignaled then .ok { f with gpuValue := max f.gpuValue v }
  else .error .hang

end GpuFence

/-! ## Device state -/

/-- An entry of the deferred-release queue (`Device::ResourceRelease`). -/
structure ResourceRelease where
  frameID : Nat
  pApiObject : ApiObjectHandle
  deriving DecidableEq, Repr

inductive PoolType where
  | TextureSrv | TextureUav | RawBufferSrv | RawBufferUav | TypedBufferSrv | TypedBufferUav
  | Cbv | StructuredBufferUav | StructuredBufferSrv | Dsv | Rtv | Sampler
  deriving DecidableEq, Repr

/-- Modelled from the spec: `DescriptorPool::Desc` (its header is not among the sources): a
descriptor count per type, the capacity fixed at pool creation (spec §4.3), and the
shader-visible flag. -/
structure PoolDesc where
  mDescCount : List (PoolType × Nat)
  mShaderVisible : Bool
  deriving DecidableEq, Repr

namespace PoolDesc

/-- A default-constructed description: all counts zero. -/
def empty : PoolDesc := { mDescCount := [], mShaderVisible := true }

def getDescCount (p : PoolDesc) (t : PoolType) : Nat :=
  match p.mDescCount.find? (fun e => e.1 == t) with
  | some e => e.2
  | none => 0

def setDescCount (p : PoolDesc) (t : PoolType) (count : Nat) : PoolDesc :=
  { p with mDescCount := (t, count) :: p.mDescCount.filter (fun e => e.1 != t) }

def setShaderVisible (p : PoolDesc) (b : Bool) : PoolDesc := { p with mShaderVisible := b }

def getTotalDescCount (p : PoolDesc) : Nat := (p.mDescCount.map Prod.snd).sum

end PoolDesc

/-- A descriptor pool: its description and the fence it was created with. -/
structure DescriptorPool where
  desc : PoolDesc
  fenceId : Nat
  deriving DecidableEq, Repr

/-- The upload heap: its size in bytes and the fence it was created with. -/
structure GpuMemoryHeap where
  size : Nat
  fenceId : Nat
  deriving DecidableEq, Repr

structure RenderContext where
  queue : ApiObjectHandle
  deriving DecidableEq, Repr

structure QueryHeap where
  count : Nat
  deriving DecidableEq, Repr

structure Window where
  clientAreaSize : Nat × Nat
  deriving DecidableEq, Repr

/-- The member `Device::Desc::cmdQueues`: requested number of queues per queue type. -/
structure QueueCounts where
  copy : Nat
  compute : Nat
  direct : Nat
  deriving DecidableEq, Repr

/-- The structure `Device::Desc`. -/
structure Desc where
  colorFormat : ResourceFormat
  depthFormat : ResourceFormat
  apiMajorVersion : Nat
  apiMinorVersion : Nat
  enableVsync : Bool
  enableDebugLayer : Bool
  cmdQueues : QueueCounts
  deriving DecidableEq, Repr

/-- The member `Device::mCmdQueues`: the queue objects per queue type. -/
structure CmdQueues where
  copy : List ApiObjectHandle
  compute : List ApiObjectHandle
  direct : List ApiObjectHandle
  deriving DecidableEq, Repr

/-- The members of `Device` that `Device::cleanup` clears or resets. -/
inductive Member where
  | cmdQueues
  | swapChainFbos
  | renderContext
  | uploadHeap
  | cpuDescPool
  | gpuDescPool
  | frameFence
  | window
  deriving DecidableEq, Repr

/-- Externally visible effects of the device, in the order the code performs them. -/
inductive Event where
  | resourceBarrier (slot : Nat) (state : ResourceState)
  | flush (wait : Bool)
  | apiPresent
  | fenceSignal (value : Nat)
  | fenceWait (value : Nat)
  | uploadHeapReclaim
  | readGpuValue (value : Nat)
  | destroy (entry : ResourceRelease)
  | cpuPoolReclaim
  | gpuPoolReclaim
  | frameAdvance
  | apiResizeSwapChain (width height : Nat)
  | toggleFullScreen (fullScreen : Bool)
  | createNullViews
  | releaseNullViews
  | destroyApiObjects
  | release (member : Member)
  deriving DecidableEq, Repr

/-- The members of `Device` that `Device.cpp` reads or writes, and the effect log. -/
structure Device where
  mpWindow : Option Window
  mDesc : Desc
  mCmdQueues : CmdQueues
  mpFrameFence : Option GpuFence
  mpGpuDescPool : Option DescriptorPool
  mpCpuDescPool : Option DescriptorPool
  mpUploadHeap : Option GpuMemoryHeap
  mpRenderContext : Option RenderContext
  mTimestampQueryHeap : Option QueryHeap
  mpSwapChainFbos : List (Option Fbo)
  mCurrentBackBufferIndex : Nat
  mDeferredReleases : List ResourceRelease
  mFrameID : Nat
  log : List Event
  deriving DecidableEq, Repr

def Device.emit (d : Device) (e : Event) : Device := { d with log := d.log ++ [e] }

/-! ## Device operations -/

/-- Element `i` of a C array or vector. -/
def index {α : Type} (xs : List α) (i : Nat) : Except Fault α :=
  match xs.get? i with
  | some a => .ok a
  | none => .error .outOfRange

/-- The value of the `uint64_t` expression `a - b` for operands in the 64-bit range: the
difference when `b ≤ a`, and the wrapped value `a + 2^64 - b` otherwise. -/
def wrapSub64 (a b : Nat) : Nat := if b ≤ a then a - b else a + 2 ^ 64 - b

/-- The function `Device::releaseResource`, with the object it is called on (`this`) made explicit: a
null `this` stands for a call through a null device pointer. -/
def releaseResource (this : Option Device) (pResource : ApiObjectHandle) :
    Except Fault (Option Device) :=
  if pResource ≠ 0 then
    match this with
    | some d => do
        let f ← deref d.mpFrameFence
        .ok (some { d with
          mDeferredReleases := d.mDeferredReleases ++ [⟨f.getCpuValue, pResource⟩] })
    | none => .ok none
  else .ok this

/-- The `while` loop of `Device::executeDeferredReleases`: pops the front entry as long as
there is one and its stamp is at most `gpuVal`.  The first component lists the popped
(destroyed) entries in the order they are popped, the second is the queue that is left. -/
def popRetired (gpuVal : Nat) :
    List ResourceRelease → List ResourceRelease × List ResourceRelease
  | [] => ([], [])
  | e :: q =>
    if e.frameID ≤ gpuVal then ((e :: (popRetired gpuVal q).1), (popRetired gpuVal q).2)
    else ([], e :: q)

/-- The function `Device::executeDeferredReleases`.  `adv` is the progress of the GPU that the poll of
the fence observes. -/
def Device.executeDeferredReleases (adv : Nat) (d : Device) : Except Fault Device := do
  let _ ← deref d.mpUploadHeap
  let d1 := d.emit .uploadHeapReclaim
  let f ← deref d1.mpFrameFence
  let (gpuVal, f1) := f.getGpuValue adv
  let r := popRetired gpuVal d1.mDeferredReleases
  let d2 := { d1 with
    mpFrameFence := some f1
    mDeferredReleases := r.2
    log := d1.log ++ [Event.readGpuValue gpuVal] ++ r.1.map Event.destroy }
  let _ ← deref d2.mpCpuDescPool
  let d3 := d2.emit .cpuPoolReclaim
  let _ ← deref d3.mpGpuDescPool
  .ok (d3.emit .gpuPoolReclaim)

/-- Modelled from the spec: `RenderContext::flush(wait)` on the device's render context
(the render context is not among the sources).  Spec §4.5: with `wait` it "flushes and
blocks until the GPU is fully idle", so every value submitted to the frame fence is
complete afterwards. -/
def Device.flush (wait : Bool) (d : Device) : Except Fault Device := do
  let _ ← deref d.mpRenderContext
  let d1 := d.emit (.flush wait)
  .ok (if wait then { d1 with mpFrameFence := d1.mpFrameFence.map GpuFence.gpuIdle } else d1)

/-- First statement of `Device::present`: the barrier that moves colour target 0 of the
current back buffer to the `Present` state. -/
def Device.barrierToPresent (d : Device) : Except Fault Device := do
  let _ ← deref d.mpRenderContext
  let slot ← index d.mpSwapChainFbos d.mCurrentBackBufferIndex
  let fbo ← deref slot
  let tex ← deref fbo.colorTarget0
  let fbo1 := fbo.attachColorTarget (some (tex.setGlobalState .Present))
  .ok { d with
    mpSwapChainFbos := d.mpSwapChainFbos.set d.mCurrentBackBufferIndex (some fbo1)
    log := d.log ++ [.resourceBarrier d.mCurrentBackBufferIndex .Present] }

/-- Modelled from the spec: `Device::apiPresent` (platform backend, not among the
sources): "hands the back buffer to the platform presentation mechanism".  Which of the
`K` slots is current afterwards is the platform's choice `next`. -/
def Device.apiPresent (K next : Nat) (d : Device) : Device :=
  { d with mCurrentBackBufferIndex := next % K, log := d.log ++ [.apiPresent] }

/-- The call `mpFrameFence->gpuSignal(...)` on the queue of the render context. -/
def Device.signalFrameFence (d : Device) : Except Fault Device := do
  let f ← deref d.mpFrameFence
  let _ ← deref d.mpRenderContext
  let (v, f1) := f.gpuSignal
  .ok { d with mpFrameFence := some f1, log := d.log ++ [.fenceSignal v] }

/-- The throttle of `Device::present`:
`if (getCpuValue() >= kSwapChainBuffersCount) syncCpu(getCpuValue() - kSwapChainBuffersCount)`. -/
def Device.throttle (K : Nat) (d : Device) : Except Fault Device := do
  let f ← deref d.mpFrameFence
  if f.getCpuValue ≥ K then
    let target := wrapSub64 f.getCpuValue K
    let f1 ← f.syncCpu target
    .ok { d with mpFrameFence := some f1, log := d.log ++ [.fenceWait target] }
  else .ok d

/-- The function `Device::present`.  `K` is `kSwapChainBuffersCount`; `adv` and `next` are the inputs
of the GPU and of the platform. -/
def Device.present (K adv next : Nat) (d : Device) : Except Fault Device := do
  let d1 ← d.barrierToPresent
  let d2 ← d1.flush false
  let d3 := d2.apiPresent K next
  let d4 ← d3.signalFrameFence
  let d5 ← d4.throttle K
  let d6 ← d5.executeDeferredReleases adv
  .ok { d6 with mFrameID := d6.mFrameID + 1, log := d6.log ++ [.frameAdvance] }

/-- The function `Device::flushAndSync`. -/
def Device.flushAndSync (adv : Nat) (d : Device) : Except Fault Device := do
  let d1 ← d.flush true
  let d2 ← d1.signalFrameFence
  d2.executeDeferredReleases adv

/-- The function `Device::cleanup`.  `K` is `kSwapChainBuffersCount`.  Clearing the queue
vectors, resetting a pointer member and assigning an empty queue each show up in the log:
a `release` event for the member, a `destroy` event for every entry the queue held.
(`toggleFullScreen` and `destroyApiObjects` belong to the platform backend; they show up
as their events.) -/
def Device.cleanup (K : Nat) (d : Device) : Except Fault Device := do
  let d1 := d.emit (.toggleFullScreen false)
  let d2 ← d1.flush true
  let d3 := { d2 with mCmdQueues := ⟨[], [], []⟩, log := d2.log ++ [Event.release .cmdQueues] }
  let d4 := { d3 with
    mpSwapChainFbos := (List.range K).foldl (fun fbos i => fbos.set i none) d3.mpSwapChainFbos
    log := d3.log ++ [Event.release .swapChainFbos] }
  let d5 := { d4 with
    mDeferredReleases := []
    log := d4.log ++ d4.mDeferredReleases.map Event.destroy }
  let d6 := d5.emit .releaseNullViews
  let d7 := { d6 with mpRenderContext := none, log := d6.log ++ [Event.release .renderContext] }
  let d8 := { d7 with mpUploadHeap := none, log := d7.log ++ [Event.release .uploadHeap] }
  let d9 := { d8 with mpCpuDescPool := none, log := d8.log ++ [Event.release .cpuDescPool] }
  let d10 := { d9 with mpGpuDescPool := none, log := d9.log ++ [Event.release .gpuDescPool] }
  let d11 := { d10 with mpFrameFence := none, log := d10.log ++ [Event.release .frameFence] }
  let d12 := d11.emit .destroyApiObjects
  .ok { d12 with mpWindow := none, log := d12.log ++ [Event.release .window] }

/-- The first loop of `Device::releaseFboData`: detaches both targets of every
framebuffer of the swap chain. -/
def detachAll : List (Option Fbo) → Except Fault (List (Option Fbo))
  | [] => .ok []
  | p :: ps => do
    let pFbo ← deref p
    let rest ← detachAll ps
    .ok (some ((pFbo.attachColorTarget none).attachDepthStencilTarget none) :: rest)

/-- The function `Device::releaseFboData`.  Swapping the queue with an empty one destroys every
queued entry, whatever its stamp.  (The textures that lose their last reference here hand
their own handles to the queue first; the model leaves those out, they are destroyed by
the same swap.) -/
def Device.releaseFboData (d : Device) : Except Fault Device := do
  let fbos ← detachAll d.mpSwapChainFbos
  .ok { d with
    mpSwapChainFbos := fbos
    mDeferredReleases := []
    log := d.log ++ d.mDeferredReleases.map Event.destroy }

/-- What the platform hands out when the framebuffers are (re)built: the handles of the
swap-chain images written by `getApiFboData`, the handles of the depth textures made by
`Texture::create2D`, and the back-buffer index `getApiFboData` reports. -/
structure SwapChainEnv where
  apiHandles : List ApiObjectHandle
  depthHandles : List ApiObjectHandle
  backBufferIndex : Nat
  deriving DecidableEq, Repr

/-- Body of the loop of `Device::updateDefaultFBO` for slot `i`, whose framebuffer
pointer is `p` before the iteration. -/
def updateSlot (env : SwapChainEnv) (width height : Nat) (colorFormat depthFormat : ResourceFormat)
    (i : Nat) (p : Option Fbo) : Option Fbo :=
  let pColorTex : Texture :=
    { Texture.new width height colorFormat .RenderTarget with
      mApiHandle := env.apiHandles.getD i 0 }
  let fbo := (p.getD Fbo.create).attachColorTarget (some pColorTex)
  if depthFormat ≠ .Unknown then
    let pDepth : Texture :=
      { Texture.new width height depthFormat .DepthStencil with
        mApiHandle := env.depthHandles.getD i 0 }
    some (fbo.attachDepthStencilTarget (some pDepth))
  else some fbo

/-- The function `Device::updateDefaultFBO`.  `K` is `kSwapChainBuffersCount`. -/
def Device.updateDefaultFBO (K : Nat) (env : SwapChainEnv) (width height : Nat)
    (colorFormat depthFormat : ResourceFormat) (d : Device) : Bool × Device :=
  let fbos := (List.range K).foldl
    (fun fbos i =>
      fbos.set i (updateSlot env width height colorFormat depthFormat i (fbos.getD i none)))
    d.mpSwapChainFbos
  (true, { d with mCurrentBackBufferIndex := env.backBufferIndex % K, mpSwapChainFbos := fbos })

/-- The function `Device::getSwapChainFbo`. -/
def Device.getSwapChainFbo (d : Device) : Except Fault (Option Fbo) :=
  index d.mpSwapChainFbos d.mCurrentBackBufferIndex

/-- The depth part of one iteration of the loop that saves the states: a slot without
depth texture leaves its `fboDepthStates` element unwritten. -/
def saveDepthState (cfg : Build) : Option Texture → Except Fault (Option ResourceState)
  | some pSwapChainDepth => do
    assertThat cfg pSwapChainDepth.mIsStateGlobal
    .ok (some pSwapChainDepth.mGlobalState)
  | none => .ok none

/-- The D3D12-only loop of `Device::resizeSwapChain` that saves, for the slots listed, the
global state of the colour texture and, where there is one, of the depth texture. -/
def saveFboStates (cfg : Build) (fbos : List (Option Fbo)) :
    List Nat → Except Fault (List (ResourceState × Option ResourceState))
  | [] => .ok []
  | i :: rest => do
    let slot ← index fbos i
    let fbo ← deref slot
    let color ← deref fbo.colorTarget0
    assertThat cfg color.mIsStateGlobal
    let depth ← saveDepthState cfg fbo.depthStencil
    let saved ← saveFboStates cfg fbos rest
    .ok ((color.mGlobalState, depth) :: saved)

/-- The depth part of one iteration of the loop that restores the states: the saved state
is written into the depth texture of the rebuilt framebuffer, if it has one; reading an
element of `fboDepthStates` that was never written is a fault. -/
def restoreDepthState (cfg : Build) (depthState : Option ResourceState) (fbo : Fbo) :
    Except Fault Fbo :=
  match fbo.depthStencil with
  | some pSwapChainDepth => do
    assertThat cfg pSwapChainDepth.mIsStateGlobal
    match depthState with
    | some s => .ok (fbo.attachDepthStencilTarget (some (pSwapChainDepth.setGlobalState s)))
    | none => .error .uninitialized
  | none => .ok fbo

/-- The D3D12-only loop of `Device::resizeSwapChain` that writes the saved states back
into the textures of the rebuilt framebuffers, slot by slot from slot `i` on. -/
def restoreFboStates (cfg : Build) :
    Nat → List (ResourceState × Option ResourceState) → List (Option Fbo) →
      Except Fault (List (Option Fbo))
  | _, [], fbos => .ok fbos
  | i, (colorState, depthState) :: saved, fbos => do
    let slot ← index fbos i
    let fbo ← deref slot
    let color ← deref fbo.colorTarget0
    assertThat cfg color.mIsStateGlobal
    let fbo1 := fbo.attachColorTarget (some (color.setGlobalState colorState))
    let fbo2 ← restoreDepthState cfg depthState fbo1
    restoreFboStates cfg (i + 1) saved (fbos.set i (some fbo2))

/-- The `#ifdef FALCOR_D3D12` block of `Device::resizeSwapChain` that saves the states. -/
def Device.saveStates (cfg : Build) (K : Nat) (d : Device) :
    Except Fault (List (ResourceState × Option ResourceState)) :=
  if cfg.d3d12 then saveFboStates cfg d.mpSwapChainFbos (List.range K) else .ok []

/-- The `#ifdef FALCOR_D3D12` block of `Device::resizeSwapChain` that restores the states. -/
def Device.restoreStates (cfg : Build) (saved : List (ResourceState × Option ResourceState))
    (d : Device) : Except Fault Device :=
  if cfg.d3d12 then
    match restoreFboStates cfg 0 saved d.mpSwapChainFbos with
    | .ok fbos => .ok { d with mpSwapChainFbos := fbos }
    | .error e => .error e
  else .ok d

/-- The function `Device::resizeSwapChain`.  Returns the framebuffer pointer the call returns and the
device afterwards.  (The assertion on the sample count concerns the framebuffer
description, which the model does not carry.) -/
def Device.resizeSwapChain (cfg : Build) (K : Nat) (env : SwapChainEnv) (width height : Nat)
    (d : Device) : Except Fault (Option Fbo × Device) := do
  let d1 ← d.flush true
  let slot0 ← index d1.mpSwapChainFbos 0
  let fbo0 ← deref slot0
  let color0 ← deref fbo0.colorTarget0
  let colorFormat := color0.format
  let depthFormat := match fbo0.depthStencil with
    | some pDepth => pDepth.format
    | none => ResourceFormat.Unknown
  let saved ← d1.saveStates cfg K
  let d2 ← d1.releaseFboData
  let d3 := d2.emit (.apiResizeSwapChain width height)
  let d4 := (d3.updateDefaultFBO K env width height colorFormat depthFormat).2
  let d5 ← d4.restoreStates cfg saved
  let pFbo ← d5.getSwapChainFbo
  .ok (pFbo, d5)

/-! ## Creation -/

/-- What the platform does while a device is initialised: whether `apiInit` succeeds,
whether `RenderContext::create` yields a context, the identity of the new fence object
and the swap-chain data for the first framebuffers. -/
structure InitEnv where
  apiInit : Bool
  renderContext : Bool
  fenceId : Nat
  swapChain : SwapChainEnv
  deriving DecidableEq, Repr

/-- The constructor `Device(pWindow, desc)`: every pointer member is null, the
framebuffer array has `K` null slots, the queue is empty. -/
def Device.new (K : Nat) (pWindow : Option Window) (desc : Desc) : Device :=
  { mpWindow := pWindow, mDesc := desc, mCmdQueues := ⟨[], [], []⟩, mpFrameFence := none,
    mpGpuDescPool := none, mpCpuDescPool := none, mpUploadHeap := none,
    mpRenderContext := none, mTimestampQueryHeap := none,
    mpSwapChainFbos := List.replicate K none, mCurrentBackBufferIndex := 0,
    mDeferredReleases := [], mFrameID := 0, log := [] }

/-- Modelled from the spec: `Device::apiInit` (platform backend, not among the sources):
"create platform device/queues", one queue object per requested queue.  `ok` says
whether the platform succeeds. -/
def Device.apiInit (ok : Bool) (d : Device) : Bool × Device :=
  if ok then
    (true, { d with mCmdQueues :=
      ⟨List.replicate d.mDesc.cmdQueues.copy 1, List.replicate d.mDesc.cmdQueues.compute 1,
        List.replicate d.mDesc.cmdQueues.direct 1⟩ })
  else (false, d)

/-- The statement `if (mpRenderContext) mpRenderContext->flush();` of `Device::init`. -/
def Device.flushIfContext (d : Device) : Except Fault Device :=
  if d.mpRenderContext.isSome then d.flush false else .ok d

/-- The description of the GPU-visible descriptor pool that `Device::init` builds. -/
def gpuPoolDesc (cfg : Build) : PoolDesc :=
  let poolDesc := ((PoolDesc.empty.setDescCount .TextureSrv 1000000).setDescCount .Sampler 2048).setShaderVisible true
  if cfg.d3d12 then poolDesc
  else
    ((((((((poolDesc.setDescCount .Cbv (16 * 1024)).setDescCount .TextureUav (16 * 1024)).setDescCount
      .StructuredBufferSrv (2 * 1024)).setDescCount .StructuredBufferUav (2 * 1024)).setDescCount
      .TypedBufferSrv (2 * 1024)).setDescCount .TypedBufferUav (2 * 1024)).setDescCount
      .RawBufferSrv (2 * 1024)).setDescCount .RawBufferUav (2 * 1024))

/-- The description of the CPU-only pool: `Device::init` goes on modifying the same
`poolDesc` object. -/
def cpuPoolDesc (cfg : Build) : PoolDesc :=
  (((gpuPoolDesc cfg).setShaderVisible false).setDescCount .Rtv (16 * 1024)).setDescCount .Dsv 1024

/-- The function `Device::init`. -/
def Device.init (cfg : Build) (K : Nat) (env : InitEnv) (d : Device) :
    Except Fault (Bool × Device) := do
  assertThat cfg (decide (d.mDesc.cmdQueues.direct > 0))
  let (ok, d1) := d.apiInit env.apiInit
  if ok == false then .ok (false, d1)
  else
    let fence := GpuFence.create env.fenceId
    let d2 := { d1 with
      mpFrameFence := some fence
      mpGpuDescPool := some ⟨gpuPoolDesc cfg, fence.id⟩
      mpCpuDescPool := some ⟨cpuPoolDesc cfg, fence.id⟩
      mpUploadHeap := some ⟨1024 * 1024 * 2, fence.id⟩ }
    let d3 := d2.emit .createNullViews
    let queue ← index d3.mCmdQueues.direct 0
    let d4 := { d3 with mpRenderContext := if env.renderContext then some ⟨queue⟩ else none }
    let d5 ← d4.flushIfContext
    let pWindow ← deref d5.mpWindow
    let (ok2, d6) := d5.updateDefaultFBO K env.swapChain pWindow.clientAreaSize.1
      pWindow.clientAreaSize.2 d5.mDesc.colorFormat d5.mDesc.depthFormat
    if ok2 == false then .ok (false, d6)
    else .ok (true, { d6 with mTimestampQueryHeap := some ⟨128 * 1024 * 1024⟩ })

/-- Outcome of `Device::create`: the returned pointer, the global `gpDevice` afterwards
and the messages handed to `logError`. -/
structure CreateResult where
  result : Option Device
  gpDevice : Option Device
  errors : List String
  deriving DecidableEq, Repr

/-- The function `Device::create`, with the global `gpDevice` passed in and returned. -/
def Device.create (cfg : Build) (K : Nat) (env : InitEnv) (gpDevice : Option Device)
    (pWindow : Option Window) (desc : Desc) : Except Fault CreateResult :=
  match gpDevice with
  | some live => .ok ⟨none, some live, ["Falcor only supports a single device"]⟩
  | none => do
    let (ok, d) ← (Device.new K pWindow desc).init cfg K env
    let g := if ok == false then none else some d
    .ok ⟨g, g, []⟩

/-! ## Runs of device operations -/

/-- The device calls that the rest of the engine makes frame after frame, each with the
inputs of the GPU and the platform it meets. -/
inductive DeviceOp where
  | releaseResource (pResource : ApiObjectHandle)
  | present (adv next : Nat)
  | flushAndSync (adv : Nat)
  | executeDeferredReleases (adv : Nat)
  deriving DecidableEq, Repr

def Device.step (K : Nat) (d : Device) : DeviceOp → Except Fault Device
  | .releaseResource h => (releaseResource (some d) h).map (fun r => r.getD d)
  | .present adv next => d.present K adv next
  | .flushAndSync adv => d.flushAndSync adv
  | .executeDeferredReleases adv => d.executeDeferredReleases adv

def Device.run (K : Nat) : List DeviceOp → Device → Except Fault Device
  | [], d => .ok d
  | op :: ops, d => do
    let d1 ← d.step K op
    Device.run K ops d1

/-! ## Sample inputs -/

def sampleDesc : Desc :=
  { colorFormat := .format 28, depthFormat := .format 40, apiMajorVersion := 12,
    apiMinorVersion := 0, enableVsync := false, enableDebugLayer := false,
    cmdQueues := ⟨0, 0, 1⟩ }

def sampleWindow : Window := { clientAreaSize := (1920, 1080) }

def sampleEnv : InitEnv :=
  { apiInit := true, renderContext := true, fenceId := 7,
    swapChain := { apiHandles := [101, 102, 103], depthHandles := [201, 202, 203],
                   backBufferIndex := 0 } }

def sampleBuild : Build := { asserts := true, d3d12 := true }

/-- The device that `Device::create` returns for the sample inputs, with `K` back
buffers (a device with null members if creation fails). -/
def sampleDevice (K : Nat) : Device :=
  match Device.create sampleBuild K sampleEnv none (some sampleWindow) sampleDesc with
  | .ok r => r.result.getD (Device.new K none sampleDesc)
  | .error _ => Device.new K none sampleDesc

/-! ## Steady-state invariant and closed forms -/

/-- The device after `executeDeferredReleases`, when the call returns and started with the
frame fence `f`. -/
def Device.afterReclaim (adv : Nat) (f : GpuFence) (d : Device) : Device :=
  { d with
    mpFrameFence := some (f.gpuAdvance adv)
    mDeferredReleases := (popRetired (f.gpuAdvance adv).gpuValue d.mDeferredReleases).2
    log := d.log ++ [Event.uploadHeapReclaim, Event.readGpuValue (f.gpuAdvance adv).gpuValue]
      ++ (popRetired (f.gpuAdvance adv).gpuValue d.mDeferredReleases).1.map Event.destroy
      ++ [Event.cpuPoolReclaim, Event.gpuPoolReclaim] }

/-- The steady state of a device with `K` back buffers, as `Device::create` establishes it
and every device call keeps it: the members that the frame loop dereferences are there,
the GPU has not completed more than was submitted, the stamps in the deferred-release
queue are non-decreasing and at most the CPU value of the fence, every framebuffer slot
holds a framebuffer with a colour target, and the back-buffer index is in range. -/
def Ready (K : Nat) (d : Device) : Prop :=
  d.mpRenderContext.isSome ∧ d.mpUploadHeap.isSome ∧ d.mpCpuDescPool.isSome ∧
  d.mpGpuDescPool.isSome ∧
  (∃ f ∈ d.mpFrameFence, f.gpuValue < f.mCpuValue ∧
    ∀ e ∈ d.mDeferredReleases, e.frameID ≤ f.mCpuValue) ∧
  d.mDeferredReleases.Pairwise (fun a b => a.frameID ≤ b.frameID) ∧
  d.mpSwapChainFbos.length = K ∧
  (∀ p ∈ d.mpSwapChainFbos, ∃ fbo ∈ p, fbo.colorTarget0.isSome) ∧
  d.mCurrentBackBufferIndex < K

instance (K : Nat) (d : Device) : Decidable (Ready K d) := by
  unfold Ready
  infer_instance

/-- The frame fence after a `present` that started with fence `f`. -/
def presentFence (K adv : Nat) (f : GpuFence) : GpuFence :=
  let f1 : GpuFence := { f with mCpuValue := f.mCpuValue + 1 }
  let f2 : GpuFence :=
    if K ≤ f1.mCpuValue then { f1 with gpuValue := max f1.gpuValue (wrapSub64 f1.mCpuValue K) }
    else f1
  f2.gpuAdvance adv

/-- The effects of one `present`, in order, for a device with frame fence `f`. -/
def presentEvents (K adv : Nat) (f : GpuFence) (d : Device) : List Event :=
  [Event.resourceBarrier d.mCurrentBackBufferIndex .Present, Event.flush false, Event.apiPresent,
    Event.fenceSignal f.mCpuValue]
  ++ (if K ≤ f.mCpuValue + 1 then [Event.fenceWait (wrapSub64 (f.mCpuValue + 1) K)] else [])
  ++ [Event.uploadHeapReclaim, Event.readGpuValue (presentFence K adv f).gpuValue]
  ++ (popRetired (presentFence K adv f).gpuValue d.mDeferredReleases).1.map Event.destroy
  ++ [Event.cpuPoolReclaim, Event.gpuPoolReclaim, Event.frameAdvance]

/-- The device after `present`, when the call returns. -/
def Device.afterPresent (K adv next : Nat) (f : GpuFence) (fbo : Fbo) (tex : Texture)
    (d : Device) : Device :=
  { d with
    mpSwapChainFbos := d.mpSwapChainFbos.set d.mCurrentBackBufferIndex
      (some (fbo.attachColorTarget (some (tex.setGlobalState .Present))))
    mCurrentBackBufferIndex := next % K
    mpFrameFence := some (presentFence K adv f)
    mDeferredReleases := (popRetired (presentFence K adv f).gpuValue d.mDeferredReleases).2
    mFrameID := d.mFrameID + 1
    log := d.log ++ presentEvents K adv f d }

/-- The frame fence after a `flushAndSync` that started with fence `f`. -/
def flushFence (adv : Nat) (f : GpuFence) : GpuFence :=
  GpuFence.gpuAdvance adv { f.gpuIdle with mCpuValue := f.mCpuValue + 1 }

/-- The device after `flushAndSync`, when the call returns. -/
def Device.afterFlushAndSync (adv : Nat) (f : GpuFence) (d : Device) : Device :=
  { d with
    mpFrameFence := some (flushFence adv f)
    mDeferredReleases := (popRetired (flushFence adv f).gpuValue d.mDeferredReleases).2
    log := d.log ++ [Event.flush true, Event.fenceSignal f.mCpuValue, Event.uploadHeapReclaim,
        Event.readGpuValue (flushFence adv f).gpuValue]
      ++ (popRetired (flushFence adv f).gpuValue d.mDeferredReleases).1.map Event.destroy
      ++ [Event.cpuPoolReclaim, Event.gpuPoolReclaim] }

/-- The entries a log records as destroyed, in order. -/
def destroyed : List Event → List ResourceRelease
  | [] => []
  | Event.destroy e :: l => e :: destroyed l
  | _ :: l => destroyed l

/-- The stamps of a queue are non-decreasing from front to back. -/
def StampsSorted (q : List ResourceRelease) : Prop :=
  q.Pairwise (fun a b => a.frameID ≤ b.frameID)

/-- The queue part of the steady state: sorted stamps, none above the CPU value of the
frame fence. -/
def QueueInv (d : Device) : Prop :=
  StampsSorted d.mDeferredReleases ∧
    ∀ f ∈ d.mpFrameFence, ∀ e ∈ d.mDeferredReleases, e.frameID ≤ f.mCpuValue

/-- A short run on the sample device with two back buffers: two releases with a present
(during which the GPU completes nothing) in between. -/
def sampleOps : List DeviceOp :=
  [.releaseResource 5, .present 0 1, .releaseResource 6]

/-- The device the sample run ends in. -/
def sampleAfterOps : Device :=
  match (sampleDevice 2).run 2 sampleOps with
  | .ok d => d
  | .error _ => sampleDevice 2

/-- A run of `present` calls, one per pair of GPU and platform inputs. -/
def presents (envs : List (Nat × Nat)) : List DeviceOp :=
  envs.map (fun e => DeviceOp.present e.1 e.2)

/-- The sample device after `releaseResource(5)` in its first frame. -/
def sampleReleased : Device :=
  match releaseResource (some (sampleDevice 2)) 5 with
  | .ok (some d) => d
  | _ => sampleDevice 2

/-- The sample device after that release and one `present` during which the GPU
completes the frame just submitted. -/
def samplePresentedFast : Device :=
  match sampleReleased.present 2 1 1 with
  | .ok d => d
  | .error _ => sampleReleased

/-- The device states the engine can be in between two device calls: `Device::create`
has returned the device, with a render context, and any run of device calls that returned
has followed. -/
def Reachable (K : Nat) (d : Device) : Prop :=
  ∃ (cfg : Build) (env : InitEnv) (pWindow : Option Window) (desc : Desc) (d0 : Device)
    (ops : List DeviceOp),
    Device.create cfg K env none pWindow desc = .ok ⟨some d0, some d0, []⟩ ∧
    d0.mpRenderContext.isSome ∧ d0.run K ops = .ok d

/-- The claim "an entry released during a frame is not reclaimed by any of the first
`K - 1` `present` calls that follow the release", for back-buffer count `K`: from a
reachable state, after a release of a non-null handle and fewer than `K` returning `present`
calls, the released entry is still queued. -/
def KeptForFirstPresents (K : Nat) : Prop :=
  ∀ (d d1 dj : Device) (f : GpuFence) (h : ApiObjectHandle) (envs : List (Nat × Nat)),
    Reachable K d → h ≠ 0 → d.mpFrameFence = some f →
    releaseResource (some d) h = .ok (some d1) →
    envs.length < K → d1.run K (presents envs) = .ok dj →
    (⟨f.mCpuValue, h⟩ : ResourceRelease) ∈ dj.mDeferredReleases

/-- The sample device after the sample release and one `present` during which the GPU
completes nothing on its own. -/
def samplePresentedSlow : Device :=
  match sampleReleased.present 2 0 1 with
  | .ok d => d
  | .error _ => sampleReleased

/-- A platform on which `apiInit` fails. -/
def sampleFailingEnv : InitEnv := { sampleEnv with apiInit := false }

/-- A framebuffer slot that holds a framebuffer with a colour target. -/
def SlotAttached (p : Option Fbo) : Prop := ∃ fbo ∈ p, fbo.colorTarget0.isSome

/-- The effects of `cleanup`, in order, for a device whose queue holds `q`. -/
def cleanupEvents (q : List ResourceRelease) : List Event :=
  [Event.toggleFullScreen false, Event.flush true, Event.release .cmdQueues,
    Event.release .swapChainFbos]
  ++ q.map Event.destroy
  ++ [Event.releaseNullViews, Event.release .renderContext, Event.release .uploadHeap,
    Event.release .cpuDescPool, Event.release .gpuDescPool, Event.release .frameFence,
    Event.destroyApiObjects, Event.release .window]

/-- The device after `cleanup`, when the call returns. -/
def Device.afterCleanup (K : Nat) (d : Device) : Device :=
  { d with
    mpWindow := none
    mCmdQueues := ⟨[], [], []⟩
    mpFrameFence := none
    mpGpuDescPool := none
    mpCpuDescPool := none
    mpUploadHeap := none
    mpRenderContext := none
    mpSwapChainFbos := (List.range K).foldl (fun fbos i => fbos.set i none) d.mpSwapChainFbos
    mDeferredReleases := []
    log := d.log ++ cleanupEvents d.mDeferredReleases }

/-- A platform on which `RenderContext::create` yields no context. -/
def sampleNoContextEnv : InitEnv := { sampleEnv with renderContext := false }

/-- What `Device::create` returns on that platform (a device with null members if
it returns none). -/
def sampleNoContextDevice : Device :=
  match Device.create sampleBuild 2 sampleNoContextEnv none (some sampleWindow) sampleDesc with
  | .ok r => r.result.getD (Device.new 2 none sampleDesc)
  | .error _ => Device.new 2 none sampleDesc

/-- A device description that requests no Direct queue. -/
def sampleZeroQueueDesc : Desc := { sampleDesc with cmdQueues := ⟨1, 1, 0⟩ }

/-- A build without assertions. -/
def sampleReleaseBuild : Build := { asserts := false, d3d12 := true }

/-- A build for the other backend, with assertions. -/
def sampleVulkanBuild : Build := { asserts := true, d3d12 := false }

/-- The state the sample run ends in, after `cleanup`. -/
def sampleCleaned : Device :=
  match sampleAfterOps.cleanup 2 with
  | .ok d => d
  | .error _ => sampleAfterOps

/-- The claim "`Device::create` fails as a configuration error": it returns, with no
device, and leaves the global null. -/
def FailsAsConfigurationError (cfg : Build) (K : Nat) (env : InitEnv) (pWindow : Option Window)
    (desc : Desc) : Prop :=
  ∃ r, Device.create cfg K env none pWindow desc = .ok r ∧ r.result = none ∧ r.gpDevice = none

/-- The device and the success flag that `Device::init` yields on the sample inputs. -/
def sampleInit : Bool × Device :=
  match (Device.new 2 (some sampleWindow) sampleDesc).init sampleBuild 2 sampleEnv with
  | .ok r => r
  | .error _ => (false, Device.new 2 none sampleDesc)

/-- The claim "the CPU-only pool is sized smaller than the GPU-visible pool", for the
pools `Device::init` creates in build `cfg`: the total of the CPU-only pool is below the
total of the GPU-visible pool, and so is its count for every type the GPU-visible pool
holds. -/
def CpuPoolSmaller (cfg : Build) : Prop :=
  (cpuPoolDesc cfg).getTotalDescCount < (gpuPoolDesc cfg).getTotalDescCount ∧
    ∀ t, 0 < (gpuPoolDesc cfg).getDescCount t →
      (cpuPoolDesc cfg).getDescCount t < (gpuPoolDesc cfg).getDescCount t

/-- The number of fence signals a run of device calls makes: one per `present` and one per
`flushAndSync`. -/
def signals : List DeviceOp → Nat
  | [] => 0
  | .present _ _ :: ops => signals ops + 1
  | .flushAndSync _ :: ops => signals ops + 1
  | _ :: ops => signals ops

/-- The last GPU value a stretch of the log records as read, `lo` when it records none. -/
def lastRead (lo : Nat) : List Event → Nat
  | [] => lo
  | Event.readGpuValue g :: l => lastRead g l
  | _ :: l => lastRead lo l

/-- The highest value signalled once a stretch of the log is over, when `hi` was the
highest before. -/
def highestSignal (hi : Nat) : List Event → Nat
  | [] => hi
  | Event.fenceSignal v :: l => highestSignal (max hi v) l
  | _ :: l => highestSignal hi l

/-- Every GPU value a stretch of the log records as read is at least the value read before
it (`lo` at the start) and at most the highest value signalled so far (`hi` at the
start). -/
def ReadsWithin : Nat → Nat → List Event → Prop
  | _, _, [] => True
  | lo, hi, Event.fenceSignal v :: l => ReadsWithin lo (max hi v) l
  | lo, hi, Event.readGpuValue g :: l => lo ≤ g ∧ g ≤ hi ∧ ReadsWithin g hi l
  | lo, hi, _ :: l => ReadsWithin lo hi l

/-- How a stretch of device calls that makes `n` signals and logs `events` takes the frame
fence from `f` to `f'`: the CPU value grows by `n`, the GPU value does not decrease and
stays below the CPU value, and the reads in `events` are within bounds, starting from a
last read `lo`. -/
def FenceStep (lo : Nat) (f f' : GpuFence) (n : Nat) (events : List Event) : Prop :=
  f'.mCpuValue = f.mCpuValue + n ∧ f'.id = f.id ∧ f.gpuValue ≤ f'.gpuValue ∧
  f'.gpuValue < f'.mCpuValue ∧ ReadsWithin lo f.lastSignaled events ∧
  lastRead lo events ≤ f'.gpuValue ∧ highestSignal f.lastSignaled events = f'.lastSignaled

/-- How the loop that restores the states changes one slot: `p'` is `p` with the saved
colour state written into its colour texture and, if it has a depth texture, the saved
depth state written into that. -/
def RestoredSlot (s : ResourceState × Option ResourceState) (p p' : Option Fbo) : Prop :=
  ∃ fbo color fbo', p = some fbo ∧ fbo.colorTarget0 = some color ∧ p' = some fbo' ∧
    fbo'.colorTarget0 = some (color.setGlobalState s.1) ∧
    ((fbo.depthStencil = none ∧ fbo'.depthStencil = none) ∨
      ∃ t st, fbo.depthStencil = some t ∧ s.2 = some st ∧
        fbo'.depthStencil = some (t.setGlobalState st))

/-- The depth format `resizeSwapChain` reads off a framebuffer: the format of its depth
texture, `Unknown` when it has none. -/
def Fbo.depthFormat (fbo : Fbo) : ResourceFormat :=
  match fbo.depthStencil with
  | some pDepth => pDepth.format
  | none => .Unknown

/-- The framebuffer `updateDefaultFBO` leaves in slot `i` when the slot held a framebuffer
with nothing attached: a new colour texture, and a new depth texture unless the depth
format is `Unknown`. -/
def freshFbo (env : SwapChainEnv) (width height : Nat) (colorFormat depthFormat : ResourceFormat)
    (i : Nat) : Fbo :=
  { colorTarget0 := some
      { Texture.new width height colorFormat .RenderTarget with
        mApiHandle := env.apiHandles.getD i 0 }
    depthStencil :=
      if depthFormat ≠ .Unknown then
        some { Texture.new width height depthFormat .DepthStencil with
               mApiHandle := env.depthHandles.getD i 0 }
      else none }

/-- The global state of the colour texture of framebuffer `i`, if there is one. -/
def colorStateAt (fbos : List (Option Fbo)) (i : Nat) : Option ResourceState :=
  match fbos.get? i with
  | some (some fbo) => fbo.colorTarget0.map (fun t => t.mGlobalState)
  | _ => none

/-- The global state of the depth-stencil texture of framebuffer `i`, if there is one. -/
def depthStateAt (fbos : List (Option Fbo)) (i : Nat) : Option ResourceState :=
  match fbos.get? i with
  | some (some fbo) => fbo.depthStencil.map (fun t => t.mGlobalState)
  | _ => none

/-- The swap chain of `d` currently has size `width` x `height`. -/
def CurrentSize (d : Device) (width height : Nat) : Prop :=
  ∃ fbo color, d.mpSwapChainFbos.get? 0 = some (some fbo) ∧ fbo.colorTarget0 = some color ∧
    color.width = width ∧ color.height = height

/-- The claim "`resizeSwapChain` called with the current width and height preserves
per-resource logical state exactly", for a build and a platform: whenever such a call
returns, every framebuffer's colour texture has the state it had, and so has its depth
texture when it has one. -/
def PreservesStates (cfg : Build) (K : Nat) (env : SwapChainEnv) : Prop :=
  ∀ (d : Device) (r : Option Fbo × Device) (width height : Nat),
    d.mpSwapChainFbos.length = K → CurrentSize d width height →
    d.resizeSwapChain cfg K env width height = .ok r →
    ∀ i, i < K →
      colorStateAt r.2.mpSwapChainFbos i = colorStateAt d.mpSwapChainFbos i ∧
      (depthStateAt r.2.mpSwapChainFbos i ≠ none →
        depthStateAt r.2.mpSwapChainFbos i = depthStateAt d.mpSwapChainFbos i)

/-- The device `Device::create` returns on the sample inputs in the build for the other
backend (a device with null members if it returns none). -/
def sampleVulkanDevice : Device :=
  match Device.create sampleVulkanBuild 2 sampleEnv none (some sampleWindow) sampleDesc with
  | .ok r => r.result.getD (Device.new 2 none sampleDesc)
  | .error _ => Device.new 2 none sampleDesc

/-- That device after one `present`. -/
def sampleVulkanPresented : Device :=
  match sampleVulkanDevice.present 2 0 1 with
  | .ok d => d
  | .error _ => sampleVulkanDevice

/-- That device after a resize to its current size, 1920 x 1080. -/
def sampleVulkanResized : Option Fbo × Device :=
  match sampleVulkanPresented.resizeSwapChain sampleVulkanBuild 2 sampleEnv.swapChain 1920 1080
  with
  | .ok r => r
  | .error _ => (none, sampleVulkanPresented)

/-- The sample device (D3D12 build) after the sample release, one `present` and a resize
to its current size, 1920 x 1080. -/
def sampleD3dResized : Option Fbo × Device :=
  match samplePresentedSlow.resizeSwapChain sampleBuild 2 sampleEnv.swapChain 1920 1080 with
  | .ok r => r
  | .error _ => (none, samplePresentedSlow)

/-- The value of the `size_t` expression `a + b`. -/
def wrapAdd64 (a b : Nat) : Nat := (a + b) % 2 ^ 64

/-- The call `memcpy(dst + offset, src, size)`, where `dst` is the start of a block whose
bytes are `dst` and `src` points at the readable bytes `src`: it replaces bytes
`[offset, offset + size)` of the block.  A copy that leaves the block, or that reads past
the end of the source, has no defined result. -/
def memcpyInto (dst : List Nat) (offset : Nat) (src : List Nat) (size : Nat) :
    Except Fault (List Nat) :=
  if offset + size ≤ dst.length ∧ size ≤ src.length then
    .ok (dst.take offset ++ src.take size ++ dst.drop (offset + size))
  else .error .outOfRange

/-- One call `Buffer::setBlob(pSrc, offset, size)` of the base class, which copies to the
GPU resource: the bytes behind `pSrc` and the two numbers. -/
structure Upload where
  data : List Nat
  offset : Nat
  size : Nat
  deriving DecidableEq, Repr

/-- The members of `TypedBufferBase` the file reads or writes: `mSize` and `mName` of the
base class, the CPU copy `mData` and the two dirty flags, and the trace of the calls made to
`Buffer::setBlob` and `logError`. -/
structure TypedBufferBase where
  mName : String
  mSize : Nat
  mData : List Nat
  mElementCount : Nat
  mFormat : ResourceFormat
  mCpuDirty : Bool
  mGpuDirty : Bool
  uploads : List Upload
  errors : List String
  deriving DecidableEq, Repr

/-- The constructor `TypedBufferBase::TypedBufferBase`: `mSize` is the `uint32_t` product
`elementCount * getFormatBytesPerBlock(format)` and `mData` is `mSize` zero bytes.
`bytesPerBlock` stands for the format table; the name and the initial values of the two
flags are set in headers that are not among the sources and are parameters. -/
def TypedBufferBase.new (bytesPerBlock : ResourceFormat → Nat) (elementCount : Nat)
    (format : ResourceFormat) (name : String) (cpuDirty gpuDirty : Bool) : TypedBufferBase :=
  let size := (elementCount * bytesPerBlock format) % 2 ^ 32
  { mName := name, mSize := size, mData := List.replicate size 0,
    mElementCount := elementCount, mFormat := format, mCpuDirty := cpuDirty,
    mGpuDirty := gpuDirty, uploads := [], errors := [] }

/-- The function `TypedBufferBase::uploadToGPU`. -/
def TypedBufferBase.uploadToGPU (b : TypedBufferBase) : Bool × TypedBufferBase :=
  if b.mCpuDirty = false then (false, b)
  else
    (true, { b with uploads := b.uploads ++ [⟨b.mData, 0, b.mSize⟩], mCpuDirty := false })

/-- The function `TypedBufferBase::readFromGpu`; `gpu` is the mapped content of the GPU
resource. -/
def TypedBufferBase.readFromGpu (gpu : List Nat) (b : TypedBufferBase) :
    Except Fault TypedBufferBase :=
  if b.mGpuDirty then do
    let data ← memcpyInto b.mData 0 gpu b.mData.length
    .ok { b with mData := data, mGpuDirty := false }
  else .ok b

/-- The error message of `TypedBufferBase::setBlob`. -/
def setBlobMessage (name : String) : String :=
  "Error when setting blob to buffer\"" ++ name ++
    "\". Blob to large and will result in overflow. Ignoring call."

/-- The function `TypedBufferBase::setBlob`.  `pSrc` holds the bytes that are readable
behind the source pointer; `offset` and `size` are `size_t` values. -/
def TypedBufferBase.setBlob (logEnabled : Bool) (b : TypedBufferBase) (pSrc : List Nat)
    (offset size : Nat) : Except Fault (Bool × TypedBufferBase) :=
  if logEnabled && decide (wrapAdd64 offset size > b.mSize) then
    .ok (false, { b with errors := b.errors ++ [setBlobMessage b.mName] })
  else do
    let data ← memcpyInto b.mData offset pSrc size
    .ok (true, { b with mData := data, mCpuDirty := true })

/-- The function `TypedBufferBase::getData`. -/
def TypedBufferBase.getData (gpu : List Nat) (b : TypedBufferBase) :
    Except Fault (List Nat × TypedBufferBase) := do
  let b1 ← b.readFromGpu gpu
  .ok (b1.mData, b1)

/-! ## Pixel debugging

The definitions of this section follow `Source/Falcor/Utils/Debug/PixelDebug.cpp`.  The
class declaration and the types shared with the shaders (`PixelLogValue`,
`AssertLogValue`, `PixelLogValueType`) are in headers that are not among the sources: the
sizes of the two structs and the values of the four enumerators are parameters
(`PixelDebugTypes`).  What the GPU wrote (the two counters and the content of the log
buffers, as the staging buffers show it once mapped) is an input of `copyDataToCPU`; what
the buffer factories hand out is an input of `begin`.  Calls into the render context, the
program, the GUI and the logger are appended to the `log` of the object, in program
order. -/

/-- A structured buffer as the file looks at it: element count, element size and byte size
are what `getElementCount()`, `getElementSize()` and `getSize()` answer. -/
structure StructuredBuffer where
  id : Nat
  elementCount : Nat
  elementSize : Nat
  size : Nat
  deriving DecidableEq, Repr

/-- A staging buffer made by `Buffer::create(size, ...)`. -/
structure StagingBuffer where
  id : Nat
  size : Nat
  deriving DecidableEq, Repr

/-- One `print()` record: value type, number of components, and the four data words. -/
structure PixelLogValue where
  type : Nat
  count : Nat
  data : List Nat
  deriving DecidableEq, Repr

/-- One `assert()` record. -/
structure AssertLogValue where
  launchIndex : Nat × Nat × Nat
  deriving DecidableEq, Repr

/-- What the missing headers fix: `sizeof(PixelLogValue)`, `sizeof(AssertLogValue)` and the
values of the enumerators of `PixelLogValueType`. -/
structure PixelDebugTypes where
  sizeofPixelLogValue : Nat
  sizeofAssertLogValue : Nat
  typeBool : Nat
  typeInt : Nat
  typeUint : Nat
  typeFloat : Nat
  deriving DecidableEq, Repr

/-- The source or destination of a buffer copy: a buffer, or the UAV counter of a
structured buffer. -/
inductive BufferRef where
  | buffer (id : Nat)
  | uavCounter (id : Nat)
  deriving DecidableEq, Repr

/-- The calls `PixelDebug` makes on other objects. -/
inductive PixelEvent where
  | logError (msg : String)
  | logWarning (msg : String)
  | addDefine (name value : String)
  | createStructuredBuffer (name : String) (elementCount : Nat)
  | createBuffer (size : Nat)
  | clearUAVCounter (buffer : Nat) (value : Nat)
  | bindBuffer (name : String) (buffer : Nat)
  | setSelectedPixel (pixel : Nat × Nat)
  | setLogSize (name : String) (size : Nat)
  | copyBufferRegion (dst : BufferRef) (dstOffset : Nat) (src : BufferRef) (srcOffset : Nat)
      (size : Nat)
  | createFence (id : Nat)
  | flush (wait : Bool)
  | gpuSignal (fence : Nat)
  | syncCpu (fence : Nat)
  | checkbox (label : String)
  | tooltip (text : String)
  | var (label : String)
  | text (s : String)
  deriving DecidableEq, Repr

/-- The members of `PixelDebug`, and the trace of its calls. -/
structure PixelDebug where
  mLogSize : Nat
  mEnabled : Bool
  mRunning : Bool
  mFrameDim : Nat × Nat
  mSelectedPixel : Nat × Nat
  mPixelLogData : List PixelLogValue
  mAssertLogData : List AssertLogValue
  mDataValid : Bool
  mWaitingForData : Bool
  mpPixelLog : Option StructuredBuffer
  mpAssertLog : Option StructuredBuffer
  mpCounterBuffer : Option StagingBuffer
  mpDataBuffer : Option StagingBuffer
  mpFence : Option Nat
  log : List PixelEvent
  deriving DecidableEq, Repr

def PixelDebug.emit (d : PixelDebug) (es : List PixelEvent) : PixelDebug :=
  { d with log := d.log ++ es }

/-- What the factories called by `begin` and `end` hand out: the two structured buffers
(`none` for a null pointer) and the identities of the staging buffers and of the fence. -/
structure PixelEnv where
  pixelLog : Option StructuredBuffer
  assertLog : Option StructuredBuffer
  counterBufferId : Nat
  dataBufferId : Nat
  fenceId : Nat
  deriving DecidableEq, Repr

/-- The block "Prepare log buffers" of `begin`: when there is no pixel log yet, or its
element count is not `mLogSize`, the two structured buffers and the two staging buffers are
made; a null buffer or an element size that differs from the size of the CPU struct throws. -/
def PixelDebug.prepareLogBuffers (t : PixelDebugTypes) (env : PixelEnv) (d : PixelDebug) :
    Except Fault PixelDebug :=
  if d.mpPixelLog.all (fun p => decide (p.elementCount ≠ d.mLogSize)) then
    match env.pixelLog, env.assertLog with
    | none, _ => .error .exception
    | some _, none => .error .exception
    | some p, some a =>
      if p.elementSize ≠ t.sizeofPixelLogValue then .error .exception
      else if a.elementSize ≠ t.sizeofAssertLogValue then .error .exception
      else
        .ok ({ d with
            mpPixelLog := some p, mpAssertLog := some a,
            mpCounterBuffer := some ⟨env.counterBufferId, 2 * 4⟩,
            mpDataBuffer := some ⟨env.dataBufferId, p.size + a.size⟩ }.emit
          [.createStructuredBuffer "gPixelLog" d.mLogSize,
            .createStructuredBuffer "gAssertLog" d.mLogSize,
            .createBuffer (2 * 4), .createBuffer (p.size + a.size)])
  else .ok d

/-- The error message of `begin` (it names `end()`, as in the source). -/
def beginMessage : String :=
  "PixelDebug::end() - Logging is already running, did you forget to call end()? Ignoring call."

/-- The function `PixelDebug::begin`. -/
def PixelDebug.begin (t : PixelDebugTypes) (env : PixelEnv) (frameDim : Nat × Nat)
    (d : PixelDebug) : Except Fault PixelDebug :=
  let d0 := { d with mFrameDim := frameDim }
  if d0.mRunning then .ok (d0.emit [.logError beginMessage])
  else
    let d1 := { d0 with mRunning := true, mPixelLogData := [], mAssertLogData := [],
                        mDataValid := false, mWaitingForData := false }.emit
      [.addDefine "_ENABLE_PIXEL_DEBUG" (if d0.mEnabled then "1" else "0")]
    if d1.mEnabled then do
      let d2 ← d1.prepareLogBuffers t env
      let p ← deref d2.mpPixelLog
      let a ← deref d2.mpAssertLog
      .ok (d2.emit
        [.clearUAVCounter p.id 0, .clearUAVCounter a.id 0,
          .bindBuffer "gPixelLog" p.id, .bindBuffer "gAssertLog" a.id,
          .setSelectedPixel d2.mSelectedPixel,
          .setLogSize "gPixelLogSize" d2.mLogSize, .setLogSize "gAssertLogSize" d2.mLogSize])
    else .ok d1

/-- The error message of `end`. -/
def endMessage : String :=
  "PixelDebug::end() - Logging is not running, did you forget to call begin()? Ignoring call."

/-- The fence `end` signals: the one there is, or a new one the first time. -/
def PixelDebug.fenceForEnd (env : PixelEnv) (d : PixelDebug) : Nat × List PixelEvent :=
  match d.mpFence with
  | some f => (f, [])
  | none => (env.fenceId, [.createFence env.fenceId])

/-- The function `PixelDebug::end`. -/
def PixelDebug.end' (env : PixelEnv) (d : PixelDebug) : Except Fault PixelDebug :=
  if !d.mRunning then .ok (d.emit [.logError endMessage])
  else
    let d1 := { d with mRunning := false }
    if d1.mEnabled then do
      let p ← deref d1.mpPixelLog
      let a ← deref d1.mpAssertLog
      let c ← deref d1.mpCounterBuffer
      let db ← deref d1.mpDataBuffer
      let fence := d1.fenceForEnd env
      .ok ({ d1 with mpFence := some fence.1, mWaitingForData := true }.emit
        ([PixelEvent.copyBufferRegion (.buffer c.id) 0 (.uavCounter p.id) 0 4,
          PixelEvent.copyBufferRegion (.buffer c.id) 4 (.uavCounter a.id) 0 4,
          PixelEvent.copyBufferRegion (.buffer db.id) 0 (.buffer p.id) 0 p.size,
          PixelEvent.copyBufferRegion (.buffer db.id) p.size (.buffer a.id) 0 a.size]
          ++ fence.2 ++ [PixelEvent.flush false, PixelEvent.gpuSignal fence.1]))
    else .ok d1

/-- The function `PixelDebug::onMouseEvent`; `scaled` is the value of the expression
`glm::uvec2(mouseEvent.pos * glm::vec2(mFrameDim))`. -/
def PixelDebug.onMouseEvent (leftButtonDown : Bool) (scaled : Nat × Nat) (d : PixelDebug) :
    Bool × PixelDebug :=
  if d.mEnabled then
    if leftButtonDown then (true, { d with mSelectedPixel := scaled }) else (false, d)
  else (false, d)

/-- What the mapped staging buffers show: the two counters, and the record found at each
byte offset of the data buffer when it is read as a `PixelLogValue` or as an
`AssertLogValue`. -/
structure Readback where
  counter0 : Nat
  counter1 : Nat
  pixelAt : Nat → PixelLogValue
  assertAt : Nat → AssertLogValue

/-- The loop `for (i = 0; i < n; i++) out[i] = ((T*)pLog)[i]` on a mapped buffer of
`bufSize` bytes, where `pLog` is `base` bytes into the buffer and `sizeof(T)` is `elemSize`:
element `i` is read at byte offset `base + i * elemSize`, and a read that leaves the buffer
has no defined result. -/
def readArray {α : Type} (bufSize : Nat) (fetch : Nat → α) (elemSize base : Nat) :
    Nat → Except Fault (List α)
  | 0 => .ok []
  | i + 1 => do
    let xs ← readArray bufSize fetch elemSize base i
    if base + i * elemSize + elemSize ≤ bufSize then .ok (xs ++ [fetch (base + i * elemSize)])
    else .error .outOfRange

/-- The function `PixelDebug::copyDataToCPU`. -/
def PixelDebug.copyDataToCPU (cfg : Build) (t : PixelDebugTypes) (gpu : Readback)
    (d : PixelDebug) : Except Fault PixelDebug := do
  assertThat cfg (!d.mRunning)
  if d.mWaitingForData then do
    let fence ← deref d.mpFence
    let d1 := { d with mWaitingForData := false }.emit [.syncCpu fence]
    if d1.mEnabled then do
      let c ← deref d1.mpCounterBuffer
      if c.size < 2 * 4 then .error .outOfRange
      else do
        let p ← deref d1.mpPixelLog
        let a ← deref d1.mpAssertLog
        let printCount := min p.elementCount gpu.counter0
        let assertCount := min a.elementCount gpu.counter1
        let db ← deref d1.mpDataBuffer
        let pixels ← readArray db.size gpu.pixelAt t.sizeofPixelLogValue 0 printCount
        let asserts ← readArray db.size gpu.assertAt t.sizeofAssertLogValue p.size assertCount
        .ok { d1 with mPixelLogData := pixels, mAssertLogData := asserts, mDataValid := true }
    else .ok d1
  else .ok d

/-- The value of `(int32_t)bits` for a 32-bit word. -/
def asInt32 (bits : Nat) : Int :=
  if bits % 2 ^ 32 < 2 ^ 31 then (bits % 2 ^ 32 : Nat) else ((bits % 2 ^ 32 : Nat) : Int) - 2 ^ 32

/-- What one pass through the `switch` of `renderUI` inserts into the stream for the data
word `bits` of a value of type `type`.  In the `Bool` case the statement is
`oss << (bits != 0) ? "true" : "false";`, which C++ reads as
`(oss << (bits != 0)) ? "true" : "false";`: the `bool` is inserted, as `1` or `0` since the
stream is a fresh one without `boolalpha`, and the value of the conditional is dropped.
`showFloat` is the text the stream produces for the `float` with these bits. -/
def showComponent (t : PixelDebugTypes) (showFloat : Nat → String) (type bits : Nat) :
    String :=
  if type = t.typeBool then toString (if bits ≠ 0 then 1 else 0 : Nat)
  else if type = t.typeInt then toString (asInt32 bits)
  else if type = t.typeUint then toString bits
  else if type = t.typeFloat then showFloat bits
  else "INVALID VALUE"

/-- The inner loop of `renderUI` over the first `n` components of `v`: each component and,
when it is not the last one, a separator.  `v.data[i]` is a component of a four-vector. -/
def componentsText (t : PixelDebugTypes) (showFloat : Nat → String) (v : PixelLogValue) :
    Nat → Except Fault String
  | 0 => .ok ""
  | i + 1 => do
    let s ← componentsText t showFloat v i
    let bits ← index v.data i
    .ok (s ++ showComponent t showFloat v.type bits ++ (if i + 1 < v.count then ", " else ""))

/-- The text `renderUI` builds for one entry of the pixel log. -/
def valueText (t : PixelDebugTypes) (showFloat : Nat → String) (v : PixelLogValue) :
    Except Fault String := do
  let s ← componentsText t showFloat v v.count
  .ok ((if v.count > 1 then "(" else "") ++ s ++ (if v.count > 1 then ")" else "") ++ "\n")

/-- The text `renderUI` builds for the pixel log. -/
def pixelLogText (t : PixelDebugTypes) (showFloat : Nat → String) :
    List PixelLogValue → Except Fault String
  | [] => .ok ""
  | v :: vs => do
    let s ← valueText t showFloat v
    let rest ← pixelLogText t showFloat vs
    .ok (s ++ rest)

/-- The line `renderUI` prints for one assert. -/
def assertLine (v : AssertLogValue) : String :=
  "assert at (" ++ toString v.launchIndex.1 ++ ", " ++ toString v.launchIndex.2.1 ++ ", " ++
    toString v.launchIndex.2.2 ++ ")\n"

/-- The warning `renderUI` logs for one assert. -/
def assertWarning (v : AssertLogValue) : String :=
  "Shader assert at launch index (" ++ toString v.launchIndex.1 ++ ", " ++
    toString v.launchIndex.2.1 ++ ", " ++ toString v.launchIndex.2.2 ++ ")"

/-- The text `renderUI` shows: the pixel log, then the asserts if there are any. -/
def logText (t : PixelDebugTypes) (showFloat : Nat → String) (d : PixelDebug) :
    Except Fault String := do
  let values ← pixelLogText t showFloat d.mPixelLogData
  .ok ("Pixel log:" ++ (if d.mPixelLogData.isEmpty then " <empty>\n" else "\n") ++ values ++
    (if d.mAssertLogData.isEmpty then ""
     else "\n" ++ String.join (d.mAssertLogData.map assertLine)))

/-- The error message of `renderUI`. -/
def renderUIMessage : String :=
  "PixelDebug::renderUI() - Logging is running, call end() before renderUI(). Ignoring call."

/-- The tooltip of the check box. -/
def renderUITooltip : String :=
  "Enables shader debugging.\n\n" ++
  "Left-mouse click on a pixel to select it.\n" ++
  "Use print() in the shader to print values of basic types (int, float2, etc.) for the selected pixel.\n" ++
  "Use assert() in the shader to test a condition."

/-- What the user does to the two widgets of `renderUI`: the values they leave in
`mEnabled` and `mSelectedPixel`. -/
structure GuiInput where
  enabled : Bool
  selectedPixel : Nat × Nat
  deriving DecidableEq, Repr

/-- The part "Configure logging" of `renderUI`. -/
def PixelDebug.configure (ui : GuiInput) (d : PixelDebug) : PixelDebug :=
  let d1 := { d with mEnabled := ui.enabled }.emit
    [.checkbox "Pixel debug", .tooltip renderUITooltip]
  if d1.mEnabled then { d1 with mSelectedPixel := ui.selectedPixel }.emit [.var "Selected pixel"]
  else d1

/-- The function `PixelDebug::renderUI`. -/
def PixelDebug.renderUI (cfg : Build) (t : PixelDebugTypes) (showFloat : Nat → String)
    (ui : GuiInput) (gpu : Readback) (d : PixelDebug) : Except Fault PixelDebug :=
  if d.mRunning then .ok (d.emit [.logError renderUIMessage])
  else do
    let d1 ← (d.configure ui).copyDataToCPU cfg t gpu
    if d1.mDataValid then do
      let s ← logText t showFloat d1
      .ok (d1.emit
        (d1.mAssertLogData.map (fun v => PixelEvent.logWarning (assertWarning v)) ++
          [PixelEvent.text s]))
    else .ok d1

/-! ## Render graph editor

The definitions of this section follow
`Source/Tools/RenderGraphEditor/RenderGraphEditor.cpp`: the constructor, `onLoad`,
`loadGraphsFromFile`, `createNewGraph` and `onFrameRender`.  The class declaration is in a
header that is not among the sources; the name-to-index map stores `uint32_t` values and
the drop-down stores `int32_t` values, as the casts in the code say, and the current graph
index is a `size_t`.  What the importer finds in a file, what the user answers to a
message box and the command line are inputs.  The `while` loop of `createNewGraph` has no
bound in the source: the model gives it a number of loop tests it may make (`fuel`) and
reports a loop that needs more as `Fault.hang`. -/

/-- A render graph: the identity of the object and its name. -/
structure RenderGraph where
  id : Nat
  name : String
  deriving DecidableEq, Repr

/-- The editor UI of a graph: `RenderGraphUI(pGraph, name)`. -/
structure RenderGraphUI where
  graph : Nat
  name : String
  deriving DecidableEq, Repr

/-- The struct `Gui::DropdownValue`. -/
structure DropdownValue where
  value : Int
  label : String
  deriving DecidableEq, Repr

/-- The calls the modelled functions make on other objects. -/
inductive EditorEvent where
  | createTextureFromFile (name : String)
  | loadAllPassLibraries
  | msgBox (text : String)
  | updateGraph (index : Nat) (source : Nat)
  | resetUI (index : Nat)
  | clearFbo
  | updateGraphUI (index : Nat)
  deriving DecidableEq, Repr

/-- The members of `RenderGraphEditor` the modelled functions read or write, and the trace
of their calls.  The map `mGraphNamesToIndex` is a list of key-value pairs with distinct
keys. -/
structure RenderGraphEditor where
  mpGraphs : List RenderGraph
  mRenderGraphUIs : List RenderGraphUI
  mOpenGraphNames : List DropdownValue
  mGraphNamesToIndex : List (String × Nat)
  mCurrentGraphIndex : Nat
  mViewerRunning : Bool
  mUpdateFilePath : String
  log : List EditorEvent
  deriving DecidableEq, Repr

def RenderGraphEditor.emit (e : RenderGraphEditor) (es : List EditorEvent) :
    RenderGraphEditor :=
  { e with log := e.log ++ es }

/-- The constructor `RenderGraphEditor::RenderGraphEditor`: the current graph index is 0,
the containers are empty (the members that hold the text of the GUI edit boxes are left
out). -/
def RenderGraphEditor.new : RenderGraphEditor :=
  { mpGraphs := [], mRenderGraphUIs := [], mOpenGraphNames := [], mGraphNamesToIndex := [],
    mCurrentGraphIndex := 0, mViewerRunning := false, mUpdateFilePath := "", log := [] }

/-- The call `mGraphNamesToIndex.find(name)`: the value stored under `name`, if any. -/
def findName (name : String) : List (String × Nat) → Option Nat
  | [] => none
  | (k, v) :: rest => if k = name then some v else findName name rest

/-- The call `mGraphNamesToIndex.insert(std::make_pair(name, value))`: it adds the pair
unless the key is there already. -/
def insertName (name : String) (value : Nat) (m : List (String × Nat)) : List (String × Nat) :=
  if (findName name m).isSome then m else m ++ [(name, value)]

/-- The `while` loop of `createNewGraph`: as long as `tempGraphName` is a key of the map, an
underscore is appended.  `fuel` bounds the number of loop tests. -/
def uniqueGraphName (m : List (String × Nat)) : Nat → String → Except Fault String
  | 0, _ => .error .hang
  | fuel + 1, tempGraphName =>
    if (findName tempGraphName m).isSome then uniqueGraphName m fuel (tempGraphName ++ "_")
    else .ok tempGraphName

/-- The part that `createNewGraph` and the `else` branch of `loadGraphsFromFile` share: the
graph goes to the back of `mpGraphs`, its UI to the back of `mRenderGraphUIs`, the current
index becomes its position, the map gets the position as a `uint32_t` and the drop-down a
new entry whose value is the previous drop-down size as an `int32_t`. -/
def RenderGraphEditor.pushGraph (pGraph : RenderGraph) (name : String)
    (e : RenderGraphEditor) : RenderGraphEditor :=
  { e with
    mCurrentGraphIndex := e.mpGraphs.length,
    mpGraphs := e.mpGraphs ++ [pGraph],
    mRenderGraphUIs := e.mRenderGraphUIs ++ [⟨pGraph.id, name⟩],
    mGraphNamesToIndex := insertName name (e.mpGraphs.length % 2 ^ 32) e.mGraphNamesToIndex,
    mOpenGraphNames := e.mOpenGraphNames ++ [⟨asInt32 e.mOpenGraphNames.length, name⟩] }

/-- The function `RenderGraphEditor::createNewGraph`; `newId` is the identity of the graph
that `RenderGraph::create()` returns. -/
def RenderGraphEditor.createNewGraph (fuel : Nat) (newId : Nat) (renderGraphName : String)
    (e : RenderGraphEditor) : Except Fault RenderGraphEditor := do
  let graphName ← uniqueGraphName e.mGraphNamesToIndex fuel renderGraphName
  .ok (e.pushGraph ⟨newId, graphName⟩ graphName)

/-- The text of the message box of `loadGraphsFromFile`. -/
def alreadyOpenMessage : String := "Warning! Graph is already open. Update graph from file?"

/-- One pass through the loop of `loadGraphsFromFile` for the graph `pGraph`; `yes` is the
answer the user gives if the message box is shown. -/
def RenderGraphEditor.loadGraph (yes : Bool) (pGraph : RenderGraph) (e : RenderGraphEditor) :
    Except Fault RenderGraphEditor :=
  match findName pGraph.name e.mGraphNamesToIndex with
  | some second =>
    if yes then do
      let _ ← index e.mpGraphs second
      let _ ← index e.mRenderGraphUIs second
      .ok ({ e with mCurrentGraphIndex := second }.emit
        [.msgBox alreadyOpenMessage, .updateGraph second pGraph.id, .resetUI second])
    else .ok (e.emit [.msgBox alreadyOpenMessage])
  | none => .ok (e.pushGraph pGraph pGraph.name)

/-- The loop of `loadGraphsFromFile` over `newGraphs`, from position `j` on. -/
def RenderGraphEditor.loadGraphs (answers : Nat → Bool) :
    Nat → List RenderGraph → RenderGraphEditor → Except Fault RenderGraphEditor
  | _, [], e => .ok e
  | j, pGraph :: rest, e => do
    let e1 ← e.loadGraph (answers j) pGraph
    e1.loadGraphs answers (j + 1) rest

/-- What `RenderGraphImporter` finds in the file and what the user answers: the result of
`import(graphName, fileName)` (`none` for a null pointer), the result of
`importAllGraphs(fileName)`, and the answer to the message box shown for the graph at each
position. -/
structure ImportEnv where
  importNamed : Option RenderGraph
  importAll : List RenderGraph
  answers : Nat → Bool

/-- The function `RenderGraphEditor::loadGraphsFromFile`. -/
def RenderGraphEditor.loadGraphsFromFile (cfg : Build) (env : ImportEnv)
    (fileName graphName : String) (e : RenderGraphEditor) : Except Fault RenderGraphEditor := do
  assertThat cfg (decide (fileName ≠ ""))
  e.loadGraphs env.answers 0 (if graphName ≠ "" then env.importNamed.toList else env.importAll)

/-- The command line as `onLoad` reads it: the values of the switches `graphFile` and
`graphName`, if given, and whether the switch `editor` is there. -/
structure ArgList where
  graphFile : Option String
  graphName : Option String
  editor : Bool
  deriving DecidableEq, Repr

/-- The constant `kDefaultPassIcon`. -/
def kDefaultPassIcon : String := "DefaultPassIcon.png"

/-- The function `RenderGraphEditor::onLoad`. -/
def RenderGraphEditor.onLoad (cfg : Build) (fuel newId : Nat) (argList : ArgList)
    (env : ImportEnv) (e : RenderGraphEditor) : Except Fault RenderGraphEditor :=
  let filePath := argList.graphFile.getD ""
  let e1 := e.emit [.createTextureFromFile kDefaultPassIcon, .loadAllPassLibraries]
  if filePath ≠ "" then do
    let e2 ← { e1 with mViewerRunning := true }.loadGraphsFromFile cfg env filePath
      (argList.graphName.getD "")
    .ok (if argList.editor then { e2 with mUpdateFilePath := filePath } else e2)
  else e1.createNewGraph fuel newId "DefaultRenderGraph"

/-- The function `RenderGraphEditor::onFrameRender`. -/
def RenderGraphEditor.onFrameRender (e : RenderGraphEditor) : Except Fault RenderGraphEditor := do
  let _ ← index e.mRenderGraphUIs e.mCurrentGraphIndex
  .ok (e.emit [.clearFbo, .updateGraphUI e.mCurrentGraphIndex])

/-! ## Typed buffers: sample states -/

/-- A typed buffer of four elements of four bytes, named `buf`, as its constructor leaves
it, with both flags clear. -/
def sampleBuffer : TypedBufferBase :=
  TypedBufferBase.new (fun _ => 4) 4 (.format 1) "buf" false false

/-- Sixteen source bytes. -/
def sampleBlob : List Nat := [1, 2, 3, 4, 5, 6, 7, 8, 9, 10, 11, 12, 13, 14, 15, 16]

/-- The sample buffer after `setBlob(src, 4, 8)`. -/
def sampleBufferSet : TypedBufferBase :=
  match sampleBuffer.setBlob true sampleBlob 4 8 with
  | .ok r => r.2
  | .error _ => sampleBuffer

/-! ## Pixel debugging: invariant and sample states -/

/-- The state of the log buffers that `begin` establishes when logging is enabled and that
every later call keeps: both structured buffers and both staging buffers are there, the
element sizes are the sizes of the CPU structs (`begin` throws otherwise), the data buffer
has the size of the pixel log plus the size of the assert log, and the counter buffer has
two words.  The byte size of each structured buffer is its element count times its element
size; this is a property of `StructuredBuffer`, which is not among the sources. -/
def PixelDebug.LogBuffersReady (t : PixelDebugTypes) (d : PixelDebug) : Prop :=
  ∃ p ∈ d.mpPixelLog, ∃ a ∈ d.mpAssertLog, ∃ c ∈ d.mpCounterBuffer, ∃ db ∈ d.mpDataBuffer,
    p.elementSize = t.sizeofPixelLogValue ∧ a.elementSize = t.sizeofAssertLogValue ∧
    p.size = p.elementCount * p.elementSize ∧ a.size = a.elementCount * a.elementSize ∧
    db.size = p.size + a.size ∧ c.size = 2 * 4

instance (t : PixelDebugTypes) (d : PixelDebug) : Decidable (d.LogBuffersReady t) := by
  unfold PixelDebug.LogBuffersReady
  infer_instance

/-- Sample layout: 24-byte print records, 12-byte assert records, enumerators 0 to 3. -/
def sampleTypes : PixelDebugTypes := ⟨24, 12, 0, 1, 2, 3⟩

/-- Sample factories: log buffers of four elements each. -/
def samplePixelEnv : PixelEnv :=
  { pixelLog := some ⟨1, 4, 24, 96⟩, assertLog := some ⟨2, 4, 12, 48⟩,
    counterBufferId := 3, dataBufferId := 4, fenceId := 9 }

/-- A `PixelDebug` object with a log size of four, enabled, before its first `begin`. -/
def samplePixelDebug : PixelDebug :=
  { mLogSize := 4, mEnabled := true, mRunning := false, mFrameDim := (0, 0),
    mSelectedPixel := (0, 0), mPixelLogData := [], mAssertLogData := [], mDataValid := false,
    mWaitingForData := false, mpPixelLog := none, mpAssertLog := none,
    mpCounterBuffer := none, mpDataBuffer := none, mpFence := none, log := [] }

/-- The sample object after `begin` for a 1920 x 1080 frame. -/
def samplePixelRunning : PixelDebug :=
  match samplePixelDebug.begin sampleTypes samplePixelEnv (1920, 1080) with
  | .ok d => d
  | .error _ => samplePixelDebug

/-- The sample object after `begin` and `end`. -/
def samplePixelEnded : PixelDebug :=
  match samplePixelRunning.end' samplePixelEnv with
  | .ok d => d
  | .error _ => samplePixelRunning

/-- A sample read-back: the shader made seven `print()` calls, three more than the log
holds, and one `assert()` call; the record at byte offset `24 * i` of the data buffer is a
`Bool` value with one component, which is set for even `i`. -/
def sampleReadback : Readback :=
  { counter0 := 7, counter1 := 1,
    pixelAt := fun off => ⟨0, 1, [(off / 24 + 1) % 2, 0, 0, 0]⟩,
    assertAt := fun off => ⟨(off, 0, 0)⟩ }

/-- The sample object after `begin`, `end` and `copyDataToCPU`. -/
def samplePixelCopied : PixelDebug :=
  match samplePixelEnded.copyDataToCPU sampleBuild sampleTypes sampleReadback with
  | .ok d => d
  | .error _ => samplePixelEnded

/-- A sample text for `float` values. -/
def sampleShowFloat : Nat → String := fun _ => "0.5"

/-- The sample object after `begin`, `end` and `renderUI` (the user leaves the widgets as
they are). -/
def samplePixelRendered : PixelDebug :=
  match samplePixelEnded.renderUI sampleBuild sampleTypes sampleShowFloat ⟨true, (0, 0)⟩
    sampleReadback with
  | .ok d => d
  | .error _ => samplePixelEnded

/-! ## Render graph editor: specification vocabulary and sample states -/

/-- The string of `k` underscores. -/
def underscores (k : Nat) : String := String.mk (List.replicate k '_')

/-- The three per-graph lists have one length, and every value in the name-to-index map is
a position in them. -/
def RenderGraphEditor.Aligned (e : RenderGraphEditor) : Prop :=
  e.mRenderGraphUIs.length = e.mpGraphs.length ∧
  e.mOpenGraphNames.length = e.mpGraphs.length ∧
  ∀ p ∈ e.mGraphNamesToIndex, p.2 < e.mpGraphs.length

instance (e : RenderGraphEditor) : Decidable e.Aligned := by
  unfold RenderGraphEditor.Aligned
  infer_instance

/-- The current graph index is a position in the graph list and in the UI list. -/
def RenderGraphEditor.IndexValid (e : RenderGraphEditor) : Prop :=
  e.mCurrentGraphIndex < e.mpGraphs.length ∧ e.mCurrentGraphIndex < e.mRenderGraphUIs.length

instance (e : RenderGraphEditor) : Decidable e.IndexValid := by
  unfold RenderGraphEditor.IndexValid
  infer_instance

/-- The keys of the name-to-index map are exactly the labels of the drop-down list: the
names of the open graphs. -/
def RenderGraphEditor.NamesRegistered (e : RenderGraphEditor) : Prop :=
  ∀ name, (findName name e.mGraphNamesToIndex).isSome ↔
    name ∈ e.mOpenGraphNames.map (fun v => v.label)

/-- A command line without switches. -/
def sampleNoArgs : ArgList := ⟨none, none, false⟩

/-- A command line that names the graph file `empty.py`. -/
def sampleFileArgs : ArgList := ⟨some "empty.py", none, false⟩

/-- A graph file that defines no graph. -/
def sampleEmptyFile : ImportEnv := ⟨none, [], fun _ => false⟩

/-- A graph file that defines the graphs `A`, `B` and `A` again; the user answers yes. -/
def sampleFile : ImportEnv := ⟨none, [⟨1, "A"⟩, ⟨2, "B"⟩, ⟨3, "A"⟩], fun _ => true⟩

/-- The editor after `onLoad` without a graph file. -/
def sampleEditor : RenderGraphEditor :=
  match RenderGraphEditor.new.onLoad sampleBuild 8 10 sampleNoArgs sampleEmptyFile with
  | .ok e => e
  | .error _ => RenderGraphEditor.new

/-- The sample editor after a second `createNewGraph("DefaultRenderGraph")`. -/
def sampleEditorTwo : RenderGraphEditor :=
  match sampleEditor.createNewGraph 8 11 "DefaultRenderGraph" with
  | .ok e => e
  | .error _ => sampleEditor

/-- The sample editor after a third `createNewGraph("DefaultRenderGraph")`. -/
def sampleEditorThree : RenderGraphEditor :=
  match sampleEditorTwo.createNewGraph 8 12 "DefaultRenderGraph" with
  | .ok e => e
  | .error _ => sampleEditorTwo

/-- The editor after `onLoad` with a graph file that defines no graph. -/
def sampleEditorEmptyFile : RenderGraphEditor :=
  match RenderGraphEditor.new.onLoad sampleBuild 8 10 sampleFileArgs sampleEmptyFile with
  | .ok e => e
  | .error _ => RenderGraphEditor.new

/-- The editor after `onLoad` with the sample graph file. -/
def sampleEditorFile : RenderGraphEditor :=
  match RenderGraphEditor.new.onLoad sampleBuild 8 10 sampleFileArgs sampleFile with
  | .ok e => e
  | .error _ => RenderGraphEditor.new

/-! ## Lemmas -/

theorem popRetired_append (g : Nat) (q : List ResourceRelease) :
    (popRetired g q).1 ++ (popRetired g q).2 = q := by
  induction q with
  | nil => rfl
  | cons e q ih =>
    unfold popRetired
    split <;> simp [ih]

theorem popRetired_fst_le (g : Nat) (q : List ResourceRelease) :
    ∀ e ∈ (popRetired g q).1, e.frameID ≤ g := by
  induction q with
  | nil => simp [popRetired]
  | cons e q ih =>
    unfold popRetired
    split
    · intro x hx
      simp at hx
      rcases hx with rfl | hx
      · assumption
      · exact ih x hx
    · simp

theorem popRetired_snd_head (g : Nat) (q : List ResourceRelease) :
    ∀ e rest, (popRetired g q).2 = e :: rest → g < e.frameID := by
  induction q with
  | nil => simp [popRetired]
  | cons e q ih =>
    unfold popRetired
    split
    · simpa using ih
    · intro x rest hx
      simp at hx
      obtain ⟨rfl, _⟩ := hx
      omega

theorem popRetired_eq_takeWhile (g : Nat) (q : List ResourceRelease) :
    popRetired g q =
      (q.takeWhile (fun e => decide (e.frameID ≤ g)), q.dropWhile (fun e => decide (e.frameID ≤ g))) := by
  induction q with
  | nil => rfl
  | cons e q ih =>
    unfold popRetired
    by_cases h : e.frameID ≤ g
    · simp [h, ih, List.takeWhile_cons, List.dropWhile_cons]
    · simp [h, List.takeWhile_cons, List.dropWhile_cons]

theorem popRetired_longest (g : Nat) (q : List ResourceRelease) :
    ∀ pre suf, q = pre ++ suf → (∀ e ∈ pre, e.frameID ≤ g) →
      pre.length ≤ (popRetired g q).1.length := by
  induction q with
  | nil =>
    intro pre suf h _
    have : pre = [] := by
      cases pre with
      | nil => rfl
      | cons a l => simp at h
    simp [this]
  | cons e q ih =>
    intro pre suf h hall
    cases pre with
    | nil => simp
    | cons a l =>
      simp at h
      obtain ⟨rfl, rfl⟩ := h
      have ha : e.frameID ≤ g := hall e (by simp)
      unfold popRetired
      simp [ha]
      exact ih l suf rfl (fun x hx => hall x (by simp [hx]))

theorem bind_eq_ok {α β : Type} (x : Except Fault α) (k : α → Except Fault β) (b : β) :
    (x >>= k) = .ok b ↔ ∃ a, x = .ok a ∧ k a = .ok b := by
  cases x <;> simp [bind, Except.bind]

theorem executeDeferredReleases_ok_iff (adv : Nat) (d d' : Device) :
    d.executeDeferredReleases adv = .ok d' ↔
      ∃ f, d.mpFrameFence = some f ∧ d.mpUploadHeap.isSome ∧ d.mpCpuDescPool.isSome ∧
        d.mpGpuDescPool.isSome ∧ d' = d.afterReclaim adv f := by
  unfold Device.executeDeferredReleases Device.afterReclaim
  rcases d with ⟨w, desc, qs, fence, gp, cp, heap, ctx, qh, fbos, idx, q, fid, log⟩
  cases heap <;> cases fence <;> cases cp <;> cases gp <;>
    simp [deref, bind, Except.bind, Device.emit, GpuFence.getGpuValue, eq_comm]

theorem flush_ok_iff (wait : Bool) (d d' : Device) :
    d.flush wait = .ok d' ↔
      d.mpRenderContext.isSome ∧
        d' = { d with
          mpFrameFence := if wait then d.mpFrameFence.map GpuFence.gpuIdle else d.mpFrameFence
          log := d.log ++ [Event.flush wait] } := by
  unfold Device.flush
  rcases d with ⟨w, desc, qs, fence, gp, cp, heap, ctx, qh, fbos, idx, q, fid, log⟩
  cases ctx <;> cases wait <;> simp [deref, bind, Except.bind, Device.emit, eq_comm]

theorem barrierToPresent_ok_iff (d d' : Device) :
    d.barrierToPresent = .ok d' ↔
      ∃ fbo tex, d.mpRenderContext.isSome ∧
        d.mpSwapChainFbos.get? d.mCurrentBackBufferIndex = some (some fbo) ∧
        fbo.colorTarget0 = some tex ∧
        d' = { d with
          mpSwapChainFbos := d.mpSwapChainFbos.set d.mCurrentBackBufferIndex
            (some (fbo.attachColorTarget (some (tex.setGlobalState .Present))))
          log := d.log ++ [Event.resourceBarrier d.mCurrentBackBufferIndex .Present] } := by
  unfold Device.barrierToPresent
  rcases d with ⟨w, desc, qs, fence, gp, cp, heap, ctx, qh, fbos, idx, q, fid, log⟩
  cases ctx with
  | none => simp [deref, bind, Except.bind]
  | some c =>
    simp only [deref, bind, Except.bind, index]
    cases hg : fbos.get? idx with
    | none => simp
    | some slot =>
      cases slot with
      | none => simp
      | some fbo =>
        cases ht : fbo.colorTarget0 with
        | none => simp [ht]
        | some tex => simp [ht, eq_comm]

theorem signalFrameFence_ok_iff (d d' : Device) :
    d.signalFrameFence = .ok d' ↔
      ∃ f, d.mpFrameFence = some f ∧ d.mpRenderContext.isSome ∧
        d' = { d with
          mpFrameFence := some { f with mCpuValue := f.mCpuValue + 1 }
          log := d.log ++ [Event.fenceSignal f.mCpuValue] } := by
  unfold Device.signalFrameFence
  rcases d with ⟨w, desc, qs, fence, gp, cp, heap, ctx, qh, fbos, idx, q, fid, log⟩
  cases ctx <;> cases fence <;>
    simp [deref, bind, Except.bind, GpuFence.gpuSignal, eq_comm]

theorem throttle_ok_iff (K : Nat) (d d' : Device) :
    d.throttle K = .ok d' ↔
      ∃ f, d.mpFrameFence = some f ∧
        ((K ≤ f.mCpuValue ∧ wrapSub64 f.mCpuValue K ≤ f.mCpuValue - 1 ∧
            d' = { d with
              mpFrameFence := some { f with gpuValue := max f.gpuValue (wrapSub64 f.mCpuValue K) }
              log := d.log ++ [Event.fenceWait (wrapSub64 f.mCpuValue K)] }) ∨
          (f.mCpuValue < K ∧ d' = d)) := by
  unfold Device.throttle
  rcases d with ⟨w, desc, qs, fence, gp, cp, heap, ctx, qh, fbos, idx, q, fid, log⟩
  cases fence with
  | none => simp [deref, bind, Except.bind]
  | some f =>
    simp only [deref, bind, Except.bind, GpuFence.getCpuValue, GpuFence.syncCpu,
      GpuFence.lastSignaled]
    by_cases hK : K ≤ f.mCpuValue
    · by_cases hw : wrapSub64 f.mCpuValue K ≤ f.mCpuValue - 1
      · simp [hK, hw, eq_comm]
      · simp [hK, hw]
    · simp [hK, eq_comm]
      omega

theorem present_ok_iff (K adv next : Nat) (d d' : Device) :
    d.present K adv next = .ok d' ↔
      ∃ f fbo tex, d.mpFrameFence = some f ∧ d.mpRenderContext.isSome ∧
        d.mpSwapChainFbos.get? d.mCurrentBackBufferIndex = some (some fbo) ∧
        fbo.colorTarget0 = some tex ∧ d.mpUploadHeap.isSome ∧ d.mpCpuDescPool.isSome ∧
        d.mpGpuDescPool.isSome ∧
        (K ≤ f.mCpuValue + 1 → wrapSub64 (f.mCpuValue + 1) K ≤ f.mCpuValue) ∧
        d' = d.afterPresent K adv next f fbo tex := by
  unfold Device.present
  simp only [bind_eq_ok, barrierToPresent_ok_iff, flush_ok_iff, signalFrameFence_ok_iff,
    throttle_ok_iff, executeDeferredReleases_ok_iff]
  constructor
  · rintro ⟨d1, ⟨fbo, tex, hctx, hslot, htex, rfl⟩, d2, ⟨-, rfl⟩, d4, ⟨f, hf, -, rfl⟩, d5,
      ⟨f1, hf1, hthr⟩, d6, ⟨f2, hf2, hheap, hcp, hgp, rfl⟩, hd'⟩
    simp [Device.apiPresent] at hf hf1
    subst hf1
    refine ⟨f, fbo, tex, hf, hctx, hslot, htex, ?_⟩
    rcases hthr with ⟨hK, hw, rfl⟩ | ⟨hK, rfl⟩
    · simp at hf2 hheap hcp hgp
      subst hf2
      refine ⟨hheap, hcp, hgp, fun _ => by simpa using hw, ?_⟩
      simp only [Except.ok.injEq] at hd'
      rw [← hd']
      simp [Device.afterPresent, Device.afterReclaim, Device.apiPresent, presentFence,
        presentEvents, hK]
    · simp [Device.apiPresent] at hf2 hheap hcp hgp
      subst hf2
      refine ⟨hheap, hcp, hgp, fun h => by simp at hK; omega, ?_⟩
      simp only [Except.ok.injEq] at hd'
      rw [← hd']
      have hK' : ¬ K ≤ f.mCpuValue + 1 := by simp at hK; omega
      simp [Device.afterPresent, Device.afterReclaim, Device.apiPresent, presentFence,
        presentEvents, hK']
  · rintro ⟨f, fbo, tex, hf, hctx, hslot, htex, hheap, hcp, hgp, hw, rfl⟩
    refine ⟨_, ⟨fbo, tex, hctx, hslot, htex, rfl⟩, _, ⟨by simpa using hctx, rfl⟩, _,
      ⟨f, by simpa [Device.apiPresent] using hf, by simpa [Device.apiPresent] using hctx, rfl⟩, ?_⟩
    by_cases hK : K ≤ f.mCpuValue + 1
    · refine ⟨_, ⟨_, rfl, Or.inl ⟨hK, by simpa using hw hK, rfl⟩⟩, _, ⟨_, rfl, ?_, ?_, ?_, rfl⟩, ?_⟩
      · simpa [Device.apiPresent] using hheap
      · simpa [Device.apiPresent] using hcp
      · simpa [Device.apiPresent] using hgp
      · simp [Device.afterPresent, Device.afterReclaim, Device.apiPresent, presentFence,
          presentEvents, hK]
    · refine ⟨_, ⟨_, rfl, Or.inr ⟨by simpa using hK, rfl⟩⟩, _, ⟨_, rfl, ?_, ?_, ?_, rfl⟩, ?_⟩
      · simpa [Device.apiPresent] using hheap
      · simpa [Device.apiPresent] using hcp
      · simpa [Device.apiPresent] using hgp
      · simp [Device.afterPresent, Device.afterReclaim, Device.apiPresent, presentFence,
          presentEvents, hK]

theorem flushAndSync_ok_iff (adv : Nat) (d d' : Device) :
    d.flushAndSync adv = .ok d' ↔
      ∃ f, d.mpFrameFence = some f ∧ d.mpRenderContext.isSome ∧ d.mpUploadHeap.isSome ∧
        d.mpCpuDescPool.isSome ∧ d.mpGpuDescPool.isSome ∧ d' = d.afterFlushAndSync adv f := by
  unfold Device.flushAndSync
  simp only [bind_eq_ok, flush_ok_iff, signalFrameFence_ok_iff, executeDeferredReleases_ok_iff]
  constructor
  · rintro ⟨d1, ⟨hctx, rfl⟩, d2, ⟨f1, hf1, -, rfl⟩, f2, hf2, hheap, hcp, hgp, rfl⟩
    simp at hf1 hf2 hheap hcp hgp
    obtain ⟨f, hf, rfl⟩ := hf1
    subst hf2
    refine ⟨f, hf, hctx, hheap, hcp, hgp, ?_⟩
    simp [Device.afterFlushAndSync, Device.afterReclaim, flushFence, GpuFence.gpuIdle]
  · rintro ⟨f, hf, hctx, hheap, hcp, hgp, rfl⟩
    refine ⟨_, ⟨hctx, rfl⟩, _, ⟨f.gpuIdle, by simp [hf], by simpa using hctx, rfl⟩, _, rfl, ?_⟩
    refine ⟨by simpa using hheap, by simpa using hcp, by simpa using hgp, ?_⟩
    simp [Device.afterFlushAndSync, Device.afterReclaim, flushFence, GpuFence.gpuIdle]

theorem popRetired_snd_suffix (g : Nat) (q : List ResourceRelease) :
    (popRetired g q).2 <:+ q :=
  ⟨(popRetired g q).1, popRetired_append g q⟩

theorem popRetired_snd_gt (g : Nat) (q : List ResourceRelease) (hs : StampsSorted q) :
    ∀ e ∈ (popRetired g q).2, g < e.frameID := by
  induction q with
  | nil => simp [popRetired]
  | cons a q ih =>
    unfold StampsSorted at hs
    rw [List.pairwise_cons] at hs
    unfold popRetired
    split
    · exact ih hs.2
    · intro x hx
      simp at hx
      rcases hx with rfl | hx
      · omega
      · have := hs.1 x hx
        omega

theorem popRetired_snd_sorted (g : Nat) (q : List ResourceRelease) (hs : StampsSorted q) :
    StampsSorted (popRetired g q).2 :=
  List.Pairwise.sublist (popRetired_snd_suffix g q).sublist hs

theorem popRetired_snd_mem (g : Nat) (q : List ResourceRelease) :
    ∀ e ∈ (popRetired g q).2, e ∈ q :=
  fun _ he => (popRetired_snd_suffix g q).subset he

theorem wrapSub64_of_le (a b : Nat) (h : b ≤ a) : wrapSub64 a b = a - b := by
  simp [wrapSub64, h]

theorem wrapSub64_eq_mod (a b : Nat) (ha : a < 2 ^ 64) (hb : b < 2 ^ 64) :
    wrapSub64 a b = (a + 2 ^ 64 - b) % 2 ^ 64 := by
  unfold wrapSub64
  split
  · have : a + 2 ^ 64 - b = (a - b) + 2 ^ 64 := by omega
    rw [this, Nat.add_mod_right, Nat.mod_eq_of_lt (by omega)]
  · rw [Nat.mod_eq_of_lt (by omega)]

theorem presentFence_cpu (K adv : Nat) (f : GpuFence) :
    (presentFence K adv f).mCpuValue = f.mCpuValue + 1 := by
  unfold presentFence
  by_cases h : K ≤ f.mCpuValue + 1 <;> simp [h, GpuFence.gpuAdvance]

theorem presentFence_id (K adv : Nat) (f : GpuFence) : (presentFence K adv f).id = f.id := by
  unfold presentFence
  by_cases h : K ≤ f.mCpuValue + 1 <;> simp [h, GpuFence.gpuAdvance]

theorem presentFence_gpu_mono (K adv : Nat) (f : GpuFence) :
    f.gpuValue ≤ (presentFence K adv f).gpuValue := by
  unfold presentFence
  by_cases h : K ≤ f.mCpuValue + 1 <;> simp [h, GpuFence.gpuAdvance]

theorem presentFence_gpu_lt (K adv : Nat) (f : GpuFence) (hK : 1 ≤ K)
    (hf : f.gpuValue < f.mCpuValue) :
    (presentFence K adv f).gpuValue < (presentFence K adv f).mCpuValue := by
  unfold presentFence
  by_cases h : K ≤ f.mCpuValue + 1
  · simp [h, GpuFence.gpuAdvance, GpuFence.lastSignaled, wrapSub64]
    omega
  · simp [h, GpuFence.gpuAdvance, GpuFence.lastSignaled]
    omega

theorem presentFence_throttled (K adv : Nat) (f : GpuFence) :
    (presentFence K adv f).mCpuValue ≤ (presentFence K adv f).gpuValue + K := by
  unfold presentFence
  by_cases h : K ≤ f.mCpuValue + 1
  · simp [h, GpuFence.gpuAdvance, GpuFence.lastSignaled, wrapSub64]
    omega
  · simp [h, GpuFence.gpuAdvance, GpuFence.lastSignaled]
    omega

theorem releaseResource_eq (d : Device) (f : GpuFence) (h : ApiObjectHandle) (hh : h ≠ 0)
    (hf : d.mpFrameFence = some f) :
    releaseResource (some d) h =
      .ok (some { d with mDeferredReleases := d.mDeferredReleases ++ [⟨f.mCpuValue, h⟩] }) := by
  simp [releaseResource, hh, hf, deref, bind, Except.bind, GpuFence.getCpuValue]

theorem step_release_ok_iff (K : Nat) (d d' : Device) (h : ApiObjectHandle) :
    d.step K (.releaseResource h) = .ok d' ↔
      (h = 0 ∧ d' = d) ∨
      (h ≠ 0 ∧ ∃ f, d.mpFrameFence = some f ∧
        d' = { d with mDeferredReleases := d.mDeferredReleases ++ [⟨f.mCpuValue, h⟩] }) := by
  unfold Device.step
  by_cases hh : h = 0
  · simp [releaseResource, hh, Except.map, eq_comm]
  · cases hf : d.mpFrameFence with
    | none => simp [releaseResource, hh, hf, deref, bind, Except.bind, Except.map]
    | some f =>
      simp [releaseResource, hh, hf, deref, bind, Except.bind, Except.map,
        GpuFence.getCpuValue, eq_comm]

theorem stampsSorted_snoc (q : List ResourceRelease) (e : ResourceRelease)
    (hs : StampsSorted q) (hle : ∀ x ∈ q, x.frameID ≤ e.frameID) : StampsSorted (q ++ [e]) := by
  unfold StampsSorted at *
  rw [List.pairwise_append]
  refine ⟨hs, by simp, ?_⟩
  intro a ha b hb
  simp at hb
  subst hb
  exact hle a ha

theorem step_queueInv (K : Nat) (d d' : Device) (op : DeviceOp)
    (hstep : d.step K op = .ok d') (hinv : QueueInv d) : QueueInv d' := by
  obtain ⟨hs, hle⟩ := hinv
  cases op with
  | releaseResource h =>
    rw [step_release_ok_iff] at hstep
    rcases hstep with ⟨-, rfl⟩ | ⟨-, f, hf, rfl⟩
    · exact ⟨hs, hle⟩
    · have hq := hle f (by simp [hf])
      refine ⟨stampsSorted_snoc _ _ hs hq, ?_⟩
      intro f' hf' e he
      simp [hf] at hf'
      subst hf'
      simp at he
      rcases he with he | rfl
      · exact hq e he
      · exact le_refl _
  | present adv next =>
    simp only [Device.step] at hstep
    rw [present_ok_iff] at hstep
    obtain ⟨f, fbo, tex, hf, -, -, -, -, -, -, -, rfl⟩ := hstep
    have hq := hle f (by simp [hf])
    refine ⟨popRetired_snd_sorted _ _ hs, ?_⟩
    intro f' hf' e he
    simp [Device.afterPresent] at hf' he
    subst hf'
    rw [presentFence_cpu]
    have := hq e (popRetired_snd_mem _ _ e he)
    omega
  | flushAndSync adv =>
    simp only [Device.step] at hstep
    rw [flushAndSync_ok_iff] at hstep
    obtain ⟨f, hf, -, -, -, -, rfl⟩ := hstep
    have hq := hle f (by simp [hf])
    refine ⟨popRetired_snd_sorted _ _ hs, ?_⟩
    intro f' hf' e he
    simp [Device.afterFlushAndSync] at hf' he
    subst hf'
    have := hq e (popRetired_snd_mem _ _ e he)
    simp [flushFence, GpuFence.gpuAdvance]
    omega
  | executeDeferredReleases adv =>
    simp only [Device.step] at hstep
    rw [executeDeferredReleases_ok_iff] at hstep
    obtain ⟨f, hf, -, -, -, rfl⟩ := hstep
    have hq := hle f (by simp [hf])
    refine ⟨popRetired_snd_sorted _ _ hs, ?_⟩
    intro f' hf' e he
    simp [Device.afterReclaim] at hf' he
    subst hf'
    have := hq e (popRetired_snd_mem _ _ e he)
    simpa [GpuFence.gpuAdvance] using this

theorem run_queueInv (K : Nat) (ops : List DeviceOp) :
    ∀ d d' : Device, d.run K ops = .ok d' → QueueInv d → QueueInv d' := by
  induction ops with
  | nil =>
    intro d d' h hinv
    simp [Device.run] at h
    subst h
    exact hinv
  | cons op ops ih =>
    intro d d' h hinv
    simp only [Device.run, bind_eq_ok] at h
    obtain ⟨d1, h1, h2⟩ := h
    exact ih d1 d' h2 (step_queueInv K d d1 op h1 hinv)

theorem destroyed_append (l1 l2 : List Event) :
    destroyed (l1 ++ l2) = destroyed l1 ++ destroyed l2 := by
  induction l1 with
  | nil => rfl
  | cons e l ih => cases e <;> simp [destroyed, ih]

theorem destroyed_map_destroy (q : List ResourceRelease) :
    destroyed (q.map Event.destroy) = q := by
  induction q with
  | nil => rfl
  | cons e l ih => simp [destroyed, ih]

theorem destroyed_presentEvents (K adv : Nat) (f : GpuFence) (d : Device) :
    destroyed (presentEvents K adv f d) =
      (popRetired (presentFence K adv f).gpuValue d.mDeferredReleases).1 := by
  unfold presentEvents
  by_cases h : K ≤ f.mCpuValue + 1 <;>
    simp [h, destroyed_append, destroyed_map_destroy, destroyed]

theorem present_of_ready (K adv next : Nat) (d : Device) (hK : 1 ≤ K) (hd : Ready K d) :
    ∃ f fbo tex, d.mpFrameFence = some f ∧ f.gpuValue < f.mCpuValue ∧
      (∀ e ∈ d.mDeferredReleases, e.frameID ≤ f.mCpuValue) ∧
      d.present K adv next = .ok (d.afterPresent K adv next f fbo tex) ∧
      Ready K (d.afterPresent K adv next f fbo tex) := by
  obtain ⟨hctx, hheap, hcp, hgp, ⟨f, hf, hfv, hq⟩, hs, hlen, hslots, hidx⟩ := hd
  have hf' : d.mpFrameFence = some f := hf
  have hget : ∃ p, d.mpSwapChainFbos.get? d.mCurrentBackBufferIndex = some p := by
    have : d.mCurrentBackBufferIndex < d.mpSwapChainFbos.length := by omega
    exact ⟨_, List.get?_eq_get this⟩
  obtain ⟨p, hp⟩ := hget
  obtain ⟨fbo, hfbo, hcol⟩ := hslots p (List.get?_mem hp)
  have hfbo' : p = some fbo := hfbo
  subst hfbo'
  obtain ⟨tex, htex⟩ := Option.isSome_iff_exists.mp hcol
  refine ⟨f, fbo, tex, hf', hfv, hq, ?_, ?_⟩
  · rw [present_ok_iff]
    refine ⟨f, fbo, tex, hf', hctx, hp, htex, hheap, hcp, hgp, ?_, rfl⟩
    intro h
    rw [wrapSub64_of_le _ _ h]
    omega
  · refine ⟨hctx, hheap, hcp, hgp, ⟨presentFence K adv f, rfl, presentFence_gpu_lt K adv f hK hfv, ?_⟩,
      popRetired_snd_sorted _ _ hs, ?_, ?_, ?_⟩
    · intro e he
      have := hq e (popRetired_snd_mem _ _ e he)
      rw [presentFence_cpu]
      omega
    · simpa [Device.afterPresent] using hlen
    · intro p' hp'
      simp only [Device.afterPresent] at hp'
      rcases List.mem_or_eq_of_mem_set hp' with h | h
      · exact hslots p' h
      · subst h
        exact ⟨_, rfl, by simp [Fbo.attachColorTarget]⟩
    · exact Nat.mod_lt _ (by omega)

theorem run_presents (K : Nat) (hK : 1 ≤ K) (envs : List (Nat × Nat)) :
    ∀ d : Device, Ready K d →
      ∃ dN f fN removed, d.mpFrameFence = some f ∧ dN.mpFrameFence = some fN ∧
        d.run K (presents envs) = .ok dN ∧ Ready K dN ∧
        fN.mCpuValue = f.mCpuValue + envs.length ∧
        d.mDeferredReleases = removed ++ dN.mDeferredReleases ∧
        destroyed dN.log = destroyed d.log ++ removed ∧
        (envs ≠ [] → ∀ e ∈ dN.mDeferredReleases, fN.mCpuValue < e.frameID + K) := by
  induction envs with
  | nil =>
    intro d hd
    obtain ⟨f, hf, -⟩ := hd.2.2.2.2.1
    exact ⟨d, f, f, [], hf, hf, rfl, hd, by simp, by simp, by simp, by simp⟩
  | cons env rest ih =>
    intro d hd
    obtain ⟨f, fbo, tex, hf, hfv, hq, hpres, hready⟩ := present_of_ready K env.1 env.2 d hK hd
    obtain ⟨dN, f1, fN, removed, hf1, hfN, hrun, hreadyN, hcpu, hqueue, hlog, hdrained⟩ :=
      ih _ hready
    have hf1' : f1 = presentFence K env.1 f := by
      simp [Device.afterPresent] at hf1
      exact hf1.symm
    subst hf1'
    refine ⟨dN, f, fN,
      (popRetired (presentFence K env.1 f).gpuValue d.mDeferredReleases).1 ++ removed,
      hf, hfN, ?_, hreadyN, ?_, ?_, ?_, ?_⟩
    · simp only [presents, List.map_cons, Device.run, Device.step, bind_eq_ok]
      exact ⟨_, hpres, hrun⟩
    · rw [hcpu, presentFence_cpu]
      simp
      omega
    · rw [List.append_assoc, ← hqueue]
      simp [Device.afterPresent, popRetired_append]
    · rw [hlog]
      simp [Device.afterPresent, destroyed_append, destroyed_presentEvents]
    · intro _
      cases rest with
      | nil =>
        simp [presents, Device.run] at hrun
        subst hrun
        intro e he
        simp [Device.afterPresent] at hfN
        subst hfN
        have h1 := popRetired_snd_gt (presentFence K env.1 f).gpuValue d.mDeferredReleases
          hd.2.2.2.2.2.1 e (by simpa [Device.afterPresent] using he)
        have h2 := presentFence_throttled K env.1 f
        omega
      | cons env2 rest2 => exact hdrained (by simp)

theorem release_ready (K : Nat) (d : Device) (f : GpuFence) (h : ApiObjectHandle)
    (hd : Ready K d) (hf : d.mpFrameFence = some f) :
    Ready K { d with mDeferredReleases := d.mDeferredReleases ++ [⟨f.mCpuValue, h⟩] } := by
  obtain ⟨hctx, hheap, hcp, hgp, ⟨f', hf', hfv, hq⟩, hs, hlen, hslots, hidx⟩ := hd
  have : f' = f := by
    have h1 : d.mpFrameFence = some f' := hf'
    rw [hf] at h1
    exact (Option.some.inj h1).symm
  subst this
  refine ⟨hctx, hheap, hcp, hgp, ⟨f', hf', hfv, ?_⟩, stampsSorted_snoc _ _ hs hq, hlen, hslots, hidx⟩
  intro e he
  simp at he
  rcases he with he | rfl
  · exact hq e he
  · exact le_refl _

theorem releaseFboData_ok_iff (d d' : Device) :
    d.releaseFboData = .ok d' ↔
      ∃ fbos, detachAll d.mpSwapChainFbos = .ok fbos ∧
        d' = { d with
          mpSwapChainFbos := fbos
          mDeferredReleases := []
          log := d.log ++ d.mDeferredReleases.map Event.destroy } := by
  unfold Device.releaseFboData
  simp only [bind_eq_ok, Except.ok.injEq]
  constructor
  · rintro ⟨fbos, h, rfl⟩
    exact ⟨fbos, h, rfl⟩
  · rintro ⟨fbos, h, rfl⟩
    exact ⟨fbos, h, rfl⟩

theorem updateSlot_attached (env : SwapChainEnv) (w h : Nat) (cf df : ResourceFormat) (i : Nat)
    (p : Option Fbo) : SlotAttached (updateSlot env w h cf df i p) := by
  unfold updateSlot SlotAttached
  by_cases hdf : df = .Unknown
  · simp [hdf, Fbo.attachColorTarget]
  · simp [hdf, Fbo.attachColorTarget, Fbo.attachDepthStencilTarget]

theorem foldl_set_length (upd : Nat → Option Fbo → Option Fbo) (is : List Nat) :
    ∀ l : List (Option Fbo),
      (is.foldl (fun fbos i => fbos.set i (upd i (fbos.getD i none))) l).length = l.length := by
  induction is with
  | nil => intro l; rfl
  | cons i rest ih =>
    intro l
    simp only [List.foldl_cons]
    rw [ih]
    simp

theorem foldl_set_attached (upd : Nat → Option Fbo → Option Fbo)
    (hupd : ∀ i p, SlotAttached (upd i p)) (is : List Nat) :
    ∀ (l : List (Option Fbo)) (j : Nat) (p : Option Fbo),
      (is.foldl (fun fbos i => fbos.set i (upd i (fbos.getD i none))) l).get? j = some p →
      (j ∈ is ∨ ∃ q, l.get? j = some q ∧ SlotAttached q) → SlotAttached p := by
  induction is with
  | nil =>
    intro l j p hget hor
    simp only [List.foldl_nil] at hget
    rcases hor with h | ⟨q, hq, hgood⟩
    · simp at h
    · rw [hget] at hq
      cases hq
      exact hgood
  | cons i rest ih =>
    intro l j p hget hor
    simp only [List.foldl_cons] at hget
    apply ih _ j p hget
    have hj : j < l.length := by
      have h1 : j < (rest.foldl (fun fbos i => fbos.set i (upd i (fbos.getD i none)))
          (l.set i (upd i (l.getD i none)))).length := by
        rcases Nat.lt_or_ge j (rest.foldl (fun fbos i => fbos.set i (upd i (fbos.getD i none)))
          (l.set i (upd i (l.getD i none)))).length with h | h
        · exact h
        · rw [List.get?_eq_none.mpr h] at hget
          simp at hget
      rw [foldl_set_length] at h1
      simpa using h1
    by_cases hji : j = i
    · right
      subst hji
      exact ⟨upd j (l.getD j none), by simp [List.get?_eq_getElem?, hj], hupd _ _⟩
    · rcases hor with h | ⟨q, hq, hgood⟩
      · left
        simp at h
        rcases h with h | h
        · exact absurd h hji
        · exact h
      · right
        refine ⟨q, ?_, hgood⟩
        rw [← hq]
        simp [List.get?_eq_getElem?, List.getElem?_set, Ne.symm hji]



theorem assertThat_true (cfg : Build) : assertThat cfg true = .ok () := by
  simp [assertThat]

theorem init_ok (cfg : Build) (K : Nat) (env : InitEnv) (w : Window) (desc : Desc)
    (hapi : env.apiInit = true) (hctx : env.renderContext = true)
    (hq : 0 < desc.cmdQueues.direct) :
    ∃ d, (Device.new K (some w) desc).init cfg K env = .ok (true, d) ∧
      d.mpRenderContext.isSome ∧ d.mpUploadHeap.isSome ∧ d.mpCpuDescPool.isSome ∧
      d.mpGpuDescPool.isSome ∧ d.mpFrameFence = some (GpuFence.create env.fenceId) ∧
      d.mDeferredReleases = [] ∧
      d.mpSwapChainFbos = (List.range K).foldl
        (fun fbos i => fbos.set i (updateSlot env.swapChain w.clientAreaSize.1
          w.clientAreaSize.2 desc.colorFormat desc.depthFormat i (fbos.getD i none)))
        (List.replicate K none) ∧
      d.mCurrentBackBufferIndex = env.swapChain.backBufferIndex % K := by
  obtain ⟨n, hn⟩ : ∃ n, desc.cmdQueues.direct = n + 1 := ⟨desc.cmdQueues.direct - 1, by omega⟩
  cases hres : (Device.new K (some w) desc).init cfg K env with
  | error e =>
    simp [Device.init, assertThat_true, Device.apiInit, hapi, bind, Except.bind, Device.new,
      Device.emit, index, hn, List.replicate_succ, hctx, Device.flushIfContext,
      Device.flush, deref, Device.updateDefaultFBO] at hres
  | ok p =>
    simp [Device.init, assertThat_true, Device.apiInit, hapi, bind, Except.bind, Device.new,
      Device.emit, index, hn, List.replicate_succ, hctx, Device.flushIfContext,
      Device.flush, deref, Device.updateDefaultFBO] at hres
    subst hres
    simp [GpuFence.create]



theorem create_ready (cfg : Build) (K : Nat) (env : InitEnv) (w : Window) (desc : Desc)
    (hK : 1 ≤ K) (hapi : env.apiInit = true) (hctx : env.renderContext = true)
    (hq : 0 < desc.cmdQueues.direct) :
    ∃ d, Device.create cfg K env none (some w) desc = .ok ⟨some d, some d, []⟩ ∧
      Ready K d ∧ d.mDeferredReleases = [] := by
  obtain ⟨d, hinit, h1, h2, h3, h4, hf, hqueue, hfbos, hidx⟩ :=
    init_ok cfg K env w desc hapi hctx hq
  refine ⟨d, by simp [Device.create, hinit, bind, Except.bind], ?_, hqueue⟩
  refine ⟨h1, h2, h3, h4, ⟨_, hf, by simp [GpuFence.create], by simp [hqueue]⟩,
    by simp [hqueue], ?_, ?_, ?_⟩
  · rw [hfbos, foldl_set_length]
    simp
  · intro p hp
    obtain ⟨j, hj⟩ := List.mem_iff_get?.mp hp
    have hlen : j < K := by
      rcases Nat.lt_or_ge j d.mpSwapChainFbos.length with h | h
      · rw [hfbos, foldl_set_length] at h
        simpa using h
      · rw [List.get?_eq_none.mpr h] at hj
        simp at hj
    rw [hfbos] at hj
    exact foldl_set_attached _ (updateSlot_attached _ _ _ _ _) _ _ j p hj
      (Or.inl (List.mem_range.mpr hlen))
  · rw [hidx]
    exact Nat.mod_lt _ (by omega)

theorem step_ready (K : Nat) (hK : 1 ≤ K) (d d' : Device) (op : DeviceOp)
    (hd : Ready K d) (hstep : d.step K op = .ok d') : Ready K d' := by
  cases op with
  | releaseResource h =>
    rw [step_release_ok_iff] at hstep
    rcases hstep with ⟨-, rfl⟩ | ⟨-, f, hf, rfl⟩
    · exact hd
    · exact release_ready K d f h hd hf
  | present adv next =>
    obtain ⟨f, fbo, tex, -, -, -, hpres, hready⟩ := present_of_ready K adv next d hK hd
    simp only [Device.step] at hstep
    rw [hpres] at hstep
    simp only [Except.ok.injEq] at hstep
    rw [← hstep]
    exact hready
  | flushAndSync adv =>
    simp only [Device.step] at hstep
    rw [flushAndSync_ok_iff] at hstep
    obtain ⟨f, hf, -, -, -, -, rfl⟩ := hstep
    obtain ⟨hctx, hheap, hcp, hgp, ⟨f', hf', hfv, hq⟩, hs, hlen, hslots, hidx⟩ := hd
    have : f' = f := by
      have h1 : d.mpFrameFence = some f' := hf'
      rw [hf] at h1
      exact (Option.some.inj h1).symm
    subst this
    refine ⟨hctx, hheap, hcp, hgp, ⟨flushFence adv f', rfl, ?_, ?_⟩,
      popRetired_snd_sorted _ _ hs, hlen, hslots, hidx⟩
    · simp [flushFence, GpuFence.gpuAdvance, GpuFence.gpuIdle, GpuFence.lastSignaled]
      omega
    · intro e he
      have := hq e (popRetired_snd_mem _ _ e he)
      simp [flushFence, GpuFence.gpuAdvance]
      omega
  | executeDeferredReleases adv =>
    simp only [Device.step] at hstep
    rw [executeDeferredReleases_ok_iff] at hstep
    obtain ⟨f, hf, -, -, -, rfl⟩ := hstep
    obtain ⟨hctx, hheap, hcp, hgp, ⟨f', hf', hfv, hq⟩, hs, hlen, hslots, hidx⟩ := hd
    have : f' = f := by
      have h1 : d.mpFrameFence = some f' := hf'
      rw [hf] at h1
      exact (Option.some.inj h1).symm
    subst this
    refine ⟨hctx, hheap, hcp, hgp, ⟨f'.gpuAdvance adv, rfl, ?_, ?_⟩,
      popRetired_snd_sorted _ _ hs, hlen, hslots, hidx⟩
    · simp [GpuFence.gpuAdvance, GpuFence.lastSignaled]
      omega
    · intro e he
      have := hq e (popRetired_snd_mem _ _ e he)
      simpa [GpuFence.gpuAdvance] using this

theorem step_returns (K : Nat) (hK : 1 ≤ K) (d : Device) (op : DeviceOp) (hd : Ready K d) :
    ∃ d', d.step K op = .ok d' := by
  obtain ⟨hctx, hheap, hcp, hgp, ⟨f, hf, hfv, hq⟩, hs, hlen, hslots, hidx⟩ := hd
  have hf' : d.mpFrameFence = some f := hf
  cases op with
  | releaseResource h =>
    by_cases hh : h = 0
    · exact ⟨d, (step_release_ok_iff K d d h).mpr (Or.inl ⟨hh, rfl⟩)⟩
    · exact ⟨_, (step_release_ok_iff K d _ h).mpr (Or.inr ⟨hh, f, hf', rfl⟩)⟩
  | present adv next =>
    obtain ⟨f1, fbo, tex, -, -, -, hpres, -⟩ := present_of_ready K adv next d hK
      ⟨hctx, hheap, hcp, hgp, ⟨f, hf, hfv, hq⟩, hs, hlen, hslots, hidx⟩
    exact ⟨_, hpres⟩
  | flushAndSync adv =>
    exact ⟨_, (flushAndSync_ok_iff adv d _).mpr ⟨f, hf', hctx, hheap, hcp, hgp, rfl⟩⟩
  | executeDeferredReleases adv =>
    exact ⟨_, (executeDeferredReleases_ok_iff adv d _).mpr ⟨f, hf', hheap, hcp, hgp, rfl⟩⟩

theorem run_ready (K : Nat) (hK : 1 ≤ K) (ops : List DeviceOp) :
    ∀ d d' : Device, Ready K d → d.run K ops = .ok d' → Ready K d' := by
  induction ops with
  | nil =>
    intro d d' hd h
    simp [Device.run] at h
    subst h
    exact hd
  | cons op ops ih =>
    intro d d' hd h
    simp only [Device.run, bind_eq_ok] at h
    obtain ⟨d1, h1, h2⟩ := h
    exact ih d1 d' (step_ready K hK d d1 op hd h1) h2

theorem run_returns (K : Nat) (hK : 1 ≤ K) (ops : List DeviceOp) :
    ∀ d : Device, Ready K d → ∃ d', d.run K ops = .ok d' := by
  induction ops with
  | nil => intro d _; exact ⟨d, rfl⟩
  | cons op ops ih =>
    intro d hd
    obtain ⟨d1, h1⟩ := step_returns K hK d op hd
    obtain ⟨d', h2⟩ := ih d1 (step_ready K hK d d1 op hd h1)
    exact ⟨d', by simp only [Device.run, bind_eq_ok]; exact ⟨d1, h1, h2⟩⟩

theorem create_some_inputs (cfg : Build) (K : Nat) (env : InitEnv) (pWindow : Option Window)
    (desc : Desc) (d0 : Device)
    (h : Device.create cfg K env none pWindow desc = .ok ⟨some d0, some d0, []⟩)
    (hctx : d0.mpRenderContext.isSome) :
    env.apiInit = true ∧ env.renderContext = true ∧ 0 < desc.cmdQueues.direct ∧
      ∃ w, pWindow = some w := by
  simp only [Device.create, bind_eq_ok] at h
  obtain ⟨⟨ok, d⟩, hinit, hres⟩ := h
  simp only [Except.ok.injEq, CreateResult.mk.injEq] at hres
  have hok : ok = true := by
    cases ok
    · simp at hres
    · rfl
  subst hok
  simp at hres
  subst hres
  simp only [Device.init, bind_eq_ok] at hinit
  obtain ⟨-, -, hinit⟩ := hinit
  cases hapi : env.apiInit with
  | false => simp [Device.apiInit, hapi] at hinit
  | true =>
    simp only [Device.apiInit, hapi, if_true] at hinit
    simp only [Bool.true_eq_false, if_false, bind_eq_ok, beq_iff_eq] at hinit
    obtain ⟨q, hq, d5, hd5, w, hw, hfin⟩ := hinit
    have hdirect : 0 < desc.cmdQueues.direct := by
      rcases Nat.eq_zero_or_pos desc.cmdQueues.direct with h0 | h0
      · simp [index, Device.emit, Device.new, h0] at hq
      · exact h0
    have hw' : ∃ w, pWindow = some w := by
      cases hctx' : env.renderContext <;>
        simp [Device.flushIfContext, Device.flush, hctx', Device.emit, deref, bind,
          Except.bind, Device.new] at hd5 <;>
        subst hd5 <;>
        cases pWindow <;> simp [deref] at hw ⊢
    refine ⟨rfl, ?_, hdirect, hw'⟩
    cases hctx' : env.renderContext with
    | true => rfl
    | false =>
      simp [Device.flushIfContext, hctx', Device.emit, Device.new] at hd5
      subst hd5
      simp [Device.updateDefaultFBO] at hfin
      rw [← hfin] at hctx
      simp at hctx


theorem reachable_ready (K : Nat) (hK : 1 ≤ K) (d : Device) (h : Reachable K d) : Ready K d := by
  obtain ⟨cfg, env, pWindow, desc, d0, ops, hcreate, hctx, hrun⟩ := h
  obtain ⟨hapi, hrc, hdirect, w, rfl⟩ := create_some_inputs cfg K env pWindow desc d0 hcreate hctx
  obtain ⟨d1, hcreate1, hready, -⟩ := create_ready cfg K env w desc hK hapi hrc hdirect
  rw [hcreate] at hcreate1
  simp only [Except.ok.injEq, CreateResult.mk.injEq, Option.some.injEq] at hcreate1
  obtain ⟨rfl, -⟩ := hcreate1
  exact run_ready K hK ops d0 d hready hrun

theorem init_true_fields (cfg : Build) (K : Nat) (env : InitEnv) (d0 d : Device)
    (h : d0.init cfg K env = .ok (true, d)) :
    env.apiInit = true ∧
    d.mpFrameFence = some (GpuFence.create env.fenceId) ∧
    d.mpGpuDescPool = some ⟨gpuPoolDesc cfg, env.fenceId⟩ ∧
    d.mpCpuDescPool = some ⟨cpuPoolDesc cfg, env.fenceId⟩ ∧
    d.mpUploadHeap = some ⟨1024 * 1024 * 2, env.fenceId⟩ ∧
    (env.renderContext = false → d.mpRenderContext = none) ∧
    (env.renderContext = true → d.mpRenderContext.isSome) ∧
    d.mDeferredReleases = d0.mDeferredReleases := by
  simp only [Device.init, bind_eq_ok] at h
  obtain ⟨-, -, h⟩ := h
  cases hapi : env.apiInit with
  | false => simp [Device.apiInit, hapi] at h
  | true =>
    simp only [Device.apiInit, hapi, if_true] at h
    simp only [Bool.true_eq_false, if_false, bind_eq_ok, beq_iff_eq] at h
    obtain ⟨q, -, d5, hd5, w, -, hfin⟩ := h
    simp only [Device.updateDefaultFBO, Bool.true_eq_false, if_false, Except.ok.injEq,
      Prod.mk.injEq, true_and] at hfin
    subst hfin
    cases hctx : env.renderContext <;>
      simp [Device.flushIfContext, Device.flush, hctx, Device.emit, deref, bind, Except.bind]
        at hd5 <;>
      subst hd5 <;>
      simp [GpuFence.create]

theorem init_without_context (cfg : Build) (K : Nat) (env : InitEnv) (w : Window) (desc : Desc)
    (hapi : env.apiInit = true) (hctx : env.renderContext = false)
    (hq : 0 < desc.cmdQueues.direct) :
    ∃ d, (Device.new K (some w) desc).init cfg K env = .ok (true, d) ∧
      d.mpRenderContext = none := by
  obtain ⟨n, hn⟩ : ∃ n, desc.cmdQueues.direct = n + 1 := ⟨desc.cmdQueues.direct - 1, by omega⟩
  cases hres : (Device.new K (some w) desc).init cfg K env with
  | error e =>
    simp [Device.init, assertThat_true, Device.apiInit, hapi, bind, Except.bind, Device.new,
      Device.emit, index, hn, List.replicate_succ, hctx, Device.flushIfContext,
      Device.flush, deref, Device.updateDefaultFBO] at hres
  | ok p =>
    simp [Device.init, assertThat_true, Device.apiInit, hapi, bind, Except.bind, Device.new,
      Device.emit, index, hn, List.replicate_succ, hctx, Device.flushIfContext,
      Device.flush, deref, Device.updateDefaultFBO] at hres
    subst hres
    simp

theorem gpuPoolDesc_counts (cfg : Build) :
    (gpuPoolDesc cfg).getDescCount .TextureSrv = 1000000 ∧
    (gpuPoolDesc cfg).getDescCount .Sampler = 2048 ∧
    (gpuPoolDesc cfg).getDescCount .Rtv = 0 ∧
    (gpuPoolDesc cfg).getDescCount .Dsv = 0 ∧
    (gpuPoolDesc cfg).mShaderVisible = true := by
  rcases cfg with ⟨a, b⟩
  cases a <;> cases b <;> decide

theorem cpuPoolDesc_counts (cfg : Build) :
    (cpuPoolDesc cfg).getDescCount .Rtv = 16 * 1024 ∧
    (cpuPoolDesc cfg).getDescCount .Dsv = 1024 ∧
    (cpuPoolDesc cfg).mShaderVisible = false ∧
    (∀ t, t ≠ PoolType.Rtv → t ≠ PoolType.Dsv →
      (cpuPoolDesc cfg).getDescCount t = (gpuPoolDesc cfg).getDescCount t) ∧
    (cpuPoolDesc cfg).getTotalDescCount = (gpuPoolDesc cfg).getTotalDescCount + 17408 := by
  rcases cfg with ⟨a, b⟩
  cases a <;> cases b <;>
    (refine ⟨by decide, by decide, by decide, ?_, by decide⟩
     intro t h1 h2
     cases t <;> first | decide | exact absurd rfl h1 | exact absurd rfl h2)

theorem cleanup_ok_iff (K : Nat) (d d' : Device) :
    d.cleanup K = .ok d' ↔ d.mpRenderContext.isSome ∧ d' = d.afterCleanup K := by
  unfold Device.cleanup
  simp only [bind_eq_ok, flush_ok_iff]
  constructor
  · rintro ⟨d2, ⟨hctx, rfl⟩, h⟩
    simp only [Except.ok.injEq] at h
    refine ⟨by simpa [Device.emit] using hctx, ?_⟩
    rw [← h]
    simp [Device.afterCleanup, Device.emit, cleanupEvents]
  · rintro ⟨hctx, rfl⟩
    refine ⟨_, ⟨by simpa [Device.emit] using hctx, rfl⟩, ?_⟩
    simp [Device.afterCleanup, Device.emit, cleanupEvents]

theorem destroyed_cleanupEvents (q : List ResourceRelease) : destroyed (cleanupEvents q) = q := by
  simp [cleanupEvents, destroyed_append, destroyed_map_destroy, destroyed]

theorem readsWithin_append (l1 l2 : List Event) :
    ∀ lo hi, ReadsWithin lo hi (l1 ++ l2) ↔
      ReadsWithin lo hi l1 ∧ ReadsWithin (lastRead lo l1) (highestSignal hi l1) l2 := by
  induction l1 with
  | nil => intro lo hi; simp [ReadsWithin, lastRead, highestSignal]
  | cons e l ih =>
    intro lo hi
    cases e <;> simp [ReadsWithin, lastRead, highestSignal, ih, and_assoc]

theorem lastRead_append (l1 l2 : List Event) :
    ∀ lo, lastRead lo (l1 ++ l2) = lastRead (lastRead lo l1) l2 := by
  induction l1 with
  | nil => intro lo; rfl
  | cons e l ih => intro lo; cases e <;> simp [lastRead, ih]

theorem highestSignal_append (l1 l2 : List Event) :
    ∀ hi, highestSignal hi (l1 ++ l2) = highestSignal (highestSignal hi l1) l2 := by
  induction l1 with
  | nil => intro hi; rfl
  | cons e l ih => intro hi; cases e <;> simp [highestSignal, ih]

theorem readsWithin_destroy (q : List ResourceRelease) (l : List Event) :
    ∀ lo hi, ReadsWithin lo hi (q.map Event.destroy ++ l) ↔ ReadsWithin lo hi l := by
  induction q with
  | nil => intro lo hi; rfl
  | cons e q ih => intro lo hi; simp [ReadsWithin, ih]

theorem lastRead_destroy (q : List ResourceRelease) (l : List Event) :
    ∀ lo, lastRead lo (q.map Event.destroy ++ l) = lastRead lo l := by
  induction q with
  | nil => intro lo; rfl
  | cons e q ih => intro lo; simp [lastRead, ih]

theorem highestSignal_destroy (q : List ResourceRelease) (l : List Event) :
    ∀ hi, highestSignal hi (q.map Event.destroy ++ l) = highestSignal hi l := by
  induction q with
  | nil => intro hi; rfl
  | cons e q ih => intro hi; simp [highestSignal, ih]

theorem presentFence_gpu_le (K adv : Nat) (f : GpuFence)
    (hw : K ≤ f.mCpuValue + 1 → wrapSub64 (f.mCpuValue + 1) K ≤ f.mCpuValue)
    (hf : f.gpuValue < f.mCpuValue) :
    (presentFence K adv f).gpuValue ≤ f.mCpuValue := by
  unfold presentFence
  by_cases h : K ≤ f.mCpuValue + 1
  · have := hw h
    simp [h, GpuFence.gpuAdvance, GpuFence.lastSignaled]
    omega
  · simp [h, GpuFence.gpuAdvance, GpuFence.lastSignaled]
    omega

theorem step_fence (K : Nat) (d d' : Device) (op : DeviceOp) (f : GpuFence) (lo : Nat)
    (hstep : d.step K op = .ok d') (hf : d.mpFrameFence = some f)
    (hv : f.gpuValue < f.mCpuValue) (hlo : lo ≤ f.gpuValue) :
    ∃ f' events, d'.mpFrameFence = some f' ∧ d'.log = d.log ++ events ∧
      FenceStep lo f f' (signals [op]) events := by
  cases op with
  | releaseResource h =>
    rw [step_release_ok_iff] at hstep
    rcases hstep with ⟨-, rfl⟩ | ⟨-, f1, -, rfl⟩
    · exact ⟨f, [], hf, by simp, by simp [signals], rfl, le_refl _, hv, trivial, hlo, rfl⟩
    · exact ⟨f, [], hf, by simp, by simp [signals], rfl, le_refl _, hv, trivial, hlo, rfl⟩
  | present adv next =>
    simp only [Device.step] at hstep
    rw [present_ok_iff] at hstep
    obtain ⟨f1, fbo, tex, hf1, -, -, -, -, -, -, hw, rfl⟩ := hstep
    rw [hf] at hf1
    have := Option.some.inj hf1
    subst this
    have hle := presentFence_gpu_le K adv f hw hv
    have hmono := presentFence_gpu_mono K adv f
    refine ⟨presentFence K adv f, presentEvents K adv f d, rfl, rfl, ?_⟩
    refine ⟨by simp [presentFence_cpu, signals], presentFence_id K adv f, hmono, ?_, ?_, ?_, ?_⟩
    · rw [presentFence_cpu]
      omega
    · unfold presentEvents
      by_cases hK : K ≤ f.mCpuValue + 1 <;>
        simp [hK, ReadsWithin, readsWithin_destroy, GpuFence.lastSignaled] <;> omega
    · unfold presentEvents
      by_cases hK : K ≤ f.mCpuValue + 1 <;>
        simp [hK, lastRead, lastRead_destroy]
    · unfold presentEvents
      by_cases hK : K ≤ f.mCpuValue + 1 <;>
        simp [hK, highestSignal, highestSignal_destroy, GpuFence.lastSignaled,
          presentFence_cpu]
  | flushAndSync adv =>
    simp only [Device.step] at hstep
    rw [flushAndSync_ok_iff] at hstep
    obtain ⟨f1, hf1, -, -, -, -, rfl⟩ := hstep
    rw [hf] at hf1
    have := Option.some.inj hf1
    subst this
    refine ⟨flushFence adv f,
      [Event.flush true, Event.fenceSignal f.mCpuValue, Event.uploadHeapReclaim,
          Event.readGpuValue (flushFence adv f).gpuValue]
        ++ ((popRetired (flushFence adv f).gpuValue d.mDeferredReleases).1.map Event.destroy
          ++ [Event.cpuPoolReclaim, Event.gpuPoolReclaim]),
      rfl, by simp [Device.afterFlushAndSync], ?_⟩
    refine ⟨by simp [flushFence, GpuFence.gpuAdvance, signals],
      by simp [flushFence, GpuFence.gpuAdvance, GpuFence.gpuIdle], ?_, ?_, ?_, ?_, ?_⟩
    · simp [flushFence, GpuFence.gpuAdvance, GpuFence.gpuIdle]
    · simp [flushFence, GpuFence.gpuAdvance, GpuFence.gpuIdle, GpuFence.lastSignaled]
      omega
    · simp [ReadsWithin, readsWithin_destroy, flushFence, GpuFence.gpuAdvance,
        GpuFence.gpuIdle, GpuFence.lastSignaled]
      omega
    · simp [lastRead, lastRead_destroy]
    · simp [highestSignal, highestSignal_destroy, flushFence, GpuFence.gpuAdvance,
        GpuFence.gpuIdle, GpuFence.lastSignaled]
  | executeDeferredReleases adv =>
    simp only [Device.step] at hstep
    rw [executeDeferredReleases_ok_iff] at hstep
    obtain ⟨f1, hf1, -, -, -, rfl⟩ := hstep
    rw [hf] at hf1
    have := Option.some.inj hf1
    subst this
    refine ⟨f.gpuAdvance adv,
      [Event.uploadHeapReclaim, Event.readGpuValue (f.gpuAdvance adv).gpuValue]
        ++ ((popRetired (f.gpuAdvance adv).gpuValue d.mDeferredReleases).1.map Event.destroy
          ++ [Event.cpuPoolReclaim, Event.gpuPoolReclaim]),
      rfl, by simp [Device.afterReclaim], ?_⟩
    refine ⟨by simp [GpuFence.gpuAdvance, signals], by simp [GpuFence.gpuAdvance], ?_, ?_, ?_,
      ?_, ?_⟩
    · simp [GpuFence.gpuAdvance]
    · simp [GpuFence.gpuAdvance, GpuFence.lastSignaled]
      omega
    · simp [ReadsWithin, readsWithin_destroy, GpuFence.gpuAdvance, GpuFence.lastSignaled]
      omega
    · simp [lastRead, lastRead_destroy]
    · simp [highestSignal, highestSignal_destroy, GpuFence.gpuAdvance, GpuFence.lastSignaled]

theorem signals_cons (op : DeviceOp) (ops : List DeviceOp) :
    signals (op :: ops) = signals [op] + signals ops := by
  cases op <;> simp [signals] <;> omega

theorem run_fence (K : Nat) (ops : List DeviceOp) :
    ∀ (d d' : Device) (f : GpuFence) (lo : Nat), d.run K ops = .ok d' →
      d.mpFrameFence = some f → f.gpuValue < f.mCpuValue → lo ≤ f.gpuValue →
      ∃ f' events, d'.mpFrameFence = some f' ∧ d'.log = d.log ++ events ∧
        FenceStep lo f f' (signals ops) events := by
  induction ops with
  | nil =>
    intro d d' f lo hrun hf hv hlo
    simp [Device.run] at hrun
    subst hrun
    exact ⟨f, [], hf, by simp, by simp [signals], rfl, le_refl _, hv, trivial, hlo, rfl⟩
  | cons op ops ih =>
    intro d d' f lo hrun hf hv hlo
    simp only [Device.run, bind_eq_ok] at hrun
    obtain ⟨d1, h1, h2⟩ := hrun
    obtain ⟨f1, e1, hf1, hlog1, hc1, hid1, hg1, hv1, hr1, hl1, hh1⟩ :=
      step_fence K d d1 op f lo h1 hf hv hlo
    obtain ⟨f', e2, hf', hlog2, hc2, hid2, hg2, hv2, hr2, hl2, hh2⟩ :=
      ih d1 d' f1 (lastRead lo e1) h2 hf1 hv1 hl1
    refine ⟨f', e1 ++ e2, hf', by rw [hlog2, hlog1, List.append_assoc], ?_, ?_, ?_, hv2, ?_,
      ?_, ?_⟩
    · rw [signals_cons, hc2, hc1]
      omega
    · rw [hid2, hid1]
    · omega
    · rw [readsWithin_append, hh1]
      exact ⟨hr1, hr2⟩
    · rw [lastRead_append]
      exact hl2
    · rw [highestSignal_append, hh1]
      exact hh2

theorem detachAll_eq (l : List (Option Fbo)) :
    ∀ l', detachAll l = .ok l' → l' = List.replicate l.length (some ⟨none, none⟩) := by
  induction l with
  | nil =>
    intro l' h
    simp [detachAll] at h
    subst h
    rfl
  | cons p ps ih =>
    intro l' h
    simp only [detachAll, bind_eq_ok] at h
    obtain ⟨pFbo, -, rest, hrest, h⟩ := h
    simp only [Except.ok.injEq] at h
    rw [← h, ih rest hrest]
    simp [List.replicate_succ, Fbo.attachColorTarget, Fbo.attachDepthStencilTarget]

theorem foldl_set_get (upd : Nat → Option Fbo → Option Fbo) (is : List Nat)
    (hnd : is.Nodup) :
    ∀ (l : List (Option Fbo)) (j : Nat),
      (is.foldl (fun fbos i => fbos.set i (upd i (fbos.getD i none))) l).get? j =
        if j ∈ is then (l.get? j).map (upd j) else l.get? j := by
  induction is with
  | nil => intro l j; simp
  | cons i rest ih =>
    intro l j
    rw [List.nodup_cons] at hnd
    simp only [List.foldl_cons]
    rw [ih hnd.2]
    by_cases hji : j = i
    · subst hji
      simp only [hnd.1, if_false, List.mem_cons, true_or, if_true]
      rcases Nat.lt_or_ge j l.length with hlt | hge
      · simp [List.get?_eq_getElem?, hlt]
      · simp [List.get?_eq_getElem?, List.getElem?_eq_none hge]
        exact hge
    · have hset : (l.set i (upd i (l.getD i none))).get? j = l.get? j := by
        simp [List.get?_eq_getElem?, List.getElem?_set, Ne.symm hji]
      simp only [List.mem_cons, hji, false_or, hset]

theorem index_ok {α : Type} (xs : List α) (i : Nat) (a : α) (h : index xs i = .ok a) :
    xs.get? i = some a := by
  simp only [index] at h
  split at h
  · rename_i b hb
    simp only [Except.ok.injEq] at h
    rw [← h]
    exact hb
  · simp at h

theorem deref_ok {α : Type} (o : Option α) (a : α) (h : deref o = .ok a) : o = some a := by
  cases o <;> simp [deref] at h
  rw [h]

theorem saveDepthState_ok (cfg : Build) (p : Option Texture) (r : Option ResourceState)
    (h : saveDepthState cfg p = .ok r) : r = p.map (fun t => t.mGlobalState) := by
  cases p with
  | none =>
    simp [saveDepthState] at h
    simp [← h]
  | some t =>
    simp only [saveDepthState, bind_eq_ok, Except.ok.injEq] at h
    obtain ⟨-, -, h⟩ := h
    simp [← h]

theorem saveFboStates_spec (cfg : Build) (fbos : List (Option Fbo)) (is : List Nat) :
    ∀ saved, saveFboStates cfg fbos is = .ok saved →
      ∀ k i, is.get? k = some i →
        ∃ fbo color, fbos.get? i = some (some fbo) ∧ fbo.colorTarget0 = some color ∧
          saved.get? k =
            some (color.mGlobalState, fbo.depthStencil.map (fun t => t.mGlobalState)) := by
  induction is with
  | nil => intro saved _ k i hk; simp at hk
  | cons i0 rest ih =>
    intro saved h k i hk
    simp only [saveFboStates, bind_eq_ok] at h
    obtain ⟨slot, hslot, fbo, hfbo, color, hcolor, -, -, depth, hdepth, saved', hsaved', h⟩ := h
    simp only [Except.ok.injEq] at h
    subst h
    cases k with
    | zero =>
      simp at hk
      subst hk
      have hslot' := index_ok _ _ _ hslot
      have hfbo' := deref_ok _ _ hfbo
      have hcolor' := deref_ok _ _ hcolor
      have hdepth' := saveDepthState_ok _ _ _ hdepth
      subst hfbo'
      exact ⟨fbo, color, hslot', hcolor', by simp [hdepth']⟩
    | succ k =>
      obtain ⟨fbo', color', h1, h2, h3⟩ := ih saved' hsaved' k i (by simpa using hk)
      exact ⟨fbo', color', h1, h2, by simpa using h3⟩

theorem restoreDepthState_ok (cfg : Build) (ds : Option ResourceState) (fbo fbo' : Fbo)
    (h : restoreDepthState cfg ds fbo = .ok fbo') :
    fbo'.colorTarget0 = fbo.colorTarget0 ∧
    ((fbo.depthStencil = none ∧ fbo'.depthStencil = none) ∨
      ∃ t st, fbo.depthStencil = some t ∧ ds = some st ∧
        fbo'.depthStencil = some (t.setGlobalState st)) := by
  unfold restoreDepthState at h
  cases hd : fbo.depthStencil with
  | none =>
    simp [hd] at h
    subst h
    exact ⟨rfl, Or.inl ⟨rfl, hd⟩⟩
  | some t =>
    simp only [hd, bind_eq_ok] at h
    obtain ⟨-, -, h⟩ := h
    cases ds with
    | none => simp at h
    | some st =>
      simp only [Except.ok.injEq] at h
      subst h
      exact ⟨rfl, Or.inr ⟨t, st, rfl, rfl, rfl⟩⟩

theorem restoreFboStates_spec (cfg : Build)
    (saved : List (ResourceState × Option ResourceState)) :
    ∀ (i : Nat) (fbos fbos' : List (Option Fbo)),
      restoreFboStates cfg i saved fbos = .ok fbos' →
      (∀ j, j < i → fbos'.get? j = fbos.get? j) ∧
      ∀ k s, saved.get? k = some s →
        ∃ p p', fbos.get? (i + k) = some p ∧ fbos'.get? (i + k) = some p' ∧
          RestoredSlot s p p' := by
  induction saved with
  | nil =>
    intro i fbos fbos' h
    simp [restoreFboStates] at h
    subst h
    exact ⟨fun _ _ => rfl, fun k s hk => by simp at hk⟩
  | cons s0 saved ih =>
    intro i fbos fbos' h
    obtain ⟨cs, ds⟩ := s0
    simp only [restoreFboStates, bind_eq_ok] at h
    obtain ⟨slot, hslot, fbo, hfbo, color, hcolor, -, -, fbo2, hfbo2, hrec⟩ := h
    have hslot' := index_ok _ _ _ hslot
    have hfbo' := deref_ok _ _ hfbo
    have hcolor' := deref_ok _ _ hcolor
    subst hfbo'
    obtain ⟨hc2, hd2⟩ := restoreDepthState_ok _ _ _ _ hfbo2
    obtain ⟨hlow, hrest⟩ := ih (i + 1) _ fbos' hrec
    have hilt : i < fbos.length := by
      rcases Nat.lt_or_ge i fbos.length with hlt | hge
      · exact hlt
      · rw [List.get?_eq_none.mpr hge] at hslot'
        simp at hslot'
    constructor
    · intro j hj
      rw [hlow j (by omega)]
      simp [List.get?_eq_getElem?, List.getElem?_set, show i ≠ j by omega]
    · intro k s hk
      cases k with
      | zero =>
        simp at hk
        subst hk
        refine ⟨some fbo, some fbo2, by simpa using hslot', ?_, ?_⟩
        · rw [Nat.add_zero, hlow i (by omega)]
          simp [List.get?_eq_getElem?, hilt]
        · refine ⟨fbo, color, fbo2, rfl, hcolor', rfl, ?_, ?_⟩
          · rw [hc2]
            rfl
          · simpa [Fbo.attachColorTarget] using hd2
      | succ k =>
        obtain ⟨p, p', h1, h2, h3⟩ := hrest k s (by simpa using hk)
        refine ⟨p, p', ?_, ?_, h3⟩
        · rw [← h1]
          have : i + (k + 1) = i + 1 + k := by omega
          rw [this]
          simp [List.get?_eq_getElem?, List.getElem?_set, show i ≠ i + 1 + k by omega]
        · have : i + (k + 1) = i + 1 + k := by omega
          rw [this]
          exact h2

theorem updateSlot_detached (env : SwapChainEnv) (w h : Nat) (cf df : ResourceFormat) (i : Nat) :
    updateSlot env w h cf df i (some ⟨none, none⟩) = some (freshFbo env w h cf df i) := by
  unfold updateSlot freshFbo
  by_cases hdf : df = .Unknown
  · simp [hdf, Fbo.attachColorTarget]
  · simp [hdf, Fbo.attachColorTarget, Fbo.attachDepthStencilTarget]

theorem restoreStates_ok (cfg : Build) (saved : List (ResourceState × Option ResourceState))
    (d d' : Device) (h : d.restoreStates cfg saved = .ok d') :
    (cfg.d3d12 = false ∧ d' = d) ∨
    (cfg.d3d12 = true ∧ ∃ fbos, restoreFboStates cfg 0 saved d.mpSwapChainFbos = .ok fbos ∧
      d' = { d with mpSwapChainFbos := fbos }) := by
  unfold Device.restoreStates at h
  cases hb : cfg.d3d12 with
  | false =>
    simp [hb] at h
    exact Or.inl ⟨rfl, h.symm⟩
  | true =>
    simp only [hb, if_true] at h
    split at h
    · rename_i fbos hf
      simp only [Except.ok.injEq] at h
      exact Or.inr ⟨rfl, fbos, hf, h.symm⟩
    · simp at h

theorem updateDefaultFBO_detached (K : Nat) (env : SwapChainEnv) (w h : Nat)
    (cf df : ResourceFormat) (d : Device) (n : Nat)
    (hfbos : d.mpSwapChainFbos = List.replicate n (some ⟨none, none⟩)) (i : Nat)
    (hiK : i < K) (hin : i < n) :
    (d.updateDefaultFBO K env w h cf df).2.mpSwapChainFbos.get? i =
      some (some (freshFbo env w h cf df i)) := by
  simp only [Device.updateDefaultFBO]
  rw [foldl_set_get _ _ (List.nodup_range K)]
  simp [List.mem_range, hiK, hfbos, List.get?_eq_getElem?, hin, updateSlot_detached]

theorem resizeSwapChain_slots (cfg : Build) (K : Nat) (env : SwapChainEnv) (w h : Nat)
    (d : Device) (r : Option Fbo × Device)
    (hres : d.resizeSwapChain cfg K env w h = .ok r) (hlen : d.mpSwapChainFbos.length = K) :
    ∃ fbo0 color0, d.mpSwapChainFbos.get? 0 = some (some fbo0) ∧
      fbo0.colorTarget0 = some color0 ∧
      r.2.mCurrentBackBufferIndex = env.backBufferIndex % K ∧
      r.2.mpSwapChainFbos.get? r.2.mCurrentBackBufferIndex = some r.1 ∧
      ∀ i, i < K →
        (cfg.d3d12 = false → r.2.mpSwapChainFbos.get? i =
          some (some (freshFbo env w h color0.format fbo0.depthFormat i))) ∧
        (cfg.d3d12 = true → ∃ fboB colorB p',
          d.mpSwapChainFbos.get? i = some (some fboB) ∧ fboB.colorTarget0 = some colorB ∧
          r.2.mpSwapChainFbos.get? i = some p' ∧
          RestoredSlot (colorB.mGlobalState, fboB.depthStencil.map (fun t => t.mGlobalState))
            (some (freshFbo env w h color0.format fbo0.depthFormat i)) p') := by
  unfold Device.resizeSwapChain at hres
  simp only [bind_eq_ok, flush_ok_iff, releaseFboData_ok_iff] at hres
  obtain ⟨d1, ⟨-, hd1⟩, slot0, hslot0, fbo0, hfbo0, color0, hcolor0, saved, hsaved, d2,
    ⟨fbos2, hdet, hd2⟩, d5, hd5, pFbo, hpFbo, hr⟩ := hres
  simp only [Except.ok.injEq] at hr
  subst hr
  have hfbos1 : d1.mpSwapChainFbos = d.mpSwapChainFbos := by rw [hd1]
  rw [hfbos1] at hslot0 hdet
  have hslot0' := index_ok _ _ _ hslot0
  have hfbo0' := deref_ok _ _ hfbo0
  have hcolor0' := deref_ok _ _ hcolor0
  subst hfbo0'
  have hfbos2 := detachAll_eq _ _ hdet
  rw [hlen] at hfbos2
  have hd2fbos : (d2.emit (Event.apiResizeSwapChain w h)).mpSwapChainFbos =
      List.replicate K (some ⟨none, none⟩) := by
    rw [hd2]
    simp [Device.emit, hfbos2]
  have hpFbo' := index_ok _ _ _ hpFbo
  have hfresh : ∀ i, i < K →
      ((d2.emit (Event.apiResizeSwapChain w h)).updateDefaultFBO K env w h color0.format
        fbo0.depthFormat).2.mpSwapChainFbos.get? i =
        some (some (freshFbo env w h color0.format fbo0.depthFormat i)) := by
    intro i hi
    exact updateDefaultFBO_detached K env w h _ _ _ K hd2fbos i hi hi
  change Device.restoreStates cfg saved
    ((d2.emit (Event.apiResizeSwapChain w h)).updateDefaultFBO K env w h color0.format
      fbo0.depthFormat).2 = .ok d5 at hd5
  refine ⟨fbo0, color0, hslot0', hcolor0', ?_, ?_, ?_⟩
  · rcases restoreStates_ok _ _ _ _ hd5 with ⟨-, rfl⟩ | ⟨-, fbos5, -, rfl⟩ <;>
      simp [Device.updateDefaultFBO]
  · simpa [Device.getSwapChainFbo] using hpFbo'
  · intro i hi
    rcases restoreStates_ok _ _ _ _ hd5 with ⟨hb, rfl⟩ | ⟨hb, fbos5, hrestore, rfl⟩
    · refine ⟨fun _ => hfresh i hi, fun hb' => ?_⟩
      rw [hb] at hb'
      cases hb'
    · refine ⟨fun hb' => ?_, fun _ => ?_⟩
      · rw [hb] at hb'
        cases hb'
      · simp only [Device.saveStates, hb, if_true, hfbos1] at hsaved
        obtain ⟨fboB, colorB, hB1, hB2, hB3⟩ :=
          saveFboStates_spec cfg _ _ saved hsaved i i
            (by simp [List.get?_eq_getElem?, List.getElem?_range, hi])
        obtain ⟨-, hk⟩ := restoreFboStates_spec cfg saved 0 _ _ hrestore
        obtain ⟨p, p', hp, hp', hrel⟩ := hk i _ hB3
        rw [Nat.zero_add] at hp hp'
        rw [hfresh i hi] at hp
        have := Option.some.inj hp
        subst this
        exact ⟨fboB, colorB, p', hB1, hB2, hp', hrel⟩

theorem colorStateAt_of_get (fbos : List (Option Fbo)) (i : Nat) (fbo : Fbo)
    (h : fbos.get? i = some (some fbo)) :
    colorStateAt fbos i = fbo.colorTarget0.map (fun t => t.mGlobalState) := by
  unfold colorStateAt
  rw [h]

theorem depthStateAt_of_get (fbos : List (Option Fbo)) (i : Nat) (fbo : Fbo)
    (h : fbos.get? i = some (some fbo)) :
    depthStateAt fbos i = fbo.depthStencil.map (fun t => t.mGlobalState) := by
  unfold depthStateAt
  rw [h]

/-- A depth-stencil texture of a freshly built framebuffer has the requested, known format. -/
theorem freshFbo_depth_known (env : SwapChainEnv) (w h : Nat) (cf df : ResourceFormat) (i : Nat)
    (t : Texture) (ht : (freshFbo env w h cf df i).depthStencil = some t) :
    t.format ≠ .Unknown ∧ t.format = df := by
  by_cases hdf : df = .Unknown
  · simp [freshFbo, hdf] at ht
  · simp [freshFbo, hdf] at ht
    subst ht
    exact ⟨hdf, rfl⟩

/-- After a resize every depth-stencil texture of the swap chain has a known format, so the
next resize reads a known depth format from framebuffer 0. -/
theorem resizeSwapChain_depth_known (cfg : Build) (K : Nat) (env : SwapChainEnv) (w h : Nat)
    (d : Device) (r : Option Fbo × Device)
    (hres : d.resizeSwapChain cfg K env w h = .ok r) (hlen : d.mpSwapChainFbos.length = K) :
    ∀ i fbo t, i < K → r.2.mpSwapChainFbos.get? i = some (some fbo) →
      fbo.depthStencil = some t → t.format ≠ .Unknown := by
  obtain ⟨fbo0, color0, -, -, -, -, hslots⟩ := resizeSwapChain_slots cfg K env w h d r hres hlen
  intro i fbo t hi hget hdepth
  obtain ⟨hv, hd⟩ := hslots i hi
  cases hb : cfg.d3d12 with
  | false =>
    rw [hv hb] at hget
    have := Option.some.inj (Option.some.inj hget)
    subst this
    exact (freshFbo_depth_known _ _ _ _ _ _ t hdepth).1
  | true =>
    obtain ⟨fboB, colorB, p', -, -, hp', fbo1, color, fbo', hf1, -, hf3, -, hf5⟩ := hd hb
    subst hf3
    rw [hp'] at hget
    have := Option.some.inj (Option.some.inj hget)
    subst this
    have hfresh := (Option.some.inj hf1).symm
    subst hfresh
    rcases hf5 with ⟨-, hnone⟩ | ⟨t1, st, ht1, -, hsome⟩
    · rw [hnone] at hdepth
      cases hdepth
    · rw [hsome] at hdepth
      have := Option.some.inj hdepth
      subst this
      exact (freshFbo_depth_known _ _ _ _ _ _ t1 ht1).1

theorem memcpyInto_ok (dst : List Nat) (offset : Nat) (src : List Nat) (size : Nat)
    (hd : offset + size ≤ dst.length) (hs : size ≤ src.length) :
    memcpyInto dst offset src size =
      .ok (dst.take offset ++ src.take size ++ dst.drop (offset + size)) := by
  simp [memcpyInto, hd, hs]

theorem memcpyInto_fault (dst : List Nat) (offset : Nat) (src : List Nat) (size : Nat)
    (hd : dst.length < offset + size) :
    memcpyInto dst offset src size = .error .outOfRange := by
  simp [memcpyInto]
  intro h
  omega

/-- The bytes of a block after a copy into `[offset, offset + size)`. -/
theorem spliced_get (dst src : List Nat) (offset size : Nat)
    (hd : offset + size ≤ dst.length) (hs : size ≤ src.length) :
    (dst.take offset ++ src.take size ++ dst.drop (offset + size)).length = dst.length ∧
    (∀ i, i < size →
      (dst.take offset ++ src.take size ++ dst.drop (offset + size)).get? (offset + i) =
        src.get? i) ∧
    (∀ j, j < offset ∨ offset + size ≤ j →
      (dst.take offset ++ src.take size ++ dst.drop (offset + size)).get? j = dst.get? j) := by
  have hlt : (dst.take offset).length = offset := by
    rw [List.length_take]; omega
  have hls : (src.take size).length = size := by
    rw [List.length_take]; omega
  refine ⟨?_, ?_, ?_⟩
  · simp only [List.length_append, hlt, hls, List.length_drop]
    omega
  · intro i hi
    simp only [List.get?_eq_getElem?]
    rw [List.append_assoc, List.getElem?_append_right (by omega)]
    rw [hlt, List.getElem?_append_left (by omega)]
    rw [List.getElem?_take]
    simp [hi]
  · intro j hj
    simp only [List.get?_eq_getElem?]
    rcases hj with hj | hj
    · rw [List.append_assoc, List.getElem?_append_left (by omega)]
      rw [List.getElem?_take]
      simp [hj]
    · rw [List.getElem?_append_right (by simp only [List.length_append, hlt, hls]; omega)]
      simp only [List.length_append, hlt, hls]
      rw [List.getElem?_drop]
      congr 1
      omega

theorem new_wellFormed (bytesPerBlock : ResourceFormat → Nat) (elementCount : Nat)
    (format : ResourceFormat) (name : String) (cpuDirty gpuDirty : Bool) :
    (TypedBufferBase.new bytesPerBlock elementCount format name cpuDirty gpuDirty).mData.length
      = (TypedBufferBase.new bytesPerBlock elementCount format name cpuDirty gpuDirty).mSize := by
  simp [TypedBufferBase.new]

theorem setBlob_ok (logEnabled : Bool) (b : TypedBufferBase) (pSrc : List Nat)
    (offset size : Nat) (r : Bool × TypedBufferBase)
    (h : b.setBlob logEnabled pSrc offset size = .ok r) :
    (r = (false, { b with errors := b.errors ++ [setBlobMessage b.mName] }) ∧
      logEnabled = true ∧ b.mSize < wrapAdd64 offset size) ∨
    (offset + size ≤ b.mData.length ∧ size ≤ pSrc.length ∧
      r = (true, { b with
        mData := b.mData.take offset ++ pSrc.take size ++ b.mData.drop (offset + size),
        mCpuDirty := true })) := by
  unfold TypedBufferBase.setBlob at h
  split at h
  · rename_i hc
    simp only [Bool.and_eq_true, decide_eq_true_eq] at hc
    simp only [Except.ok.injEq] at h
    exact Or.inl ⟨h.symm, hc.1, hc.2⟩
  · simp only [bind_eq_ok] at h
    obtain ⟨data, hdata, hr⟩ := h
    simp only [memcpyInto] at hdata
    split at hdata
    · rename_i hc
      simp only [Except.ok.injEq] at hdata hr
      subst hdata
      exact Or.inr ⟨hc.1, hc.2, hr.symm⟩
    · simp at hdata

theorem setBlob_wellFormed (logEnabled : Bool) (b : TypedBufferBase) (pSrc : List Nat)
    (offset size : Nat) (r : Bool × TypedBufferBase)
    (h : b.setBlob logEnabled pSrc offset size = .ok r) (hwf : b.mData.length = b.mSize) :
    r.2.mData.length = r.2.mSize := by
  rcases setBlob_ok logEnabled b pSrc offset size r h with ⟨hr, -, -⟩ | ⟨hd, hs, hr⟩
  · subst hr
    exact hwf
  · subst hr
    simp only
    rw [(spliced_get b.mData pSrc offset size hd hs).1]
    exact hwf

theorem readArray_ok {α : Type} (bufSize : Nat) (fetch : Nat → α) (elemSize base : Nat) :
    ∀ n, (∀ i, i < n → base + i * elemSize + elemSize ≤ bufSize) →
      readArray bufSize fetch elemSize base n =
        .ok ((List.range n).map (fun i => fetch (base + i * elemSize))) := by
  intro n
  induction n with
  | zero => intro _; rfl
  | succ n ih =>
    intro h
    have hn := h n (Nat.lt_succ_self n)
    simp only [readArray, ih (fun i hi => h i (Nat.lt_succ_of_lt hi)), hn, if_true,
      List.range_succ, List.map_append, List.map_cons, List.map_nil]
    rfl

/-- Element `i` of an array of `n` elements of `elemSize` bytes ends inside the array. -/
theorem element_in_array (i n elemSize : Nat) (hi : i < n) :
    i * elemSize + elemSize ≤ n * elemSize := by
  have h : (i + 1) * elemSize ≤ n * elemSize := Nat.mul_le_mul_right _ hi
  rw [Nat.add_mul, Nat.one_mul] at h
  exact h

theorem prepareLogBuffers_ready (t : PixelDebugTypes) (env : PixelEnv) (d d' : PixelDebug)
    (h : d.prepareLogBuffers t env = .ok d')
    (hp : ∀ p ∈ env.pixelLog, p.size = p.elementCount * p.elementSize)
    (ha : ∀ a ∈ env.assertLog, a.size = a.elementCount * a.elementSize)
    (hd : d.mpPixelLog = none ∨ d.LogBuffersReady t) :
    d'.LogBuffersReady t ∧ d'.mRunning = d.mRunning ∧ d'.mEnabled = d.mEnabled ∧
    d'.mWaitingForData = d.mWaitingForData ∧ d'.mpFence = d.mpFence := by
  unfold PixelDebug.prepareLogBuffers at h
  split at h
  · split at h
    · simp at h
    · simp at h
    · rename_i p a hpe hae
      split at h
      · simp at h
      · rename_i hps
        split at h
        · simp at h
        · rename_i has
          simp only [Except.ok.injEq] at h
          subst h
          refine ⟨?_, rfl, rfl, rfl, rfl⟩
          refine ⟨p, rfl, a, rfl, _, rfl, _, rfl, ?_, ?_, hp p hpe, ha a hae, rfl, rfl⟩
          · exact not_not.mp hps
          · exact not_not.mp has
  · rename_i hc
    simp only [Except.ok.injEq] at h
    subst h
    rcases hd with hnone | hready
    · simp [hnone] at hc
    · exact ⟨hready, rfl, rfl, rfl, rfl⟩

/-- The function `begin`, with logging enabled and factories that hand out structured
buffers of consistent size, leaves the log buffers ready. -/
theorem begin_ready (t : PixelDebugTypes) (env : PixelEnv) (frameDim : Nat × Nat)
    (d d' : PixelDebug) (h : d.begin t env frameDim = .ok d')
    (hrun : d.mRunning = false) (hen : d.mEnabled = true)
    (hp : ∀ p ∈ env.pixelLog, p.size = p.elementCount * p.elementSize)
    (ha : ∀ a ∈ env.assertLog, a.size = a.elementCount * a.elementSize)
    (hd : d.mpPixelLog = none ∨ d.LogBuffersReady t) :
    d'.LogBuffersReady t ∧ d'.mRunning = true ∧ d'.mEnabled = true ∧
    d'.mWaitingForData = false ∧ d'.mpFence = d.mpFence := by
  simp only [PixelDebug.begin, hrun, hen, PixelDebug.emit, Bool.false_eq_true, if_false,
    if_true, bind_eq_ok] at h
  obtain ⟨d2, hd2, p, hp2, a, ha2, hfin⟩ := h
  obtain ⟨h1, h2, h3, h4, h5⟩ := prepareLogBuffers_ready t env _ d2 hd2 hp ha hd
  simp only [Except.ok.injEq] at hfin
  subst hfin
  exact ⟨h1, h2, h3, h4, h5⟩

/-- The function `end`, called while logging is running and enabled with the log buffers
ready, returns with the buffers ready, a fence, and the waiting flag set. -/
theorem end_ready (t : PixelDebugTypes) (env : PixelEnv) (d : PixelDebug)
    (hrun : d.mRunning = true) (hen : d.mEnabled = true) (hd : d.LogBuffersReady t) :
    ∃ d', d.end' env = .ok d' ∧ d'.LogBuffersReady t ∧ d'.mRunning = false ∧
      d'.mEnabled = true ∧ d'.mWaitingForData = true ∧ d'.mpFence.isSome := by
  obtain ⟨p, hp, a, ha, c, hc, db, hdb, hrest⟩ := hd
  rw [Option.mem_def] at hp ha hc hdb
  simp only [PixelDebug.end', hrun, hen, hp, ha, hc, hdb, deref, bind, Except.bind,
    PixelDebug.emit, Bool.not_true, Bool.false_eq_true, if_false, if_true]
  exact ⟨_, rfl, ⟨p, rfl, a, rfl, c, rfl, db, rfl, hrest⟩, rfl, rfl, rfl, rfl⟩

theorem underscores_zero (s : String) : s ++ underscores 0 = s := by
  apply String.ext
  simp [underscores]

theorem underscores_succ (s : String) (k : Nat) :
    (s ++ "_") ++ underscores k = s ++ underscores (k + 1) := by
  apply String.ext
  simp [underscores, List.replicate_succ]

theorem underscores_length (s : String) (k : Nat) : (s ++ underscores k).length = s.length + k := by
  simp [underscores]

theorem underscores_injective (s : String) (j k : Nat)
    (h : s ++ underscores j = s ++ underscores k) : j = k := by
  have := congrArg String.length h
  rw [underscores_length, underscores_length] at this
  omega

theorem findName_mem (name : String) (m : List (String × Nat)) (h : (findName name m).isSome) :
    name ∈ m.map Prod.fst := by
  induction m with
  | nil => simp [findName] at h
  | cons p rest ih =>
    obtain ⟨k, v⟩ := p
    by_cases hk : k = name
    · simp [hk]
    · simp only [findName, hk, if_false] at h
      simp [ih h]

theorem findName_value_mem (name : String) (m : List (String × Nat)) (v : Nat)
    (h : findName name m = some v) : (name, v) ∈ m := by
  induction m with
  | nil => simp [findName] at h
  | cons p rest ih =>
    obtain ⟨k, w⟩ := p
    by_cases hk : k = name
    · simp only [findName, hk, if_true, Option.some.injEq] at h
      simp [hk, h]
    · simp only [findName, hk, if_false] at h
      simp [ih h]

theorem findName_append_new (name : String) (v : Nat) (m : List (String × Nat))
    (h : findName name m = none) : findName name (m ++ [(name, v)]) = some v := by
  induction m with
  | nil => simp [findName]
  | cons p rest ih =>
    obtain ⟨k, w⟩ := p
    by_cases hk : k = name
    · simp [findName, hk] at h
    · simp only [findName, hk, if_false] at h
      simp only [List.cons_append, findName, hk, if_false]
      exact ih h

theorem findName_append_other (name other : String) (v : Nat) (m : List (String × Nat))
    (h : other ≠ name) : findName name (m ++ [(other, v)]) = findName name m := by
  induction m with
  | nil => simp [findName, h]
  | cons p rest ih =>
    obtain ⟨k, w⟩ := p
    by_cases hk : k = name
    · simp [findName, hk]
    · simp only [List.cons_append, findName, hk, if_false]
      exact ih

/-- What the loop of `createNewGraph` computes: when it ends, with the start name followed
by the least number of underscores that gives a name outside the map; when it runs out of
loop tests, all names tried so far are keys of the map. -/
theorem uniqueGraphName_spec (m : List (String × Nat)) :
    ∀ (fuel : Nat) (name : String),
      (∀ r, uniqueGraphName m fuel name = .ok r →
        ∃ k, k < fuel ∧ r = name ++ underscores k ∧ findName r m = none ∧
          ∀ j, j < k → (findName (name ++ underscores j) m).isSome) ∧
      (∀ err, uniqueGraphName m fuel name = .error err →
        ∀ j, j < fuel → (findName (name ++ underscores j) m).isSome) := by
  intro fuel
  induction fuel with
  | zero =>
    intro name
    refine ⟨fun r h => ?_, fun err _ j hj => absurd hj (Nat.not_lt_zero j)⟩
    simp [uniqueGraphName] at h
  | succ fuel ih =>
    intro name
    by_cases hin : (findName name m).isSome
    · have hstep : uniqueGraphName m (fuel + 1) name = uniqueGraphName m fuel (name ++ "_") := by
        simp [uniqueGraphName, hin]
      rw [hstep]
      obtain ⟨ihok, iherr⟩ := ih (name ++ "_")
      have hall : ∀ k, (∀ j, j < k → (findName ((name ++ "_") ++ underscores j) m).isSome) →
          ∀ j, j < k + 1 → (findName (name ++ underscores j) m).isSome := by
        intro k hk j hj
        cases j with
        | zero => rw [underscores_zero]; exact hin
        | succ j =>
          rw [← underscores_succ]
          exact hk j (by omega)
      refine ⟨fun r h => ?_, fun err h j hj => hall fuel (iherr err h) j hj⟩
      obtain ⟨k, hk, hr, hnone, hbelow⟩ := ihok r h
      exact ⟨k + 1, by omega, by rw [hr, underscores_succ], hnone, hall k hbelow⟩
    · have hstep : uniqueGraphName m (fuel + 1) name = .ok name := by
        simp [uniqueGraphName, hin]
      rw [hstep]
      refine ⟨fun r h => ?_, fun err h => by simp at h⟩
      simp only [Except.ok.injEq] at h
      subst h
      refine ⟨0, by omega, (underscores_zero name).symm, ?_, fun j hj => absurd hj (Nat.not_lt_zero j)⟩
      simpa using hin

/-- Names that differ in their number of underscores are different keys, so a map cannot
hold more of them than it has entries. -/
theorem tried_names_le (m : List (String × Nat)) (name : String) (k : Nat)
    (hall : ∀ j, j < k → (findName (name ++ underscores j) m).isSome) : k ≤ m.length := by
  have hnodup : ((List.range k).map (fun j => name ++ underscores j)).Nodup := by
    refine (List.nodup_range k).map ?_
    intro i j h
    exact underscores_injective name i j h
  have hsub : (List.range k).map (fun j => name ++ underscores j) ⊆ m.map Prod.fst := by
    intro x hx
    simp only [List.mem_map, List.mem_range] at hx
    obtain ⟨j, hj, rfl⟩ := hx
    exact findName_mem _ _ (hall j hj)
  have hle := (hnodup.subperm hsub).length_le
  simpa using hle

/-- The loop of `createNewGraph` ends within one loop test more than the map has keys. -/
theorem uniqueGraphName_terminates (m : List (String × Nat)) (fuel : Nat) (name : String)
    (hfuel : m.length < fuel) : ∃ r, uniqueGraphName m fuel name = .ok r := by
  cases hres : uniqueGraphName m fuel name with
  | ok r => exact ⟨r, rfl⟩
  | error err =>
    exfalso
    have hle := tried_names_le m name fuel ((uniqueGraphName_spec m fuel name).2 err hres)
    omega

theorem index_lt {α : Type} (xs : List α) (i : Nat) (h : i < xs.length) :
    ∃ a, index xs i = .ok a := by
  refine ⟨xs.get ⟨i, h⟩, ?_⟩
  unfold index
  rw [List.get?_eq_get h]

theorem index_fault {α : Type} (xs : List α) (i : Nat) (h : xs.length ≤ i) :
    index xs i = .error .outOfRange := by
  unfold index
  rw [List.get?_eq_none.mpr h]

theorem insertName_mem (name : String) (value : Nat) (m : List (String × Nat))
    (p : String × Nat) (h : p ∈ insertName name value m) : p ∈ m ∨ p = (name, value) := by
  unfold insertName at h
  split at h
  · exact Or.inl h
  · simpa using h

/-- Pushing a graph keeps the lists aligned and makes the current index valid. -/
theorem pushGraph_aligned (pGraph : RenderGraph) (name : String) (e : RenderGraphEditor)
    (h : e.Aligned) : (e.pushGraph pGraph name).Aligned ∧ (e.pushGraph pGraph name).IndexValid := by
  obtain ⟨h1, h2, h3⟩ := h
  refine ⟨⟨?_, ?_, ?_⟩, ?_, ?_⟩
  · simp [RenderGraphEditor.pushGraph, h1]
  · simp [RenderGraphEditor.pushGraph, h2]
  · intro p hp
    simp only [RenderGraphEditor.pushGraph, List.length_append, List.length_singleton] at hp ⊢
    rcases insertName_mem _ _ _ p hp with hm | hm
    · exact Nat.lt_succ_of_lt (h3 p hm)
    · rw [hm]
      exact Nat.lt_succ_of_le (Nat.mod_le _ _)
  · simp [RenderGraphEditor.pushGraph]
  · simp [RenderGraphEditor.pushGraph, h1]

/-- One pass of the loop of `loadGraphsFromFile` returns on aligned lists and keeps them
aligned; the current index is valid afterwards if it was valid before or if no graph was
open. -/
theorem loadGraph_aligned (yes : Bool) (pGraph : RenderGraph) (e : RenderGraphEditor)
    (h : e.Aligned) :
    ∃ e', e.loadGraph yes pGraph = .ok e' ∧ e'.Aligned ∧
      (e.IndexValid ∨ e.mGraphNamesToIndex = [] → e'.IndexValid) := by
  unfold RenderGraphEditor.loadGraph
  cases hfind : findName pGraph.name e.mGraphNamesToIndex with
  | none =>
    exact ⟨_, rfl, (pushGraph_aligned pGraph pGraph.name e h).1,
      fun _ => (pushGraph_aligned pGraph pGraph.name e h).2⟩
  | some second =>
    have hmem := findName_value_mem _ _ _ hfind
    have hlt : second < e.mpGraphs.length := h.2.2 _ hmem
    have hne : e.mGraphNamesToIndex ≠ [] := List.ne_nil_of_mem hmem
    cases yes with
    | false =>
      refine ⟨_, rfl, h, fun hv => ?_⟩
      rcases hv with hv | hv
      · exact hv
      · exact absurd hv hne
    | true =>
      obtain ⟨g, hg⟩ := index_lt e.mpGraphs second hlt
      obtain ⟨u, hu⟩ := index_lt e.mRenderGraphUIs second (by rw [h.1]; exact hlt)
      refine ⟨{ e with mCurrentGraphIndex := second }.emit
        [.msgBox alreadyOpenMessage, .updateGraph second pGraph.id, .resetUI second],
        ?_, h, fun _ => ⟨hlt, ?_⟩⟩
      · simp [hg, hu, bind, Except.bind]
      · have := h.1
        simp only [RenderGraphEditor.emit]
        omega

/-- The loop of `loadGraphsFromFile` returns on aligned lists and keeps them aligned; it
keeps a valid current index valid, and when it starts with no graph open and adds at least
one graph the current index is valid afterwards. -/
theorem loadGraphs_aligned (answers : Nat → Bool) :
    ∀ (gs : List RenderGraph) (j : Nat) (e : RenderGraphEditor), e.Aligned →
      ∃ e', e.loadGraphs answers j gs = .ok e' ∧ e'.Aligned ∧
        (e.IndexValid → e'.IndexValid) ∧
        (gs ≠ [] → e.mGraphNamesToIndex = [] → e'.IndexValid) ∧
        (gs = [] → e' = e) := by
  intro gs
  induction gs with
  | nil =>
    intro j e h
    exact ⟨e, rfl, h, id, fun hne => absurd rfl hne, fun _ => rfl⟩
  | cons g rest ih =>
    intro j e h
    obtain ⟨e1, he1, ha1, hv1⟩ := loadGraph_aligned (answers j) g e h
    obtain ⟨e', he', ha', hv', -, -⟩ := ih (j + 1) e1 ha1
    refine ⟨e', ?_, ha', fun hv => hv' (hv1 (Or.inl hv)),
      fun _ hempty => hv' (hv1 (Or.inr hempty)), fun hnil => by simp at hnil⟩
    simp [RenderGraphEditor.loadGraphs, he1, he', bind, Except.bind]

/-- The branch of `onLoad` taken for a non-empty file path. -/
theorem onLoad_file (cfg : Build) (fuel newId : Nat) (argList : ArgList) (env : ImportEnv)
    (path : String) (e : RenderGraphEditor) (hfile : argList.graphFile = some path)
    (hpath : path ≠ "") :
    e.onLoad cfg fuel newId argList env =
      (({ e.emit [.createTextureFromFile kDefaultPassIcon, .loadAllPassLibraries] with
          mViewerRunning := true } : RenderGraphEditor).loadGraphs env.answers 0
        (if argList.graphName.getD "" ≠ "" then env.importNamed.toList else env.importAll)
        >>= fun e2 => .ok (if argList.editor then { e2 with mUpdateFilePath := path } else e2)) := by
  have hassert : assertThat cfg (decide (path ≠ "")) = .ok () := by simp [assertThat, hpath]
  unfold RenderGraphEditor.onLoad RenderGraphEditor.loadGraphsFromFile
  simp only [hfile, Option.getD_some]
  rw [if_pos hpath, hassert]
  rfl

/-- Pushing a graph under a name that is not a key keeps the keys of the map equal to the
labels of the drop-down list. -/
theorem pushGraph_namesRegistered (pGraph : RenderGraph) (name : String)
    (e : RenderGraphEditor) (h : e.NamesRegistered)
    (hnew : findName name e.mGraphNamesToIndex = none) :
    (e.pushGraph pGraph name).NamesRegistered := by
  intro x
  have hmap : insertName name (e.mpGraphs.length % 2 ^ 32) e.mGraphNamesToIndex =
      e.mGraphNamesToIndex ++ [(name, e.mpGraphs.length % 2 ^ 32)] := by
    simp [insertName, hnew]
  simp only [RenderGraphEditor.pushGraph, hmap, List.map_append, List.map_cons, List.map_nil,
    List.mem_append, List.mem_singleton]
  by_cases hx : name = x
  · subst hx
    rw [findName_append_new _ _ _ hnew]
    simp
  · rw [findName_append_other _ _ _ _ hx, h x]
    constructor
    · exact Or.inl
    · rintro (h1 | h1)
      · exact h1
      · exact absurd h1.symm hx

theorem loadGraph_namesRegistered (yes : Bool) (pGraph : RenderGraph)
    (e e' : RenderGraphEditor) (h : e.NamesRegistered) (hres : e.loadGraph yes pGraph = .ok e') :
    e'.NamesRegistered := by
  unfold RenderGraphEditor.loadGraph at hres
  cases hfind : findName pGraph.name e.mGraphNamesToIndex with
  | none =>
    simp only [hfind, Except.ok.injEq] at hres
    rw [← hres]
    exact pushGraph_namesRegistered pGraph pGraph.name e h hfind
  | some second =>
    simp only [hfind] at hres
    cases yes with
    | false =>
      simp only [Bool.false_eq_true, if_false, Except.ok.injEq] at hres
      rw [← hres]
      exact h
    | true =>
      simp only [if_true, bind_eq_ok] at hres
      obtain ⟨-, -, -, -, hres⟩ := hres
      simp only [Except.ok.injEq] at hres
      rw [← hres]
      exact h

theorem loadGraphs_namesRegistered (answers : Nat → Bool) :
    ∀ (gs : List RenderGraph) (j : Nat) (e e' : RenderGraphEditor), e.NamesRegistered →
      e.loadGraphs answers j gs = .ok e' → e'.NamesRegistered := by
  intro gs
  induction gs with
  | nil =>
    intro j e e' h hres
    simp only [RenderGraphEditor.loadGraphs, Except.ok.injEq] at hres
    rw [← hres]
    exact h
  | cons g rest ih =>
    intro j e e' h hres
    simp only [RenderGraphEditor.loadGraphs, bind_eq_ok] at hres
    obtain ⟨e1, he1, hrest⟩ := hres
    exact ih (j + 1) e1 e' (loadGraph_namesRegistered _ g e e1 h he1) hrest

theorem new_namesRegistered : RenderGraphEditor.new.NamesRegistered := by
  intro name
  simp [RenderGraphEditor.new, findName]

theorem new_aligned : RenderGraphEditor.new.Aligned := by decide

/-! ## The claims -/

/-- C1: when a device is already live (the global `gpDevice` is non-null),
`Device::create` returns no device, hands a message to `logError`, and leaves the global
pointing at the same, unchanged device: the existing instance is never replaced.  This
holds for every build, every behaviour of the platform and all arguments. -/
theorem create_rejects_second_device (cfg : Build) (K : Nat) (env : InitEnv) (live : Device)
    (pWindow : Option Window) (desc : Desc) :
    ∃ r, Device.create cfg K env (some live) pWindow desc = .ok r ∧
      r.result = none ∧ r.gpDevice = some live ∧
      r.errors = ["Falcor only supports a single device"] :=
  ⟨_, rfl, rfl, rfl, rfl⟩

/-- C3: the queue step of `executeDeferredReleases` splits the queue `q` into the popped
entries and the queue that is left, in the original order; every popped entry has stamp at
most `g`; the queue that is left is empty or starts with an entry whose stamp exceeds `g`;
no run of front entries with stamps at most `g` is longer than the popped one.  In other
words the popped entries are `takeWhile (stamp ≤ g)` and the rest is `dropWhile`.  A
returning `executeDeferredReleases` leaves exactly that rest as the queue, for the GPU value
it read from the frame fence. -/
theorem popRetired_removes_longest_retired_run (g : Nat) (q : List ResourceRelease) :
    (popRetired g q).1 ++ (popRetired g q).2 = q ∧
    (∀ e ∈ (popRetired g q).1, e.frameID ≤ g) ∧
    (∀ e rest, (popRetired g q).2 = e :: rest → g < e.frameID) ∧
    (∀ pre suf, q = pre ++ suf → (∀ e ∈ pre, e.frameID ≤ g) →
      pre.length ≤ (popRetired g q).1.length) ∧
    (popRetired g q).1 = q.takeWhile (fun e => decide (e.frameID ≤ g)) ∧
    (popRetired g q).2 = q.dropWhile (fun e => decide (e.frameID ≤ g)) ∧
    (∀ adv d d', Device.executeDeferredReleases adv d = .ok d' →
      ∃ f, d.mpFrameFence = some f ∧
        d'.mDeferredReleases = (popRetired (f.getGpuValue adv).1 d.mDeferredReleases).2) := by
  refine ⟨popRetired_append g q, popRetired_fst_le g q, popRetired_snd_head g q,
    popRetired_longest g q, by rw [popRetired_eq_takeWhile], by rw [popRetired_eq_takeWhile], ?_⟩
  intro adv d d' h
  rw [executeDeferredReleases_ok_iff] at h
  obtain ⟨f, hf, -, -, -, rfl⟩ := h
  exact ⟨f, hf, rfl⟩

/-- C4: in every state `d` that a run of `releaseResource`, `present`, `flushAndSync` and
`executeDeferredReleases` calls reaches from a device with an empty queue, the stamps in the
deferred-release queue are non-decreasing from front to back; and whenever
`executeDeferredReleases` then returns, having read the GPU value `g` from the fence, every
entry still queued has a stamp greater than `g`. -/
theorem queue_stamps_sorted_and_reclaim_complete (K : Nat) (d0 d : Device)
    (ops : List DeviceOp) (h0 : d0.mDeferredReleases = []) (hrun : d0.run K ops = .ok d) :
    StampsSorted d.mDeferredReleases ∧
      ∀ adv d', d.executeDeferredReleases adv = .ok d' →
        ∃ f, d.mpFrameFence = some f ∧
          ∀ e ∈ d'.mDeferredReleases, (f.getGpuValue adv).1 < e.frameID := by
  have hinv : QueueInv d :=
    run_queueInv K ops d0 d hrun ⟨by simp [StampsSorted, h0], by simp [h0]⟩
  refine ⟨hinv.1, ?_⟩
  intro adv d' hex
  rw [executeDeferredReleases_ok_iff] at hex
  obtain ⟨f, hf, -, -, -, rfl⟩ := hex
  refine ⟨f, hf, ?_⟩
  intro e he
  exact popRetired_snd_gt _ _ hinv.1 e (by simpa [Device.afterReclaim] using he)

/-- Witness of C4: the sample run on the sample device. -/
theorem queue_stamps_sorted_and_reclaim_complete_witness :
    (sampleDevice 2).mDeferredReleases = [] ∧
    (sampleDevice 2).run 2 sampleOps = .ok sampleAfterOps ∧
    sampleAfterOps.mDeferredReleases = [⟨1, 5⟩, ⟨2, 6⟩] ∧
    StampsSorted sampleAfterOps.mDeferredReleases ∧
      ∀ adv d', sampleAfterOps.executeDeferredReleases adv = .ok d' →
        ∃ f, sampleAfterOps.mpFrameFence = some f ∧
          ∀ e ∈ d'.mDeferredReleases, (f.getGpuValue adv).1 < e.frameID :=
  ⟨by decide, rfl, by decide,
    queue_stamps_sorted_and_reclaim_complete 2 (sampleDevice 2) sampleAfterOps sampleOps
      (by decide) rfl⟩

/-- C6: let `K ≥ 1` be the back-buffer count, `d` a reachable device state (one that a
returned `Device::create` followed by any returning run of device calls leaves), `f` its
frame fence, and `h` a non-null handle.  Then `releaseResource(h)` returns, any `N ≥ K`
following `present` calls return (none faults, no throttle wait hangs), whatever the GPU
and the platform do meanwhile, and afterwards the deferred-release queue is empty, so the
entry `(f.mCpuValue, h)` is no longer queued, and the entries destroyed since the release are
exactly the entries that were queued followed by the new one, each destroyed once. -/
theorem release_then_presents_reclaims (K : Nat) (hK : 1 ≤ K) (d : Device)
    (hd : Reachable K d) (h : ApiObjectHandle) (hh : h ≠ 0) (envs : List (Nat × Nat))
    (hN : K ≤ envs.length) :
    ∃ f d1 dN, d.mpFrameFence = some f ∧
      releaseResource (some d) h = .ok (some d1) ∧
      d1.run K (presents envs) = .ok dN ∧
      dN.mDeferredReleases = [] ∧
      (⟨f.mCpuValue, h⟩ : ResourceRelease) ∉ dN.mDeferredReleases ∧
      destroyed dN.log = destroyed d.log ++ (d.mDeferredReleases ++ [⟨f.mCpuValue, h⟩]) := by
  have hd : Ready K d := reachable_ready K hK d hd
  obtain ⟨f, hf, -⟩ := hd.2.2.2.2.1
  have hf' : d.mpFrameFence = some f := hf
  have hready := release_ready K d f h hd hf'
  obtain ⟨dN, f1, fN, removed, hf1, hfN, hrun, hreadyN, hcpu, hqueue, hlog, hdrained⟩ :=
    run_presents K hK envs _ hready
  have hf1' : f1 = f := by
    have h1 : d.mpFrameFence = some f1 := hf1
    rw [hf'] at h1
    exact (Option.some.inj h1).symm
  subst hf1'
  have hne : envs ≠ [] := by
    intro h0
    rw [h0] at hN
    simp at hN
    omega
  have hbound : ∀ e ∈ d.mDeferredReleases ++ [(⟨f1.mCpuValue, h⟩ : ResourceRelease)],
      e.frameID ≤ f1.mCpuValue := by
    obtain ⟨f2, hf2, -, hq⟩ := hready.2.2.2.2.1
    have h2 : d.mpFrameFence = some f2 := hf2
    rw [hf'] at h2
    have h3 := Option.some.inj h2
    subst h3
    exact hq
  have hempty : dN.mDeferredReleases = [] := by
    apply List.eq_nil_iff_forall_not_mem.mpr
    intro e he
    have h1 := hdrained hne e he
    have h2 : e ∈ d.mDeferredReleases ++ [(⟨f1.mCpuValue, h⟩ : ResourceRelease)] := by
      have h3 : d.mDeferredReleases ++ [(⟨f1.mCpuValue, h⟩ : ResourceRelease)]
          = removed ++ dN.mDeferredReleases := hqueue
      rw [h3]
      exact List.mem_append_right _ he
    have h3 := hbound e h2
    omega
  refine ⟨f1, _, dN, hf', releaseResource_eq d f1 h hh hf', hrun, hempty, by simp [hempty], ?_⟩
  have h3 : d.mDeferredReleases ++ [(⟨f1.mCpuValue, h⟩ : ResourceRelease)]
      = removed ++ dN.mDeferredReleases := hqueue
  rw [hempty, List.append_nil] at h3
  rw [hlog, h3]

/-- Witness of C6: two back buffers, the state the sample run ends in (two entries queued),
handle 9, and two `present` calls during which the GPU completes nothing on its own. -/
theorem release_then_presents_reclaims_witness :
    1 ≤ 2 ∧ Reachable 2 sampleAfterOps ∧ (9 : ApiObjectHandle) ≠ 0 ∧
    2 ≤ [((0 : Nat), (1 : Nat)), (0, 0)].length ∧
    ∃ f d1 dN, sampleAfterOps.mpFrameFence = some f ∧
      releaseResource (some sampleAfterOps) 9 = .ok (some d1) ∧
      d1.run 2 (presents [(0, 1), (0, 0)]) = .ok dN ∧
      dN.mDeferredReleases = [] ∧
      (⟨f.mCpuValue, 9⟩ : ResourceRelease) ∉ dN.mDeferredReleases ∧
      destroyed dN.log =
        destroyed sampleAfterOps.log ++ (sampleAfterOps.mDeferredReleases ++ [⟨f.mCpuValue, 9⟩]) :=
  have hreach : Reachable 2 sampleAfterOps :=
    ⟨sampleBuild, sampleEnv, some sampleWindow, sampleDesc, sampleDevice 2, sampleOps, rfl,
      by decide, rfl⟩
  ⟨by decide, hreach, by decide, by decide,
    release_then_presents_reclaims 2 (by decide) sampleAfterOps hreach 9 (by decide)
      [(0, 1), (0, 0)] (by decide)⟩

/-- C7, counterexample: with two back buffers, the sample device has fence CPU value 1 and
GPU value 0; `releaseResource(5)` queues `(1, 5)`.  The first `present` signals 1 and makes
the CPU value 2; when the GPU completes the signalled value before that `present` polls the
fence, the entry is reclaimed by this first `present` already.  So it is not true that the
first `K - 1` presents never reclaim the entry. -/
theorem first_present_may_reclaim :
    Reachable 2 (sampleDevice 2) ∧
    (sampleDevice 2).mpFrameFence = some ⟨7, 1, 0⟩ ∧
    releaseResource (some (sampleDevice 2)) 5 = .ok (some sampleReleased) ∧
    sampleReleased.mDeferredReleases = [⟨1, 5⟩] ∧
    sampleReleased.run 2 (presents [(1, 1)]) = .ok samplePresentedFast ∧
    samplePresentedFast.mpFrameFence = some ⟨7, 2, 1⟩ ∧
    samplePresentedFast.mDeferredReleases = [] ∧
    destroyed samplePresentedFast.log = [⟨1, 5⟩] ∧
    ¬ KeptForFirstPresents 2 := by
  have hreach : Reachable 2 (sampleDevice 2) :=
    ⟨sampleBuild, sampleEnv, some sampleWindow, sampleDesc, sampleDevice 2, [], rfl,
      by decide, rfl⟩
  refine ⟨hreach, by decide, rfl, by decide, rfl, by decide, by decide, by decide, ?_⟩
  intro hkept
  have := hkept (sampleDevice 2) sampleReleased samplePresentedFast ⟨7, 1, 0⟩ 5 [(1, 1)]
    hreach (by decide) (by decide) rfl (by decide) rfl
  revert this
  decide

/-- C7, amended: from a steady state with `K ≥ 1` back buffers, an entry `e` that is queued
when `present` is called is still queued after the call exactly when the GPU-completed value
the call leaves in the frame fence (the value its reclamation read) is below the stamp of
`e`; nothing keeps the entry for `K - 1` presents.  In the case `K = 2` with fence CPU value
1 and stamp 1: this first `present` signals 1 and makes the CPU value 2, and the next
`present` signals 2, makes the CPU value 3, and leaves the entry reclaimed whatever the GPU
and the platform do. -/
theorem present_keeps_entry_iff_gpu_behind (K : Nat) (hK : 1 ≤ K) (d : Device)
    (hd : Ready K d) (e : ResourceRelease) (he : e ∈ d.mDeferredReleases) (adv next : Nat) :
    ∃ f d' f', d.mpFrameFence = some f ∧ d.present K adv next = .ok d' ∧
      d'.mpFrameFence = some f' ∧
      (e ∈ d'.mDeferredReleases ↔ f'.gpuValue < e.frameID) ∧
      (K = 2 → f.mCpuValue = 1 → e.frameID = 1 →
        Event.fenceSignal 1 ∈ d'.log ∧ f'.mCpuValue = 2 ∧
        ∀ adv2 next2, ∃ d'' f'', d'.present K adv2 next2 = .ok d'' ∧
          d''.mpFrameFence = some f'' ∧ Event.fenceSignal 2 ∈ d''.log ∧ f''.mCpuValue = 3 ∧
          e ∉ d''.mDeferredReleases) := by
  obtain ⟨f, fbo, tex, hf, hfv, hq, hpres, hready⟩ := present_of_ready K adv next d hK hd
  have hsorted : StampsSorted d.mDeferredReleases := hd.2.2.2.2.2.1
  refine ⟨f, _, presentFence K adv f, hf, hpres, rfl, ?_, ?_⟩
  · constructor
    · intro h
      exact popRetired_snd_gt _ _ hsorted e (by simpa [Device.afterPresent] using h)
    · intro h
      have hmem : e ∈ (popRetired (presentFence K adv f).gpuValue d.mDeferredReleases).1 ++
          (popRetired (presentFence K adv f).gpuValue d.mDeferredReleases).2 := by
        rw [popRetired_append]
        exact he
      rcases List.mem_append.mp hmem with h1 | h2
      · have := popRetired_fst_le _ _ e h1
        omega
      · simpa [Device.afterPresent] using h2
  · intro hK2 hcpu hstamp
    subst hK2
    refine ⟨?_, by rw [presentFence_cpu, hcpu], ?_⟩
    · simp [Device.afterPresent, presentEvents, hcpu]
    · intro adv2 next2
      obtain ⟨f1, fbo1, tex1, hf1, -, -, hpres1, hready1⟩ :=
        present_of_ready 2 adv2 next2 _ hK hready
      have hf1' : f1 = presentFence 2 adv f := by
        simp [Device.afterPresent] at hf1
        exact hf1.symm
      subst hf1'
      refine ⟨_, presentFence 2 adv2 (presentFence 2 adv f), hpres1, rfl, ?_, ?_, ?_⟩
      · simp [Device.afterPresent, presentEvents, presentFence_cpu, hcpu]
      · rw [presentFence_cpu, presentFence_cpu, hcpu]
      · intro hmem
        have hsorted1 : StampsSorted
            (d.afterPresent 2 adv next f fbo tex).mDeferredReleases := hready.2.2.2.2.2.1
        have h1 := popRetired_snd_gt _ _ hsorted1 e
          (by simpa [Device.afterPresent] using hmem)
        have h2 := presentFence_throttled 2 adv2 (presentFence 2 adv f)
        rw [presentFence_cpu, presentFence_cpu, hcpu] at h2
        omega

/-- Witness of C7 (amended): the sample device after `releaseResource(5)`, two back
buffers, a first `present` during which the GPU completes nothing. -/
theorem present_keeps_entry_iff_gpu_behind_witness :
    1 ≤ 2 ∧ Ready 2 sampleReleased ∧
    (⟨1, 5⟩ : ResourceRelease) ∈ sampleReleased.mDeferredReleases ∧
    ∃ f d' f', sampleReleased.mpFrameFence = some f ∧ sampleReleased.present 2 0 1 = .ok d' ∧
      d'.mpFrameFence = some f' ∧
      ((⟨1, 5⟩ : ResourceRelease) ∈ d'.mDeferredReleases ↔
        f'.gpuValue < (⟨1, 5⟩ : ResourceRelease).frameID) ∧
      (2 = 2 → f.mCpuValue = 1 → (⟨1, 5⟩ : ResourceRelease).frameID = 1 →
        Event.fenceSignal 1 ∈ d'.log ∧ f'.mCpuValue = 2 ∧
        ∀ adv2 next2, ∃ d'' f'', d'.present 2 adv2 next2 = .ok d'' ∧
          d''.mpFrameFence = some f'' ∧ Event.fenceSignal 2 ∈ d''.log ∧ f''.mCpuValue = 3 ∧
          (⟨1, 5⟩ : ResourceRelease) ∉ d''.mDeferredReleases) :=
  ⟨by decide, by decide, by decide,
    present_keeps_entry_iff_gpu_behind 2 (by decide) sampleReleased (by decide) ⟨1, 5⟩
      (by decide) 0 1⟩

/-- C8: for a back-buffer count `K ≥ 1`, `present` returns from every steady state, and
whenever `present` returns, the CPU value of the frame fence (one more than before) exceeds
its GPU-completed value by at most `K`.  When the CPU value after the signal is at least
`K`, the call waits for the value `CPU value - K`: the 64-bit subtraction does not wrap (adding
`K` back gives the CPU value), the wait is in the log, and the GPU has completed that value
when the call returns.  When the CPU value is below `K`, the call logs no wait at all. -/
theorem present_throttles_cpu (K : Nat) (hK : 1 ≤ K) (d : Device) (adv next : Nat) :
    (Ready K d → ∃ d', d.present K adv next = .ok d') ∧
    ∀ d', d.present K adv next = .ok d' →
      ∃ f f' events, d.mpFrameFence = some f ∧ d'.mpFrameFence = some f' ∧
        d'.log = d.log ++ events ∧
        f'.mCpuValue = f.mCpuValue + 1 ∧
        f'.mCpuValue ≤ f'.gpuValue + K ∧
        (K ≤ f'.mCpuValue →
          wrapSub64 f'.mCpuValue K + K = f'.mCpuValue ∧
          Event.fenceWait (wrapSub64 f'.mCpuValue K) ∈ events ∧
          wrapSub64 f'.mCpuValue K ≤ f'.gpuValue) ∧
        (f'.mCpuValue < K → ∀ v, Event.fenceWait v ∉ events) := by
  constructor
  · intro hd
    obtain ⟨f, fbo, tex, -, -, -, hpres, -⟩ := present_of_ready K adv next d hK hd
    exact ⟨_, hpres⟩
  · intro d' hpres
    rw [present_ok_iff] at hpres
    obtain ⟨f, fbo, tex, hf, -, -, -, -, -, -, -, rfl⟩ := hpres
    refine ⟨f, presentFence K adv f, presentEvents K adv f d, hf, rfl, rfl,
      presentFence_cpu K adv f, presentFence_throttled K adv f, ?_, ?_⟩
    · rw [presentFence_cpu]
      intro hle
      rw [wrapSub64_of_le _ _ hle]
      refine ⟨by omega, by simp [presentEvents, hle, wrapSub64_of_le _ _ hle], ?_⟩
      have := presentFence_throttled K adv f
      rw [presentFence_cpu] at this
      omega
    · rw [presentFence_cpu]
      intro hlt v
      have : ¬ K ≤ f.mCpuValue + 1 := by omega
      simp [presentEvents, this]

/-- Witness of C8: the first `present` of the sample device with two back buffers. -/
theorem present_throttles_cpu_witness :
    1 ≤ 2 ∧
    (Ready 2 (sampleDevice 2) → ∃ d', (sampleDevice 2).present 2 0 1 = .ok d') ∧
    ∀ d', (sampleDevice 2).present 2 0 1 = .ok d' →
      ∃ f f' events, (sampleDevice 2).mpFrameFence = some f ∧ d'.mpFrameFence = some f' ∧
        d'.log = (sampleDevice 2).log ++ events ∧
        f'.mCpuValue = f.mCpuValue + 1 ∧
        f'.mCpuValue ≤ f'.gpuValue + 2 ∧
        (2 ≤ f'.mCpuValue →
          wrapSub64 f'.mCpuValue 2 + 2 = f'.mCpuValue ∧
          Event.fenceWait (wrapSub64 f'.mCpuValue 2) ∈ events ∧
          wrapSub64 f'.mCpuValue 2 ≤ f'.gpuValue) ∧
        (f'.mCpuValue < 2 → ∀ v, Event.fenceWait v ∉ events) :=
  ⟨by decide, present_throttles_cpu 2 (by decide) (sampleDevice 2) 0 1⟩

/-- C9: whenever `present` returns, the effects it has added to the log are, in this order:
the barrier that moves the colour target of the current back buffer to `Present`, the flush
of the queued commands, the platform present, the signal of the frame fence with the CPU
value `c` it had, the throttle wait when `c + 1 ≥ K` (and no wait otherwise), the reclamation
(upload heap, the read of the GPU value `g`, the destruction of the entries removed from the
front of the queue, CPU pool, GPU pool), and last the advance of the frame counter, which
has grown by exactly one.  The colour target of the slot that was current is in the
`Present` state.  In particular the signal precedes the read of the GPU value. -/
theorem present_effect_order (K adv next : Nat) (d d' : Device)
    (hp : d.present K adv next = .ok d') :
    ∃ f f' removed fbo tex, d.mpFrameFence = some f ∧ d'.mpFrameFence = some f' ∧
      d'.log = d.log ++
        ([Event.resourceBarrier d.mCurrentBackBufferIndex .Present, Event.flush false,
            Event.apiPresent, Event.fenceSignal f.mCpuValue]
          ++ (if K ≤ f.mCpuValue + 1 then [Event.fenceWait (wrapSub64 (f.mCpuValue + 1) K)]
              else [])
          ++ [Event.uploadHeapReclaim, Event.readGpuValue f'.gpuValue]
          ++ removed.map Event.destroy
          ++ [Event.cpuPoolReclaim, Event.gpuPoolReclaim, Event.frameAdvance]) ∧
      d.mDeferredReleases = removed ++ d'.mDeferredReleases ∧
      d'.mFrameID = d.mFrameID + 1 ∧
      d'.mpSwapChainFbos.get? d.mCurrentBackBufferIndex = some (some fbo) ∧
      fbo.colorTarget0 = some tex ∧ tex.mGlobalState = .Present := by
  rw [present_ok_iff] at hp
  obtain ⟨f, fbo, tex, hf, -, hslot, -, -, -, -, -, rfl⟩ := hp
  have hlt : d.mCurrentBackBufferIndex < d.mpSwapChainFbos.length := by
    rcases Nat.lt_or_ge d.mCurrentBackBufferIndex d.mpSwapChainFbos.length with h | h
    · exact h
    · rw [List.get?_eq_none.mpr h] at hslot
      simp at hslot
  refine ⟨f, presentFence K adv f,
    (popRetired (presentFence K adv f).gpuValue d.mDeferredReleases).1,
    fbo.attachColorTarget (some (tex.setGlobalState .Present)), tex.setGlobalState .Present,
    hf, rfl, rfl, (popRetired_append _ _).symm, rfl, ?_, rfl, rfl⟩
  simp [Device.afterPresent, List.get?_eq_getElem?, hlt]

/-- Witness of C9: the `present` that follows the sample release. -/
theorem present_effect_order_witness :
    sampleReleased.present 2 0 1 = .ok samplePresentedSlow ∧
    ∃ f f' removed fbo tex, sampleReleased.mpFrameFence = some f ∧
      samplePresentedSlow.mpFrameFence = some f' ∧
      samplePresentedSlow.log = sampleReleased.log ++
        ([Event.resourceBarrier sampleReleased.mCurrentBackBufferIndex .Present,
            Event.flush false, Event.apiPresent, Event.fenceSignal f.mCpuValue]
          ++ (if 2 ≤ f.mCpuValue + 1 then [Event.fenceWait (wrapSub64 (f.mCpuValue + 1) 2)]
              else [])
          ++ [Event.uploadHeapReclaim, Event.readGpuValue f'.gpuValue]
          ++ removed.map Event.destroy
          ++ [Event.cpuPoolReclaim, Event.gpuPoolReclaim, Event.frameAdvance]) ∧
      sampleReleased.mDeferredReleases = removed ++ samplePresentedSlow.mDeferredReleases ∧
      samplePresentedSlow.mFrameID = sampleReleased.mFrameID + 1 ∧
      samplePresentedSlow.mpSwapChainFbos.get? sampleReleased.mCurrentBackBufferIndex
        = some (some fbo) ∧
      fbo.colorTarget0 = some tex ∧ tex.mGlobalState = .Present :=
  ⟨rfl, present_effect_order 2 0 1 sampleReleased samplePresentedSlow rfl⟩

/-- C10: when no device is live and `apiInit` fails (in a build with assertions, for a
description that passes the assertion on the Direct queue count), `Device::create` returns
no device and leaves the global `gpDevice` null: no partially initialised device stays
live.  A later `Device::create` therefore meets a null global, behaves as in a fresh
process and, when it returns, has not logged the single-instance error. -/
theorem create_resets_global_when_apiInit_fails (cfg : Build) (K : Nat) (env : InitEnv)
    (pWindow : Option Window) (desc : Desc) (hfail : env.apiInit = false)
    (hassert : cfg.asserts = true → 0 < desc.cmdQueues.direct) :
    ∃ r, Device.create cfg K env none pWindow desc = .ok r ∧
      r.result = none ∧ r.gpDevice = none ∧
      ∀ env2 pWindow2 desc2,
        Device.create cfg K env2 r.gpDevice pWindow2 desc2 =
          Device.create cfg K env2 none pWindow2 desc2 ∧
        ∀ r2, Device.create cfg K env2 r.gpDevice pWindow2 desc2 = .ok r2 →
          r2.errors = [] ∧ r2.result = r2.gpDevice := by
  have hcreate : Device.create cfg K env none pWindow desc = .ok ⟨none, none, []⟩ := by
    have hass : assertThat cfg (decide ((Device.new K pWindow desc).mDesc.cmdQueues.direct > 0))
        = .ok () := by
      unfold assertThat
      by_cases ha : cfg.asserts = true
      · have := hassert ha
        simp [Device.new, this]
      · simp [ha]
    simp [Device.create, Device.init, hass, Device.apiInit, hfail, bind, Except.bind]
  refine ⟨_, hcreate, rfl, rfl, ?_⟩
  intro env2 pWindow2 desc2
  refine ⟨rfl, ?_⟩
  intro r2 h2
  simp only [Device.create, bind_eq_ok] at h2
  obtain ⟨p, -, hp⟩ := h2
  simp only [Except.ok.injEq] at hp
  subst hp
  exact ⟨rfl, rfl⟩

/-- Witness of C10: the sample inputs on a platform whose `apiInit` fails; a second
`Device::create` on the sample platform then returns a device. -/
theorem create_resets_global_when_apiInit_fails_witness :
    sampleFailingEnv.apiInit = false ∧
    (sampleBuild.asserts = true → 0 < sampleDesc.cmdQueues.direct) ∧
    (∃ r, Device.create sampleBuild 2 sampleFailingEnv none (some sampleWindow) sampleDesc
        = .ok r ∧
      r.result = none ∧ r.gpDevice = none ∧
      ∀ env2 pWindow2 desc2,
        Device.create sampleBuild 2 env2 r.gpDevice pWindow2 desc2 =
          Device.create sampleBuild 2 env2 none pWindow2 desc2 ∧
        ∀ r2, Device.create sampleBuild 2 env2 r.gpDevice pWindow2 desc2 = .ok r2 →
          r2.errors = [] ∧ r2.result = r2.gpDevice) ∧
    Device.create sampleBuild 2 sampleEnv none (some sampleWindow) sampleDesc =
      .ok ⟨some (sampleDevice 2), some (sampleDevice 2), []⟩ :=
  ⟨rfl, by decide,
    create_resets_global_when_apiInit_fails sampleBuild 2 sampleFailingEnv (some sampleWindow)
      sampleDesc rfl (by decide),
    rfl⟩

/-- C11, the code at the failing input: on a platform where `apiInit` succeeds and
`RenderContext::create` yields no context, `Device::init` only skips the flush, finishes
and returns true, and `Device::create` hands out a device whose render context is null
(for every build, back-buffer count, window and description with a Direct queue).  On the
sample inputs that device is live in `gpDevice`, and its first `present` dereferences the
null render context. -/
theorem create_without_render_context_yields_device :
    (∀ (cfg : Build) (K : Nat) (env : InitEnv) (w : Window) (desc : Desc),
      env.apiInit = true → env.renderContext = false → 0 < desc.cmdQueues.direct →
      ∃ d, Device.create cfg K env none (some w) desc = .ok ⟨some d, some d, []⟩ ∧
        d.mpRenderContext = none) ∧
    sampleNoContextEnv.renderContext = false ∧
    Device.create sampleBuild 2 sampleNoContextEnv none (some sampleWindow) sampleDesc =
      .ok ⟨some sampleNoContextDevice, some sampleNoContextDevice, []⟩ ∧
    sampleNoContextDevice.mpRenderContext = none ∧
    sampleNoContextDevice.present 2 0 0 = .error .nullDeref := by
  refine ⟨?_, rfl, rfl, by decide, rfl⟩
  intro cfg K env w desc hapi hctx hq
  obtain ⟨d, hinit, hnone⟩ := init_without_context cfg K env w desc hapi hctx hq
  exact ⟨d, by simp [Device.create, hinit, bind, Except.bind], hnone⟩

/-- C12, counterexample: for the sample description with the Direct queue count set to
zero, `Device::create` does not return "no device": in the build with assertions the
assertion of `Device::init` fails, in the build without assertions initialisation proceeds
through `apiInit` and then indexes the empty vector of Direct queues. -/
theorem create_with_zero_direct_queues_does_not_return :
    sampleZeroQueueDesc.cmdQueues.direct = 0 ∧
    Device.create sampleBuild 2 sampleEnv none (some sampleWindow) sampleZeroQueueDesc =
      .error .assertion ∧
    Device.create sampleReleaseBuild 2 sampleEnv none (some sampleWindow) sampleZeroQueueDesc =
      .error .outOfRange ∧
    ¬ FailsAsConfigurationError sampleBuild 2 sampleEnv (some sampleWindow) sampleZeroQueueDesc ∧
    ¬ FailsAsConfigurationError sampleReleaseBuild 2 sampleEnv (some sampleWindow)
        sampleZeroQueueDesc := by
  have h1 : Device.create sampleBuild 2 sampleEnv none (some sampleWindow) sampleZeroQueueDesc =
      .error .assertion := rfl
  have h2 : Device.create sampleReleaseBuild 2 sampleEnv none (some sampleWindow)
      sampleZeroQueueDesc = .error .outOfRange := rfl
  refine ⟨rfl, h1, h2, ?_, ?_⟩
  · rintro ⟨r, hr, -⟩
    rw [h1] at hr
    cases hr
  · rintro ⟨r, hr, -⟩
    rw [h2] at hr
    cases hr

/-- C12, amended: for every device description that requests zero Direct command queues,
in a build that checks assertions `Device::create` does not return a device: the assertion
at the start of `Device::init` fails, before `apiInit` or any other initialisation step
runs (the outcome does not depend on the platform). -/
theorem create_with_zero_direct_queues_asserts (cfg : Build) (K : Nat) (env : InitEnv)
    (pWindow : Option Window) (desc : Desc) (hzero : desc.cmdQueues.direct = 0)
    (hassert : cfg.asserts = true) :
    Device.create cfg K env none pWindow desc = .error .assertion := by
  simp [Device.create, Device.init, assertThat, Device.new, hzero, hassert, bind, Except.bind]

/-- Witness of C12 (amended): the sample description with no Direct queue, in the sample
build, which checks assertions. -/
theorem create_with_zero_direct_queues_asserts_witness :
    sampleZeroQueueDesc.cmdQueues.direct = 0 ∧ sampleBuild.asserts = true ∧
    Device.create sampleBuild 2 sampleFailingEnv none (some sampleWindow) sampleZeroQueueDesc =
      .error .assertion :=
  ⟨rfl, rfl,
    create_with_zero_direct_queues_asserts sampleBuild 2 sampleFailingEnv (some sampleWindow)
      sampleZeroQueueDesc rfl rfl⟩

/-- C15: whenever `cleanup` returns, the effects it has added to the log are, in this order:
full-screen off, the blocking flush, the clearing of the command queues, the reset of the
swap-chain framebuffers, the destruction of every queued deferred release, the release of
the null views, the reset of the render context, of the upload heap, of the CPU and the GPU
descriptor pool and of the frame fence, the destruction of the platform objects, and the
reset of the window.  So no heap, pool or fence is released before the queues and the
framebuffers, and the platform objects are destroyed after all of them. -/
theorem cleanup_effect_order (K : Nat) (d d' : Device) (h : d.cleanup K = .ok d') :
    d'.log = d.log ++
      ([Event.toggleFullScreen false, Event.flush true, Event.release .cmdQueues,
          Event.release .swapChainFbos]
        ++ d.mDeferredReleases.map Event.destroy
        ++ [Event.releaseNullViews, Event.release .renderContext, Event.release .uploadHeap,
          Event.release .cpuDescPool, Event.release .gpuDescPool, Event.release .frameFence,
          Event.destroyApiObjects, Event.release .window]) ∧
    d'.mCmdQueues = ⟨[], [], []⟩ ∧ d'.mpRenderContext = none ∧ d'.mpUploadHeap = none ∧
    d'.mpCpuDescPool = none ∧ d'.mpGpuDescPool = none ∧ d'.mpFrameFence = none ∧
    d'.mpWindow = none := by
  rw [cleanup_ok_iff] at h
  obtain ⟨-, rfl⟩ := h
  exact ⟨rfl, rfl, rfl, rfl, rfl, rfl, rfl, rfl⟩

/-- Witness of C15: `cleanup` of the state the sample run ends in. -/
theorem cleanup_effect_order_witness :
    sampleAfterOps.cleanup 2 = .ok sampleCleaned ∧
    sampleCleaned.log = sampleAfterOps.log ++
      ([Event.toggleFullScreen false, Event.flush true, Event.release .cmdQueues,
          Event.release .swapChainFbos]
        ++ sampleAfterOps.mDeferredReleases.map Event.destroy
        ++ [Event.releaseNullViews, Event.release .renderContext, Event.release .uploadHeap,
          Event.release .cpuDescPool, Event.release .gpuDescPool, Event.release .frameFence,
          Event.destroyApiObjects, Event.release .window]) ∧
    sampleCleaned.mCmdQueues = ⟨[], [], []⟩ ∧ sampleCleaned.mpRenderContext = none ∧
    sampleCleaned.mpUploadHeap = none ∧ sampleCleaned.mpCpuDescPool = none ∧
    sampleCleaned.mpGpuDescPool = none ∧ sampleCleaned.mpFrameFence = none ∧
    sampleCleaned.mpWindow = none :=
  ⟨rfl, cleanup_effect_order 2 sampleAfterOps sampleCleaned rfl⟩

/-- C16: `cleanup` returns from every device with a render context, and whenever it
returns the deferred-release queue is empty and every entry that was queued has been
destroyed, whatever its stamp and whatever the GPU value of the fence: the log gains the
destruction of the whole queue, in order, after a part that contains the blocking flush. -/
theorem cleanup_drains_queue_unconditionally (K : Nat) (d : Device) :
    (d.mpRenderContext.isSome → ∃ d', d.cleanup K = .ok d') ∧
    ∀ d', d.cleanup K = .ok d' →
      d'.mDeferredReleases = [] ∧
      destroyed d'.log = destroyed d.log ++ d.mDeferredReleases ∧
      ∃ before after, d'.log = d.log ++ (before ++ d.mDeferredReleases.map Event.destroy ++ after) ∧
        Event.flush true ∈ before ∧ destroyed before = [] := by
  constructor
  · intro hctx
    exact ⟨_, (cleanup_ok_iff K d _).mpr ⟨hctx, rfl⟩⟩
  · intro d' h
    rw [cleanup_ok_iff] at h
    obtain ⟨-, rfl⟩ := h
    refine ⟨rfl, ?_, _, _, rfl, by simp, by simp [destroyed]⟩
    simp [Device.afterCleanup, destroyed_append, destroyed_cleanupEvents]

/-- Witness of C16: the state the sample run ends in holds the entries `(1, 5)` and
`(2, 6)` while the GPU value of its fence is 0; `cleanup` returns with the queue empty and
both entries destroyed. -/
theorem cleanup_drains_queue_unconditionally_witness :
    sampleAfterOps.mDeferredReleases = [⟨1, 5⟩, ⟨2, 6⟩] ∧
    sampleAfterOps.mpFrameFence = some ⟨7, 2, 0⟩ ∧
    sampleAfterOps.cleanup 2 = .ok sampleCleaned ∧
    sampleCleaned.mDeferredReleases = [] ∧
    destroyed sampleCleaned.log = destroyed sampleAfterOps.log ++ sampleAfterOps.mDeferredReleases :=
  have h := (cleanup_drains_queue_unconditionally 2 sampleAfterOps).2 sampleCleaned rfl
  ⟨by decide, by decide, rfl, h.1, h.2.1⟩

/-- C17, the code at the failing input: `cleanup` of the state the sample run ends in
returns a device whose frame fence pointer is null; `releaseResource(5)` on that device
dereferences the null fence.  The same holds for every device with a null fence and every
non-null handle.  Only a call through a null device pointer is a no-op. -/
theorem releaseResource_after_cleanup_dereferences_fence :
    sampleAfterOps.cleanup 2 = .ok sampleCleaned ∧
    sampleCleaned.mpFrameFence = none ∧
    releaseResource (some sampleCleaned) 5 = .error .nullDeref ∧
    (∀ (d : Device) (h : ApiObjectHandle), h ≠ 0 → d.mpFrameFence = none →
      releaseResource (some d) h = .error .nullDeref) ∧
    (∀ h : ApiObjectHandle, releaseResource none h = .ok none) := by
  refine ⟨rfl, by decide, rfl, ?_, ?_⟩
  · intro d h hh hf
    simp [releaseResource, hh, hf, deref, bind, Except.bind]
  · intro h
    by_cases hh : h = 0 <;> simp [releaseResource, hh]

/-- C19: whenever `Device::init` succeeds, in either build, the GPU-visible descriptor pool
is configured with exactly 1,000,000 `TextureSrv` and exactly 2,048 `Sampler` descriptors
and is shader-visible, the upload heap has exactly `2 * 1024 * 1024` bytes, and both pools
and the heap were created with the one frame fence of the device. -/
theorem init_fixes_descriptor_capacities (cfg : Build) (K : Nat) (env : InitEnv)
    (d0 d : Device) (h : d0.init cfg K env = .ok (true, d)) :
    ∃ fence gpuPool cpuPool heap,
      d.mpFrameFence = some fence ∧ d.mpGpuDescPool = some gpuPool ∧
      d.mpCpuDescPool = some cpuPool ∧ d.mpUploadHeap = some heap ∧
      gpuPool.desc.getDescCount .TextureSrv = 1000000 ∧
      gpuPool.desc.getDescCount .Sampler = 2048 ∧
      gpuPool.desc.mShaderVisible = true ∧
      heap.size = 2 * 1024 * 1024 ∧
      gpuPool.fenceId = fence.id ∧ cpuPool.fenceId = fence.id ∧ heap.fenceId = fence.id := by
  obtain ⟨-, hf, hg, hc, hh, -⟩ := init_true_fields cfg K env d0 d h
  obtain ⟨h1, h2, -, -, h5⟩ := gpuPoolDesc_counts cfg
  exact ⟨_, _, _, _, hf, hg, hc, hh, h1, h2, h5, rfl, rfl, rfl, rfl⟩

/-- Witness of C19: `Device::init` on the sample inputs. -/
theorem init_fixes_descriptor_capacities_witness :
    (Device.new 2 (some sampleWindow) sampleDesc).init sampleBuild 2 sampleEnv =
      .ok (true, sampleInit.2) ∧
    ∃ fence gpuPool cpuPool heap,
      sampleInit.2.mpFrameFence = some fence ∧ sampleInit.2.mpGpuDescPool = some gpuPool ∧
      sampleInit.2.mpCpuDescPool = some cpuPool ∧ sampleInit.2.mpUploadHeap = some heap ∧
      gpuPool.desc.getDescCount .TextureSrv = 1000000 ∧
      gpuPool.desc.getDescCount .Sampler = 2048 ∧
      gpuPool.desc.mShaderVisible = true ∧
      heap.size = 2 * 1024 * 1024 ∧
      gpuPool.fenceId = fence.id ∧ cpuPool.fenceId = fence.id ∧ heap.fenceId = fence.id :=
  ⟨rfl, init_fixes_descriptor_capacities sampleBuild 2 sampleEnv
    (Device.new 2 (some sampleWindow) sampleDesc) sampleInit.2 rfl⟩

/-- C20, counterexample: in the device `Device::create` returns on the sample inputs the
CPU-only pool is configured with 1,000,000 `TextureSrv` and 2,048 `Sampler` descriptors,
like the GPU-visible pool, plus 16,384 `Rtv` and 1,024 `Dsv`: 1,019,456 descriptors against
the 1,002,048 of the GPU-visible pool.  It is not sized smaller. -/
theorem cpu_pool_is_not_smaller :
    (sampleDevice 2).mpCpuDescPool = some ⟨cpuPoolDesc sampleBuild, 7⟩ ∧
    (sampleDevice 2).mpGpuDescPool = some ⟨gpuPoolDesc sampleBuild, 7⟩ ∧
    (cpuPoolDesc sampleBuild).getDescCount .TextureSrv = 1000000 ∧
    (cpuPoolDesc sampleBuild).getDescCount .Sampler = 2048 ∧
    (cpuPoolDesc sampleBuild).getTotalDescCount = 1019456 ∧
    (gpuPoolDesc sampleBuild).getTotalDescCount = 1002048 ∧
    ¬ CpuPoolSmaller sampleBuild := by
  refine ⟨by decide, by decide, by decide, by decide, by decide, by decide, ?_⟩
  intro h
  have h1 := h.1
  have h2 : (cpuPoolDesc sampleBuild).getTotalDescCount = 1019456 := by decide
  have h3 : (gpuPoolDesc sampleBuild).getTotalDescCount = 1002048 := by decide
  omega

/-- C20, amended: whenever `Device::init` succeeds, the CPU-only descriptor pool is
configured from the description of the GPU-visible pool with shader visibility off and with
`16 * 1024` `Rtv` and `1024` `Dsv` descriptors added (the GPU-visible pool has none of
these): for every other type its count equals that of the GPU-visible pool, and its total
exceeds the total of the GPU-visible pool by 17,408. -/
theorem cpu_pool_extends_gpu_pool (cfg : Build) (K : Nat) (env : InitEnv) (d0 d : Device)
    (h : d0.init cfg K env = .ok (true, d)) :
    ∃ gpuPool cpuPool, d.mpGpuDescPool = some gpuPool ∧ d.mpCpuDescPool = some cpuPool ∧
      cpuPool.desc.mShaderVisible = false ∧
      cpuPool.desc.getDescCount .Rtv = 16 * 1024 ∧ cpuPool.desc.getDescCount .Dsv = 1024 ∧
      gpuPool.desc.getDescCount .Rtv = 0 ∧ gpuPool.desc.getDescCount .Dsv = 0 ∧
      (∀ t, t ≠ PoolType.Rtv → t ≠ PoolType.Dsv →
        cpuPool.desc.getDescCount t = gpuPool.desc.getDescCount t) ∧
      cpuPool.desc.getTotalDescCount = gpuPool.desc.getTotalDescCount + 17408 := by
  obtain ⟨-, -, hg, hc, -⟩ := init_true_fields cfg K env d0 d h
  obtain ⟨-, -, g3, g4, -⟩ := gpuPoolDesc_counts cfg
  obtain ⟨c1, c2, c3, c4, c5⟩ := cpuPoolDesc_counts cfg
  exact ⟨_, _, hg, hc, c3, c1, c2, g3, g4, c4, c5⟩

/-- Witness of C20 (amended): `Device::init` on the sample inputs. -/
theorem cpu_pool_extends_gpu_pool_witness :
    (Device.new 2 (some sampleWindow) sampleDesc).init sampleBuild 2 sampleEnv =
      .ok (true, sampleInit.2) ∧
    ∃ gpuPool cpuPool, sampleInit.2.mpGpuDescPool = some gpuPool ∧
      sampleInit.2.mpCpuDescPool = some cpuPool ∧
      cpuPool.desc.mShaderVisible = false ∧
      cpuPool.desc.getDescCount .Rtv = 16 * 1024 ∧ cpuPool.desc.getDescCount .Dsv = 1024 ∧
      gpuPool.desc.getDescCount .Rtv = 0 ∧ gpuPool.desc.getDescCount .Dsv = 0 ∧
      (∀ t, t ≠ PoolType.Rtv → t ≠ PoolType.Dsv →
        cpuPool.desc.getDescCount t = gpuPool.desc.getDescCount t) ∧
      cpuPool.desc.getTotalDescCount = gpuPool.desc.getTotalDescCount + 17408 :=
  ⟨rfl, cpu_pool_extends_gpu_pool sampleBuild 2 sampleEnv
    (Device.new 2 (some sampleWindow) sampleDesc) sampleInit.2 rfl⟩

/-- C18: take a device whose frame fence `f` has a GPU value below its CPU value, and any
run of `releaseResource`, `present`, `flushAndSync` and `executeDeferredReleases` calls that
returns.  The CPU value of the fence afterwards is the one before plus the number of
`present` and `flushAndSync` calls of the run (one per call, so it never decreases); the
GPU value has not decreased and is at most the highest value signalled; and every GPU value
that reclamation read during the run is at least the value read before it and at most the
highest value signalled up to that read. -/
theorem fence_values_monotone_over_runs (K : Nat) (d d' : Device) (ops : List DeviceOp)
    (f : GpuFence) (hf : d.mpFrameFence = some f) (hv : f.gpuValue < f.mCpuValue)
    (hrun : d.run K ops = .ok d') :
    ∃ f' events, d'.mpFrameFence = some f' ∧ d'.log = d.log ++ events ∧
      f'.mCpuValue = f.mCpuValue + signals ops ∧ f.mCpuValue ≤ f'.mCpuValue ∧
      f.gpuValue ≤ f'.gpuValue ∧ f'.gpuValue ≤ f'.lastSignaled ∧
      ReadsWithin f.gpuValue f.lastSignaled events ∧
      highestSignal f.lastSignaled events = f'.lastSignaled := by
  obtain ⟨f', events, hf', hlog, hc, -, hg, hv', hr, -, hh⟩ :=
    run_fence K ops d d' f f.gpuValue hrun hf hv (le_refl _)
  refine ⟨f', events, hf', hlog, hc, by omega, hg, ?_, hr, hh⟩
  simp only [GpuFence.lastSignaled]
  omega

/-- Witness of C18: the sample run on the sample device, whose fence starts with CPU value
1 and GPU value 0; the run contains one `present`. -/
theorem fence_values_monotone_over_runs_witness :
    (sampleDevice 2).mpFrameFence = some ⟨7, 1, 0⟩ ∧
    (⟨7, 1, 0⟩ : GpuFence).gpuValue < (⟨7, 1, 0⟩ : GpuFence).mCpuValue ∧
    (sampleDevice 2).run 2 sampleOps = .ok sampleAfterOps ∧
    signals sampleOps = 1 ∧
    ∃ f' events, sampleAfterOps.mpFrameFence = some f' ∧
      sampleAfterOps.log = (sampleDevice 2).log ++ events ∧
      f'.mCpuValue = (⟨7, 1, 0⟩ : GpuFence).mCpuValue + signals sampleOps ∧
      (⟨7, 1, 0⟩ : GpuFence).mCpuValue ≤ f'.mCpuValue ∧
      (⟨7, 1, 0⟩ : GpuFence).gpuValue ≤ f'.gpuValue ∧ f'.gpuValue ≤ f'.lastSignaled ∧
      ReadsWithin (⟨7, 1, 0⟩ : GpuFence).gpuValue (⟨7, 1, 0⟩ : GpuFence).lastSignaled events ∧
      highestSignal (⟨7, 1, 0⟩ : GpuFence).lastSignaled events = f'.lastSignaled :=
  ⟨by decide, by decide, rfl, by decide,
    fence_values_monotone_over_runs 2 (sampleDevice 2) sampleAfterOps sampleOps ⟨7, 1, 0⟩
      (by decide) (by decide) rfl⟩

/-- C13, counterexample: in the build for the other backend (`FALCOR_D3D12` not defined),
the sample device has presented once, so the colour texture of framebuffer 0 is in the
`Present` state; `resizeSwapChain` with the current size 1920 x 1080 returns with that
colour texture in the `Undefined` state.  The state is not preserved. -/
theorem resizeSwapChain_resets_states_without_d3d12 :
    sampleVulkanBuild.d3d12 = false ∧
    Device.create sampleVulkanBuild 2 sampleEnv none (some sampleWindow) sampleDesc =
      .ok ⟨some sampleVulkanDevice, some sampleVulkanDevice, []⟩ ∧
    sampleVulkanDevice.present 2 0 1 = .ok sampleVulkanPresented ∧
    sampleVulkanPresented.mpSwapChainFbos.length = 2 ∧
    CurrentSize sampleVulkanPresented 1920 1080 ∧
    colorStateAt sampleVulkanPresented.mpSwapChainFbos 0 = some .Present ∧
    sampleVulkanPresented.resizeSwapChain sampleVulkanBuild 2 sampleEnv.swapChain 1920 1080 =
      .ok sampleVulkanResized ∧
    colorStateAt sampleVulkanResized.2.mpSwapChainFbos 0 = some .Undefined ∧
    ¬ PreservesStates sampleVulkanBuild 2 sampleEnv.swapChain := by
  have hsize : CurrentSize sampleVulkanPresented 1920 1080 :=
    ⟨_, _, rfl, rfl, rfl, rfl⟩
  refine ⟨rfl, rfl, rfl, by decide, hsize, by decide, rfl, by decide, ?_⟩
  intro hpres
  have := (hpres sampleVulkanPresented sampleVulkanResized 1920 1080 (by decide) hsize rfl 0
    (by decide)).1
  revert this
  decide

/-- C13, amended: whenever `resizeSwapChain` returns on a device with `K` framebuffer slots,
for any width and height (the current ones included): in a build for D3D12 the colour
texture of every framebuffer has the global state it had before the call, and so has the
depth-stencil texture of every framebuffer that has one; in a build for another backend
the textures of every framebuffer are new ones in the `Undefined` state. -/
theorem resizeSwapChain_preserves_states_on_d3d12 (cfg : Build) (K : Nat) (env : SwapChainEnv)
    (width height : Nat) (d : Device) (r : Option Fbo × Device)
    (hlen : d.mpSwapChainFbos.length = K)
    (hres : d.resizeSwapChain cfg K env width height = .ok r) :
    ∀ i, i < K →
      colorStateAt r.2.mpSwapChainFbos i ≠ none ∧
      (cfg.d3d12 = true →
        colorStateAt r.2.mpSwapChainFbos i = colorStateAt d.mpSwapChainFbos i ∧
        (depthStateAt r.2.mpSwapChainFbos i ≠ none →
          depthStateAt r.2.mpSwapChainFbos i = depthStateAt d.mpSwapChainFbos i)) ∧
      (cfg.d3d12 = false →
        colorStateAt r.2.mpSwapChainFbos i = some .Undefined ∧
        (depthStateAt r.2.mpSwapChainFbos i ≠ none →
          depthStateAt r.2.mpSwapChainFbos i = some .Undefined)) := by
  obtain ⟨fbo0, color0, -, -, -, -, hslots⟩ :=
    resizeSwapChain_slots cfg K env width height d r hres hlen
  intro i hi
  obtain ⟨hv, hd⟩ := hslots i hi
  cases hb : cfg.d3d12 with
  | false =>
    have h := hv hb
    rw [colorStateAt_of_get _ _ _ h, depthStateAt_of_get _ _ _ h]
    refine ⟨?_, fun hb' => (by cases hb'), fun _ => ?_⟩
    · simp [freshFbo]
    · refine ⟨by simp [freshFbo, Texture.new], ?_⟩
      by_cases hdf : fbo0.depthFormat = .Unknown
      · simp [freshFbo, hdf]
      · simp [freshFbo, hdf, Texture.new]
  | true =>
    obtain ⟨fboB, colorB, p', hB1, hB2, hp', fbo, color, fbo', hf1, hf2, hf3, hf4, hf5⟩ := hd hb
    subst hf3
    have hfresh := Option.some.inj hf1
    rw [colorStateAt_of_get _ _ _ hp', depthStateAt_of_get _ _ _ hp',
      colorStateAt_of_get _ _ _ hB1, depthStateAt_of_get _ _ _ hB1]
    refine ⟨by simp [hf4], fun _ => ⟨?_, ?_⟩, fun hb' => (by cases hb')⟩
    · simp [hf4, hB2, Texture.setGlobalState]
    · rcases hf5 with ⟨-, hnone⟩ | ⟨t, st, -, hst, hsome⟩
      · simp [hnone]
      · intro _
        simp only at hst
        simp [hsome, hst, Texture.setGlobalState]

/-- Witness of C13 (amended): the sample device in the D3D12 build, after one `present`
(framebuffer 0 in the `Present` state), resized to its current size. -/
theorem resizeSwapChain_preserves_states_on_d3d12_witness :
    samplePresentedSlow.mpSwapChainFbos.length = 2 ∧
    samplePresentedSlow.resizeSwapChain sampleBuild 2 sampleEnv.swapChain 1920 1080 =
      .ok sampleD3dResized ∧
    colorStateAt samplePresentedSlow.mpSwapChainFbos 0 = some .Present ∧
    colorStateAt sampleD3dResized.2.mpSwapChainFbos 0 = some .Present ∧
    ∀ i, i < 2 →
      colorStateAt sampleD3dResized.2.mpSwapChainFbos i ≠ none ∧
      (sampleBuild.d3d12 = true →
        colorStateAt sampleD3dResized.2.mpSwapChainFbos i =
          colorStateAt samplePresentedSlow.mpSwapChainFbos i ∧
        (depthStateAt sampleD3dResized.2.mpSwapChainFbos i ≠ none →
          depthStateAt sampleD3dResized.2.mpSwapChainFbos i =
            depthStateAt samplePresentedSlow.mpSwapChainFbos i)) ∧
      (sampleBuild.d3d12 = false →
        colorStateAt sampleD3dResized.2.mpSwapChainFbos i = some .Undefined ∧
        (depthStateAt sampleD3dResized.2.mpSwapChainFbos i ≠ none →
          depthStateAt sampleD3dResized.2.mpSwapChainFbos i = some .Undefined)) :=
  ⟨by decide, rfl, by decide, by decide,
    resizeSwapChain_preserves_states_on_d3d12 sampleBuild 2 sampleEnv.swapChain 1920 1080
      samplePresentedSlow sampleD3dResized (by decide) rfl⟩

/-- C21, the code at the failing inputs: the sample buffer has 16 bytes.  With logging
enabled, `setBlob(src, 2^64 - 8, 16)` passes the size test, because the `size_t` sum wraps
to 8, and goes on to the `memcpy`, which leaves the buffer; with logging disabled the test
is compiled out and `setBlob(src, 8, 16)` reaches the same `memcpy`.  In general: without
logging every call whose sum exceeds the buffer size runs the out-of-range `memcpy`, and
so does, with logging, every call whose wrapped sum does not exceed it; only with logging
and a sum that does not wrap is the call ignored (false returned, data and flags kept). -/
theorem setBlob_out_of_range_reaches_memcpy :
    sampleBuffer.mSize = 16 ∧ sampleBuffer.mData.length = 16 ∧
    wrapAdd64 (2 ^ 64 - 8) 16 = 8 ∧
    sampleBuffer.setBlob true sampleBlob (2 ^ 64 - 8) 16 = .error .outOfRange ∧
    sampleBuffer.setBlob false sampleBlob 8 16 = .error .outOfRange ∧
    (∀ (b : TypedBufferBase) (pSrc : List Nat) (offset size : Nat),
      b.mData.length = b.mSize → b.mSize < offset + size →
      b.setBlob false pSrc offset size = .error .outOfRange) ∧
    (∀ (b : TypedBufferBase) (pSrc : List Nat) (offset size : Nat),
      b.mData.length = b.mSize → b.mSize < offset + size → wrapAdd64 offset size ≤ b.mSize →
      b.setBlob true pSrc offset size = .error .outOfRange) ∧
    (∀ (b : TypedBufferBase) (pSrc : List Nat) (offset size : Nat),
      b.mSize < offset + size → offset + size < 2 ^ 64 →
      b.setBlob true pSrc offset size =
        .ok (false, { b with errors := b.errors ++ [setBlobMessage b.mName] })) := by
  refine ⟨by decide, by decide, by decide, rfl, rfl, ?_, ?_, ?_⟩
  · intro b pSrc offset size hwf hgt
    simp only [TypedBufferBase.setBlob, Bool.false_and, Bool.false_eq_true, if_false]
    rw [memcpyInto_fault _ _ _ _ (by omega)]
    rfl
  · intro b pSrc offset size hwf hgt hwrap
    have hc : ¬ b.mSize < wrapAdd64 offset size := by omega
    simp only [TypedBufferBase.setBlob, Bool.true_and, decide_eq_true_eq, gt_iff_lt, hc,
      if_false]
    rw [memcpyInto_fault _ _ _ _ (by omega)]
    rfl
  · intro b pSrc offset size hgt hfit
    have hw : wrapAdd64 offset size = offset + size := Nat.mod_eq_of_lt hfit
    simp [TypedBufferBase.setBlob, hw, hgt]

/-- C24: for a buffer whose CPU copy has `mSize` bytes (as the constructor makes it and
`setBlob` keeps it), a source with at least `size` readable bytes and
`offset + size ≤ mSize`, in either logging configuration `setBlob` returns true; in the
buffer it leaves, the CPU copy has the same length, byte `offset + i` is source byte `i`
for every `i < size`, every byte outside `[offset, offset + size)` is the one from before,
the CPU-dirty flag is set and no other member has changed. -/
theorem setBlob_in_range_writes_bytes (logEnabled : Bool) (b : TypedBufferBase)
    (pSrc : List Nat) (offset size : Nat) (hwf : b.mData.length = b.mSize)
    (hsrc : size ≤ pSrc.length) (hin : offset + size ≤ b.mSize) :
    ∃ b', b.setBlob logEnabled pSrc offset size = .ok (true, b') ∧
      b'.mData.length = b.mData.length ∧
      (∀ i, i < size → b'.mData.get? (offset + i) = pSrc.get? i) ∧
      (∀ j, j < offset ∨ offset + size ≤ j → b'.mData.get? j = b.mData.get? j) ∧
      b'.mCpuDirty = true ∧
      b' = { b with mData := b'.mData, mCpuDirty := true } := by
  have hd : offset + size ≤ b.mData.length := by omega
  have hw : ¬ b.mSize < wrapAdd64 offset size := by
    have : wrapAdd64 offset size ≤ offset + size := Nat.mod_le _ _
    omega
  obtain ⟨h1, h2, h3⟩ := spliced_get b.mData pSrc offset size hd hsrc
  refine ⟨{ b with
      mData := b.mData.take offset ++ pSrc.take size ++ b.mData.drop (offset + size),
      mCpuDirty := true }, ?_, h1, h2, h3, rfl, rfl⟩
  simp only [TypedBufferBase.setBlob, Bool.and_eq_true, decide_eq_true_eq, gt_iff_lt, hw,
    and_false, if_false]
  rw [memcpyInto_ok _ _ _ _ hd hsrc]
  rfl

/-- Witness of C24: `setBlob(src, 4, 8)` on the sample buffer of 16 zero bytes, with a
source of 16 bytes. -/
theorem setBlob_in_range_writes_bytes_witness :
    sampleBuffer.mData.length = sampleBuffer.mSize ∧ 8 ≤ sampleBlob.length ∧
    4 + 8 ≤ sampleBuffer.mSize ∧
    sampleBufferSet.mData = [0, 0, 0, 0, 1, 2, 3, 4, 5, 6, 7, 8, 0, 0, 0, 0] ∧
    ∃ b', sampleBuffer.setBlob true sampleBlob 4 8 = .ok (true, b') ∧
      b'.mData.length = sampleBuffer.mData.length ∧
      (∀ i, i < 8 → b'.mData.get? (4 + i) = sampleBlob.get? i) ∧
      (∀ j, j < 4 ∨ 4 + 8 ≤ j → b'.mData.get? j = sampleBuffer.mData.get? j) ∧
      b'.mCpuDirty = true ∧
      b' = { sampleBuffer with mData := b'.mData, mCpuDirty := true } :=
  ⟨by decide, by decide, by decide, by decide,
    setBlob_in_range_writes_bytes true sampleBuffer sampleBlob 4 8 (by decide) (by decide)
      (by decide)⟩

/-- C25: `uploadToGPU` returns the value the CPU-dirty flag had.  When the flag was set it
makes one call `Buffer::setBlob(mData.data(), 0, mSize)`, which for a buffer whose CPU copy
has `mSize` bytes passes the whole copy, and clears the flag, changing nothing else; when
the flag was clear it changes nothing.  So a second `uploadToGPU` right after any first one
returns false and changes nothing, and an `uploadToGPU` after a `setBlob` that returned
true returns true and uploads the data that `setBlob` left. -/
theorem uploadToGPU_returns_dirty_flag (b : TypedBufferBase) :
    b.uploadToGPU.1 = b.mCpuDirty ∧
    (b.mCpuDirty = true →
      b.uploadToGPU.2 =
        { b with uploads := b.uploads ++ [⟨b.mData, 0, b.mSize⟩], mCpuDirty := false } ∧
      (b.mData.length = b.mSize →
        (⟨b.mData, 0, b.mSize⟩ : Upload).size = (⟨b.mData, 0, b.mSize⟩ : Upload).data.length)) ∧
    (b.mCpuDirty = false → b.uploadToGPU.2 = b) ∧
    b.uploadToGPU.2.uploadToGPU = (false, b.uploadToGPU.2) ∧
    (∀ (logEnabled : Bool) (pSrc : List Nat) (offset size : Nat) (b' : TypedBufferBase),
      b.setBlob logEnabled pSrc offset size = .ok (true, b') →
      b'.uploadToGPU =
        (true, { b' with uploads := b.uploads ++ [⟨b'.mData, 0, b.mSize⟩],
                         mCpuDirty := false })) := by
  refine ⟨?_, ?_, ?_, ?_, ?_⟩
  · cases h : b.mCpuDirty <;> simp [TypedBufferBase.uploadToGPU, h]
  · intro h
    refine ⟨by simp [TypedBufferBase.uploadToGPU, h], fun hwf => hwf.symm⟩
  · intro h
    simp [TypedBufferBase.uploadToGPU, h]
  · cases h : b.mCpuDirty <;> simp [TypedBufferBase.uploadToGPU, h]
  · intro logEnabled pSrc offset size b' h
    rcases setBlob_ok logEnabled b pSrc offset size _ h with ⟨hr, -, -⟩ | ⟨-, -, hr⟩
    · simp at hr
    · simp only [Prod.mk.injEq, true_and] at hr
      subst hr
      simp [TypedBufferBase.uploadToGPU]

/-- C22, the code at the failing input: the sample object is running after a `begin` for a
1920 x 1080 frame; a second `begin`, for an 800 x 600 frame, logs the error and returns,
and the frame dimensions are 800 x 600 afterwards.  In general a `begin` on a running
object stores the new frame dimensions before it tests the running flag; every other
member is left as it was. -/
theorem begin_while_running_overwrites_frame_dim :
    samplePixelRunning.mRunning = true ∧ samplePixelRunning.mFrameDim = (1920, 1080) ∧
    samplePixelRunning.begin sampleTypes samplePixelEnv (800, 600) =
      .ok ({ samplePixelRunning with mFrameDim := (800, 600) }.emit [.logError beginMessage]) ∧
    ({ samplePixelRunning with mFrameDim := (800, 600) } : PixelDebug) ≠ samplePixelRunning ∧
    (∀ (t : PixelDebugTypes) (env : PixelEnv) (frameDim : Nat × Nat) (d : PixelDebug),
      d.mRunning = true →
      d.begin t env frameDim = .ok ({ d with mFrameDim := frameDim }.emit [.logError beginMessage])) := by
  refine ⟨by decide, by decide, rfl, by decide, ?_⟩
  intro t env frameDim d hrun
  simp [PixelDebug.begin, hrun]

/-- C23: `end` on an object that is not running returns, and the only thing it does is the
`logError` call with its message: the log gains that one entry (no buffer copy, no flush,
no fence signal) and no member changes, so the waiting-for-data flag stays as it was. -/
theorem end_while_not_running_is_ignored (env : PixelEnv) (d : PixelDebug)
    (hrun : d.mRunning = false) :
    ∃ d', d.end' env = .ok d' ∧ d'.log = d.log ++ [.logError endMessage] ∧
      { d' with log := d.log } = d ∧ d'.mWaitingForData = d.mWaitingForData ∧
      d'.mRunning = false := by
  refine ⟨d.emit [.logError endMessage], ?_, rfl, rfl, rfl, hrun⟩
  simp [PixelDebug.end', hrun]

/-- Witness of C23: a second `end` right after the first one, on the sample object, which
is waiting for the data of the first. -/
theorem end_while_not_running_is_ignored_witness :
    samplePixelEnded.mRunning = false ∧ samplePixelEnded.mWaitingForData = true ∧
    ∃ d', samplePixelEnded.end' samplePixelEnv = .ok d' ∧
      d'.log = samplePixelEnded.log ++ [.logError endMessage] ∧
      { d' with log := samplePixelEnded.log } = samplePixelEnded ∧
      d'.mWaitingForData = samplePixelEnded.mWaitingForData ∧ d'.mRunning = false :=
  ⟨by decide, by decide,
    end_while_not_running_is_ignored samplePixelEnv samplePixelEnded (by decide)⟩

/-- C26: take an object that is not running, is enabled and waiting for data, has its
fence, and whose log buffers are as `begin` sets them up (pixel log `p`, assert log `a`).
For every pair of counters and every content of the staging buffers `copyDataToCPU`
returns; it copies `min(p.elementCount, counter 0)` pixel-log entries and
`min(a.elementCount, counter 1)` assert entries, so never more than a log holds; pixel entry
`i` is the record at byte offset `i * sizeof(PixelLogValue)`, which ends inside the first
`p.size` bytes of the data buffer, and assert entry `i` is the record at byte offset
`p.size + i * sizeof(AssertLogValue)`, which ends inside the `a.size` bytes that follow. -/
theorem copyDataToCPU_clamps_counts (cfg : Build) (t : PixelDebugTypes) (gpu : Readback)
    (d : PixelDebug) (hready : d.LogBuffersReady t) (hrun : d.mRunning = false)
    (hwait : d.mWaitingForData = true) (hen : d.mEnabled = true) (hfence : d.mpFence.isSome) :
    ∃ d' p a db, d.copyDataToCPU cfg t gpu = .ok d' ∧
      d.mpPixelLog = some p ∧ d.mpAssertLog = some a ∧ d.mpDataBuffer = some db ∧
      db.size = p.size + a.size ∧
      d'.mPixelLogData.length = min p.elementCount gpu.counter0 ∧
      d'.mAssertLogData.length = min a.elementCount gpu.counter1 ∧
      d'.mPixelLogData.length ≤ p.elementCount ∧ d'.mAssertLogData.length ≤ a.elementCount ∧
      d'.mPixelLogData = (List.range (min p.elementCount gpu.counter0)).map
        (fun i => gpu.pixelAt (0 + i * t.sizeofPixelLogValue)) ∧
      d'.mAssertLogData = (List.range (min a.elementCount gpu.counter1)).map
        (fun i => gpu.assertAt (p.size + i * t.sizeofAssertLogValue)) ∧
      (∀ i, i < min p.elementCount gpu.counter0 →
        0 + i * t.sizeofPixelLogValue + t.sizeofPixelLogValue ≤ p.size) ∧
      (∀ i, i < min a.elementCount gpu.counter1 →
        p.size ≤ p.size + i * t.sizeofAssertLogValue ∧
        p.size + i * t.sizeofAssertLogValue + t.sizeofAssertLogValue ≤ p.size + a.size) ∧
      d'.mDataValid = true ∧ d'.mWaitingForData = false := by
  obtain ⟨p, hp, a, ha, c, hc, db, hdb, hpe, hae, hps, has, hdbs, hcs⟩ := hready
  rw [Option.mem_def] at hp ha hc hdb
  obtain ⟨f, hf⟩ := Option.isSome_iff_exists.mp hfence
  have hpix : ∀ i, i < min p.elementCount gpu.counter0 →
      0 + i * t.sizeofPixelLogValue + t.sizeofPixelLogValue ≤ p.size := by
    intro i hi
    have := element_in_array i p.elementCount t.sizeofPixelLogValue
      (lt_of_lt_of_le hi (Nat.min_le_left _ _))
    rw [hps, hpe]
    omega
  have hass : ∀ i, i < min a.elementCount gpu.counter1 →
      p.size + i * t.sizeofAssertLogValue + t.sizeofAssertLogValue ≤ p.size + a.size := by
    intro i hi
    have := element_in_array i a.elementCount t.sizeofAssertLogValue
      (lt_of_lt_of_le hi (Nat.min_le_left _ _))
    rw [has, hae]
    omega
  have hr1 := readArray_ok db.size gpu.pixelAt t.sizeofPixelLogValue 0
    (min p.elementCount gpu.counter0) (fun i hi => by have := hpix i hi; omega)
  have hr2 := readArray_ok db.size gpu.assertAt t.sizeofAssertLogValue p.size
    (min a.elementCount gpu.counter1) (fun i hi => by have := hass i hi; omega)
  have hcs' : ¬ c.size < 2 * 4 := by omega
  have hcopy : d.copyDataToCPU cfg t gpu = .ok
      { d with
        mWaitingForData := false, log := d.log ++ [PixelEvent.syncCpu f],
        mPixelLogData := (List.range (min p.elementCount gpu.counter0)).map
          (fun i => gpu.pixelAt (0 + i * t.sizeofPixelLogValue)),
        mAssertLogData := (List.range (min a.elementCount gpu.counter1)).map
          (fun i => gpu.assertAt (p.size + i * t.sizeofAssertLogValue)),
        mDataValid := true } := by
    simp only [PixelDebug.copyDataToCPU, hrun, hwait, hen, hf, hc, hp, ha, hdb, deref,
      PixelDebug.emit, Bool.not_false, assertThat_true, bind, Except.bind, if_true, hcs',
      if_false]
    rw [hr1, hr2]
  refine ⟨_, p, a, db, hcopy, hp, ha, hdb, hdbs, ?_, ?_, ?_, ?_, rfl, rfl, hpix,
    fun i hi => ⟨Nat.le_add_right _ _, hass i hi⟩, rfl, rfl⟩
  · simp
  · simp
  · simp
  · simp

/-- Witness of C26: the sample object after `begin` and `end`, whose logs hold four entries
each, with a read-back whose first counter is 7: four pixel entries and one assert entry
are copied. -/
theorem copyDataToCPU_clamps_counts_witness :
    samplePixelEnded.LogBuffersReady sampleTypes ∧ samplePixelEnded.mRunning = false ∧
    samplePixelEnded.mWaitingForData = true ∧ samplePixelEnded.mEnabled = true ∧
    samplePixelEnded.mpFence.isSome ∧
    sampleReadback.counter0 = 7 ∧ samplePixelCopied.mPixelLogData.length = 4 ∧
    samplePixelCopied.mAssertLogData.length = 1 ∧
    ∃ d' p a db, samplePixelEnded.copyDataToCPU sampleBuild sampleTypes sampleReadback = .ok d' ∧
      samplePixelEnded.mpPixelLog = some p ∧ samplePixelEnded.mpAssertLog = some a ∧
      samplePixelEnded.mpDataBuffer = some db ∧
      db.size = p.size + a.size ∧
      d'.mPixelLogData.length = min p.elementCount sampleReadback.counter0 ∧
      d'.mAssertLogData.length = min a.elementCount sampleReadback.counter1 ∧
      d'.mPixelLogData.length ≤ p.elementCount ∧ d'.mAssertLogData.length ≤ a.elementCount ∧
      d'.mPixelLogData = (List.range (min p.elementCount sampleReadback.counter0)).map
        (fun i => sampleReadback.pixelAt (0 + i * sampleTypes.sizeofPixelLogValue)) ∧
      d'.mAssertLogData = (List.range (min a.elementCount sampleReadback.counter1)).map
        (fun i => sampleReadback.assertAt (p.size + i * sampleTypes.sizeofAssertLogValue)) ∧
      (∀ i, i < min p.elementCount sampleReadback.counter0 →
        0 + i * sampleTypes.sizeofPixelLogValue + sampleTypes.sizeofPixelLogValue ≤ p.size) ∧
      (∀ i, i < min a.elementCount sampleReadback.counter1 →
        p.size ≤ p.size + i * sampleTypes.sizeofAssertLogValue ∧
        p.size + i * sampleTypes.sizeofAssertLogValue + sampleTypes.sizeofAssertLogValue ≤
          p.size + a.size) ∧
      d'.mDataValid = true ∧ d'.mWaitingForData = false :=
  ⟨by decide, by decide, by decide, by decide, by decide, by decide, by decide, by decide,
    copyDataToCPU_clamps_counts sampleBuild sampleTypes sampleReadback samplePixelEnded
      (by decide) (by decide) (by decide) (by decide) (by decide)⟩

/-- C27, the code at the failing input: the sample object after `begin` and `end`, with a
read-back of four `Bool` values of one component whose payloads are 1, 0, 1, 0 and one
assert.  The text `renderUI` shows is `Pixel log:`, then the lines `1`, `0`, `1`, `0`, then
the assert; the words `true` and `false` do not occur.  In general the `Bool` case of the
`switch` inserts `1` for a non-zero payload and `0` for a zero payload. -/
theorem renderUI_prints_bool_as_digit :
    samplePixelEnded.renderUI sampleBuild sampleTypes sampleShowFloat ⟨true, (0, 0)⟩
      sampleReadback = .ok samplePixelRendered ∧
    samplePixelRendered.mPixelLogData =
      [⟨sampleTypes.typeBool, 1, [1, 0, 0, 0]⟩, ⟨sampleTypes.typeBool, 1, [0, 0, 0, 0]⟩,
        ⟨sampleTypes.typeBool, 1, [1, 0, 0, 0]⟩, ⟨sampleTypes.typeBool, 1, [0, 0, 0, 0]⟩] ∧
    samplePixelRendered.log.getLast? =
      some (.text "Pixel log:\n1\n0\n1\n0\n\nassert at (96, 0, 0)\n") ∧
    valueText sampleTypes sampleShowFloat ⟨sampleTypes.typeBool, 2, [5, 0, 0, 0]⟩ =
      .ok "(1, 0)\n" ∧
    (∀ (t : PixelDebugTypes) (showFloat : Nat → String) (bits : Nat),
      (bits ≠ 0 → showComponent t showFloat t.typeBool bits = "1") ∧
      (bits = 0 → showComponent t showFloat t.typeBool bits = "0") ∧
      showComponent t showFloat t.typeBool bits ≠ "true" ∧
      showComponent t showFloat t.typeBool bits ≠ "false") := by
  refine ⟨rfl, by decide, by decide, rfl, ?_⟩
  intro t showFloat bits
  by_cases hb : bits = 0
  · simp only [showComponent, hb, if_true, ne_eq, not_true_eq_false, if_false]
    exact ⟨by decide, by decide, by decide, by decide⟩
  · simp only [showComponent, hb, if_true, ne_eq, not_false_eq_true]
    exact ⟨by decide, by decide, by decide, by decide⟩

/-- C28: for every requested name and every editor state, `createNewGraph` returns once
its loop may make more tests than the name-to-index map has entries (the loop makes at most
that many plus one).  With `k` the least number such that the requested name followed by
`k` underscores is not a key of the map (every shorter candidate is a key, and `k` is at
most the number of entries), the new graph is registered under that name: the map gains the
entry from that name to the previous length of the graph list, stored as a `uint32_t`, so
equal to that length whenever it is below `2^32`; the graph list, the UI list and the
drop-down list each gain exactly one entry, at the back, carrying that name; and the current
graph index becomes the previous length of the graph list.  When the keys of the map are the
names of the open graphs (the labels of the drop-down list), as the constructor,
`loadGraphsFromFile` and `createNewGraph` leave them, the new name is not an open graph name
and every shorter candidate is one. -/
theorem createNewGraph_registers_unique_name (fuel newId : Nat) (renderGraphName : String)
    (e : RenderGraphEditor) (hfuel : e.mGraphNamesToIndex.length < fuel) :
    ∃ k e', e.createNewGraph fuel newId renderGraphName = .ok e' ∧
      k ≤ e.mGraphNamesToIndex.length ∧
      findName (renderGraphName ++ underscores k) e.mGraphNamesToIndex = none ∧
      (∀ j, j < k →
        (findName (renderGraphName ++ underscores j) e.mGraphNamesToIndex).isSome) ∧
      e'.mGraphNamesToIndex = e.mGraphNamesToIndex ++
        [(renderGraphName ++ underscores k, e.mpGraphs.length % 2 ^ 32)] ∧
      findName (renderGraphName ++ underscores k) e'.mGraphNamesToIndex =
        some (e.mpGraphs.length % 2 ^ 32) ∧
      (e.mpGraphs.length < 2 ^ 32 →
        findName (renderGraphName ++ underscores k) e'.mGraphNamesToIndex =
          some e.mpGraphs.length) ∧
      e'.mpGraphs = e.mpGraphs ++ [⟨newId, renderGraphName ++ underscores k⟩] ∧
      e'.mRenderGraphUIs = e.mRenderGraphUIs ++ [⟨newId, renderGraphName ++ underscores k⟩] ∧
      e'.mOpenGraphNames = e.mOpenGraphNames ++
        [⟨asInt32 e.mOpenGraphNames.length, renderGraphName ++ underscores k⟩] ∧
      e'.mpGraphs.length = e.mpGraphs.length + 1 ∧
      e'.mRenderGraphUIs.length = e.mRenderGraphUIs.length + 1 ∧
      e'.mOpenGraphNames.length = e.mOpenGraphNames.length + 1 ∧
      e'.mCurrentGraphIndex = e.mpGraphs.length ∧
      (e.NamesRegistered →
        renderGraphName ++ underscores k ∉ e.mOpenGraphNames.map (fun v => v.label) ∧
        (∀ j, j < k →
          renderGraphName ++ underscores j ∈ e.mOpenGraphNames.map (fun v => v.label)) ∧
        e'.NamesRegistered) := by
  obtain ⟨r, hr⟩ := uniqueGraphName_terminates e.mGraphNamesToIndex fuel renderGraphName hfuel
  obtain ⟨k, -, hk, hnone, hbelow⟩ :=
    (uniqueGraphName_spec e.mGraphNamesToIndex fuel renderGraphName).1 r hr
  subst hk
  have hmap : insertName (renderGraphName ++ underscores k) (e.mpGraphs.length % 2 ^ 32)
      e.mGraphNamesToIndex = e.mGraphNamesToIndex ++
        [(renderGraphName ++ underscores k, e.mpGraphs.length % 2 ^ 32)] := by
    simp [insertName, hnone]
  have hfound := findName_append_new (renderGraphName ++ underscores k)
    (e.mpGraphs.length % 2 ^ 32) e.mGraphNamesToIndex hnone
  refine ⟨k, e.pushGraph ⟨newId, renderGraphName ++ underscores k⟩
    (renderGraphName ++ underscores k), ?_,
    tried_names_le _ _ _ hbelow, hnone, hbelow, hmap, ?_, ?_, rfl, rfl, rfl, ?_, ?_, ?_, rfl,
    ?_⟩
  · simp [RenderGraphEditor.createNewGraph, hr, bind, Except.bind]
  · simp only [RenderGraphEditor.pushGraph, hmap]
    exact hfound
  · intro hlt
    simp only [RenderGraphEditor.pushGraph, hmap]
    rw [hfound, Nat.mod_eq_of_lt hlt]
  · simp [RenderGraphEditor.pushGraph]
  · simp [RenderGraphEditor.pushGraph]
  · simp [RenderGraphEditor.pushGraph]
  · intro hreg
    refine ⟨fun hmem => ?_, fun j hj => (hreg _).mp (hbelow j hj),
      pushGraph_namesRegistered _ _ e hreg hnone⟩
    have := (hreg _).mpr hmem
    rw [hnone] at this
    simp at this

/-- Witness of C28: the editor holds the graphs `DefaultRenderGraph` and
`DefaultRenderGraph_`; a third `createNewGraph("DefaultRenderGraph")` registers
`DefaultRenderGraph__` at position 2. -/
theorem createNewGraph_registers_unique_name_witness :
    sampleEditorTwo.mGraphNamesToIndex =
      [("DefaultRenderGraph", 0), ("DefaultRenderGraph_", 1)] ∧
    sampleEditorTwo.mGraphNamesToIndex.length < 8 ∧
    sampleEditorTwo.createNewGraph 8 12 "DefaultRenderGraph" = .ok sampleEditorThree ∧
    sampleEditorThree.mGraphNamesToIndex =
      [("DefaultRenderGraph", 0), ("DefaultRenderGraph_", 1), ("DefaultRenderGraph__", 2)] ∧
    sampleEditorThree.mCurrentGraphIndex = 2 ∧
    ∃ k e', sampleEditorTwo.createNewGraph 8 12 "DefaultRenderGraph" = .ok e' ∧
      k ≤ sampleEditorTwo.mGraphNamesToIndex.length ∧
      findName ("DefaultRenderGraph" ++ underscores k) sampleEditorTwo.mGraphNamesToIndex
        = none ∧
      (∀ j, j < k →
        (findName ("DefaultRenderGraph" ++ underscores j)
          sampleEditorTwo.mGraphNamesToIndex).isSome) ∧
      e'.mGraphNamesToIndex = sampleEditorTwo.mGraphNamesToIndex ++
        [("DefaultRenderGraph" ++ underscores k, sampleEditorTwo.mpGraphs.length % 2 ^ 32)] ∧
      findName ("DefaultRenderGraph" ++ underscores k) e'.mGraphNamesToIndex =
        some (sampleEditorTwo.mpGraphs.length % 2 ^ 32) ∧
      (sampleEditorTwo.mpGraphs.length < 2 ^ 32 →
        findName ("DefaultRenderGraph" ++ underscores k) e'.mGraphNamesToIndex =
          some sampleEditorTwo.mpGraphs.length) ∧
      e'.mpGraphs = sampleEditorTwo.mpGraphs ++ [⟨12, "DefaultRenderGraph" ++ underscores k⟩] ∧
      e'.mRenderGraphUIs = sampleEditorTwo.mRenderGraphUIs ++
        [⟨12, "DefaultRenderGraph" ++ underscores k⟩] ∧
      e'.mOpenGraphNames = sampleEditorTwo.mOpenGraphNames ++
        [⟨asInt32 sampleEditorTwo.mOpenGraphNames.length,
          "DefaultRenderGraph" ++ underscores k⟩] ∧
      e'.mpGraphs.length = sampleEditorTwo.mpGraphs.length + 1 ∧
      e'.mRenderGraphUIs.length = sampleEditorTwo.mRenderGraphUIs.length + 1 ∧
      e'.mOpenGraphNames.length = sampleEditorTwo.mOpenGraphNames.length + 1 ∧
      e'.mCurrentGraphIndex = sampleEditorTwo.mpGraphs.length ∧
      (sampleEditorTwo.NamesRegistered →
        "DefaultRenderGraph" ++ underscores k ∉
          sampleEditorTwo.mOpenGraphNames.map (fun v => v.label) ∧
        (∀ j, j < k →
          "DefaultRenderGraph" ++ underscores j ∈
            sampleEditorTwo.mOpenGraphNames.map (fun v => v.label)) ∧
        e'.NamesRegistered) :=
  ⟨by decide, by decide, rfl, by decide, by decide,
    createNewGraph_registers_unique_name 8 12 "DefaultRenderGraph" sampleEditorTwo
      (by decide)⟩

/-- C29, the code at the failing input: `onLoad` with the switch `graphFile` naming a file
that defines no graph returns with an empty graph list, an empty UI list and the current
graph index 0, which is not a valid index, and `onFrameRender` then indexes the empty UI
list.  The same holds for every non-empty file path when the importer finds no graph, or
does not find the graph named by `graphName`.  The rest of the claim holds:
`loadGraphsFromFile` and `createNewGraph` keep the three lists at one length, and `onLoad`
leaves a valid index when there is no graph file and when the file yields at least one
graph. -/
theorem onLoad_with_empty_file_leaves_index_out_of_range :
    RenderGraphEditor.new.onLoad sampleBuild 8 10 sampleFileArgs sampleEmptyFile =
      .ok sampleEditorEmptyFile ∧
    sampleEditorEmptyFile.mpGraphs = [] ∧ sampleEditorEmptyFile.mRenderGraphUIs = [] ∧
    sampleEditorEmptyFile.mCurrentGraphIndex = 0 ∧ ¬ sampleEditorEmptyFile.IndexValid ∧
    sampleEditorEmptyFile.onFrameRender = .error .outOfRange ∧
    (∀ (cfg : Build) (fuel newId : Nat) (argList : ArgList) (env : ImportEnv) (path : String),
      argList.graphFile = some path → path ≠ "" →
      (if argList.graphName.getD "" ≠ "" then env.importNamed.toList else env.importAll) = [] →
      ∃ e', RenderGraphEditor.new.onLoad cfg fuel newId argList env = .ok e' ∧
        e'.mpGraphs = [] ∧ e'.mRenderGraphUIs = [] ∧ e'.mCurrentGraphIndex = 0 ∧
        e'.onFrameRender = .error .outOfRange) ∧
    (∀ (cfg : Build) (env : ImportEnv) (fileName graphName : String)
        (e e' : RenderGraphEditor),
      e.Aligned → e.loadGraphsFromFile cfg env fileName graphName = .ok e' → e'.Aligned) ∧
    (∀ (fuel newId : Nat) (name : String) (e e' : RenderGraphEditor),
      e.Aligned → e.createNewGraph fuel newId name = .ok e' → e'.Aligned ∧ e'.IndexValid) ∧
    (∀ (cfg : Build) (fuel newId : Nat) (argList : ArgList) (env : ImportEnv),
      argList.graphFile.getD "" = "" → 0 < fuel →
      ∃ e', RenderGraphEditor.new.onLoad cfg fuel newId argList env = .ok e' ∧
        e'.Aligned ∧ e'.IndexValid) ∧
    (∀ (cfg : Build) (fuel newId : Nat) (argList : ArgList) (env : ImportEnv) (path : String),
      argList.graphFile = some path → path ≠ "" →
      (if argList.graphName.getD "" ≠ "" then env.importNamed.toList else env.importAll) ≠ [] →
      ∃ e', RenderGraphEditor.new.onLoad cfg fuel newId argList env = .ok e' ∧
        e'.Aligned ∧ e'.IndexValid) := by
  refine ⟨rfl, by decide, by decide, by decide, by decide, rfl, ?_, ?_, ?_, ?_, ?_⟩
  · intro cfg fuel newId argList env path hfile hpath hempty
    refine ⟨if argList.editor then
        { ({ RenderGraphEditor.new.emit
              [.createTextureFromFile kDefaultPassIcon, .loadAllPassLibraries] with
            mViewerRunning := true } : RenderGraphEditor) with mUpdateFilePath := path }
      else { RenderGraphEditor.new.emit
              [.createTextureFromFile kDefaultPassIcon, .loadAllPassLibraries] with
            mViewerRunning := true }, ?_, ?_, ?_, ?_, ?_⟩
    · rw [onLoad_file cfg fuel newId argList env path _ hfile hpath, hempty]
      rfl
    · cases argList.editor <;> rfl
    · cases argList.editor <;> rfl
    · cases argList.editor <;> rfl
    · cases argList.editor <;> rfl
  · intro cfg env fileName graphName e e' ha h
    simp only [RenderGraphEditor.loadGraphsFromFile, bind_eq_ok] at h
    obtain ⟨-, -, h⟩ := h
    obtain ⟨e2, he2, ha2, -⟩ := loadGraphs_aligned env.answers _ 0 e ha
    rw [he2] at h
    simp only [Except.ok.injEq] at h
    rw [← h]
    exact ha2
  · intro fuel newId name e e' ha h
    simp only [RenderGraphEditor.createNewGraph, bind_eq_ok] at h
    obtain ⟨graphName, -, h⟩ := h
    simp only [Except.ok.injEq] at h
    rw [← h]
    exact pushGraph_aligned _ _ e ha
  · intro cfg fuel newId argList env hfile hfuel
    obtain ⟨n, rfl⟩ : ∃ n, fuel = n + 1 := ⟨fuel - 1, by omega⟩
    refine ⟨_, ?_, pushGraph_aligned ⟨newId, "DefaultRenderGraph"⟩ "DefaultRenderGraph"
      (RenderGraphEditor.new.emit
        [.createTextureFromFile kDefaultPassIcon, .loadAllPassLibraries]) (by decide)⟩
    simp [RenderGraphEditor.onLoad, hfile, RenderGraphEditor.createNewGraph, uniqueGraphName,
      RenderGraphEditor.emit, RenderGraphEditor.new, findName, bind, Except.bind]
  · intro cfg fuel newId argList env path hfile hpath hne
    obtain ⟨e2, he2, ha2, -, hv2, -⟩ := loadGraphs_aligned env.answers
      (if argList.graphName.getD "" ≠ "" then env.importNamed.toList else env.importAll) 0
      ({ RenderGraphEditor.new.emit
            [.createTextureFromFile kDefaultPassIcon, .loadAllPassLibraries] with
          mViewerRunning := true } : RenderGraphEditor) (by decide)
    refine ⟨if argList.editor then { e2 with mUpdateFilePath := path } else e2, ?_, ?_, ?_⟩
    · rw [onLoad_file cfg fuel newId argList env path _ hfile hpath, he2]
      rfl
    · cases argList.editor
      · exact ha2
      · exact ha2
    · cases argList.editor
      · exact hv2 hne rfl
      · exact hv2 hne rfl

end Falcor
